import Mathlib

/-!
# Alder Chess: the rules engine (`src/logic.cpp`, `src/general.cpp`)

A shallow embedding of `AlderChess::GameLogic`.  The object state (the 8x8
`Board`, `Promotion` and `Turn`) is an explicit value of type `Game`; member
functions that write to the object return the new state.  C++ `int` values
(coordinates, owners, pieces, matrix entries) are `Int`.
-/

namespace AlderChess

/-! ## `XY` (general.cpp) -/

/-- The class `XY`: a pair of `int` coordinates. -/
structure XY where
  x : Int
  y : Int
deriving DecidableEq

/-- `XY::operator+`. -/
def XY.add (a b : XY) : XY := ⟨a.x + b.x, a.y + b.y⟩

/-- `XY::InRange(a, b)`: in range between a and b minus one. -/
def XY.InRange (c a b : XY) : Bool :=
  decide (c.x ≥ a.x) && decide (c.x < b.x) && decide (c.y ≥ a.y) && decide (c.y < b.y)

/-- `XY::InRange8()`. -/
def XY.InRange8 (c : XY) : Bool := c.InRange ⟨0, 0⟩ ⟨8, 8⟩

/-! ## Enumerations (alderchess.hpp) -/

namespace PlayerType
/-- `PlayerType::Nobody`. -/
abbrev Nobody : Int := 0
/-- `PlayerType::Black`. -/
abbrev Black : Int := 1
/-- `PlayerType::White`. -/
abbrev White : Int := 2
end PlayerType

namespace PieceType
/-- `PieceType::NoPiece`. -/
abbrev NoPiece : Int := 0
/-- `PieceType::Pawn`. -/
abbrev Pawn : Int := 1
/-- `PieceType::Knight`. -/
abbrev Knight : Int := 2
/-- `PieceType::Bishop`. -/
abbrev Bishop : Int := 3
/-- `PieceType::Rook`. -/
abbrev Rook : Int := 4
/-- `PieceType::Dame`. -/
abbrev Dame : Int := 5
/-- `PieceType::King`. -/
abbrev King : Int := 6
end PieceType

/-! ## The board -/

/-- The struct `GameLogic::BoardPiece`. -/
structure BoardPiece where
  Owner : Int
  Piece : Int
  Touched : Bool
  EnPassantTarget : Bool
  CastlingTarget : Bool
deriving DecidableEq

/-- The anonymous struct `GameLogic::Promotion`. -/
structure PromotionState where
  Pending : Bool
  Location : XY
deriving DecidableEq

/-- The data members of `GameLogic`: `Board[y][x]`, `Promotion`, `Turn`. -/
structure Game where
  Board : Fin 8 → Fin 8 → BoardPiece
  Promotion : PromotionState
  Turn : Int

/-- `Matrix<int, 8, 8>`, indexed `[y][x]`. -/
abbrev Matrix8 := Fin 8 → Fin 8 → Int

/-- An `int` index as an array index; only used under an `InRange8` test. -/
def toFin8 (i : Int) : Fin 8 := ⟨i.toNat % 8, Nat.mod_lt _ (by decide)⟩

/-- What a read of `Board[y][x]` outside the array yields in the model.  The
source only performs such a read in `Travel`, where the value is masked by
the `InRange8` test of the same iteration. -/
def OffBoard : BoardPiece := ⟨PlayerType.Nobody, PieceType.NoPiece, false, false, false⟩

/-- The read `Board[c.y][c.x]`. -/
def Game.sq (g : Game) (c : XY) : BoardPiece :=
  if c.InRange8 then g.Board (toFin8 c.y) (toFin8 c.x) else OffBoard

/-- An assignment to fields of `Board[c.y][c.x]`: the square becomes `f` of
its old value.  A write outside the array is dropped. -/
def Game.setSq (g : Game) (c : XY) (f : BoardPiece → BoardPiece) : Game :=
  if c.InRange8 then
    { g with Board := fun y x =>
        if y = toFin8 c.y ∧ x = toFin8 c.x then f (g.Board y x) else g.Board y x }
  else g

/-- `EmptyMatrix8x8()`. -/
def EmptyMatrix8x8 : Matrix8 := fun _ _ => 0

/-- `NormalizeMatrix8x8(mtx)`: every positive entry becomes 1, every other 0. -/
def NormalizeMatrix8x8 (mtx : Matrix8) : Matrix8 :=
  fun y x => if mtx y x > 0 then 1 else 0

/-- `Matrix::operator+`, entry by entry. -/
def Matrix8.add (a b : Matrix8) : Matrix8 := fun y x => a y x + b y x

/-- The read `m[c.y][c.x]` (0 outside the matrix). -/
def Matrix8.at (m : Matrix8) (c : XY) : Int :=
  if c.InRange8 then m (toFin8 c.y) (toFin8 c.x) else 0

/-- The assignment `m[c.y][c.x] = v`. -/
def Matrix8.set (m : Matrix8) (c : XY) (v : Int) : Matrix8 :=
  if c.InRange8 then
    fun y x => if y = toFin8 c.y ∧ x = toFin8 c.x then v else m y x
  else m

/-- The values of a loop variable `for (int i = 0; i < 8; i++)` that is used
as an array index. -/
def Idx8 : List (Fin 8) := [0, 1, 2, 3, 4, 5, 6, 7]

/-- The index pairs `(y, x)` in the order of the loops
`for (y = 0; y < 8; y++) for (x = 0; x < 8; x++)`. -/
def allSquares : List (Fin 8 × Fin 8) :=
  Idx8.flatMap fun y => Idx8.map fun x => (y, x)

/-- The coordinate `{x, y}` built from two loop variables. -/
def XY.ofIdx (x y : Fin 8) : XY := ⟨(x.val : Int), (y.val : Int)⟩

/-- The values taken by `e` in a loop `for (int e = lo; e < hi; e++)`. -/
def IntRange (lo hi : Int) : List Int :=
  (List.range (hi - lo).toNat).map fun (i : Nat) => lo + (i : Int)

/-! ## Elementary queries (logic.cpp) -/

/-- `GameLogic::Opponent`. -/
def Opponent (Player : Int) : Int :=
  if Player = PlayerType.Black then PlayerType.White
  else if Player = PlayerType.White then PlayerType.Black
  else PlayerType.Nobody

/-- `GameLogic::CanSelect`. -/
def CanSelect (g : Game) (Player : Int) (SquareCoordinates : XY) : Bool :=
  decide ((g.sq SquareCoordinates).Owner = Player)

/-- `GameLogic::GetTurn`. -/
def GetTurn (g : Game) : Int := g.Turn

/-- `GameLogic::GetPiece`. -/
def GetPiece (g : Game) (Coordinates : XY) : Int := (g.sq Coordinates).Piece

/-- `GameLogic::GetOwner`. -/
def GetOwner (g : Game) (Coordinates : XY) : Int := (g.sq Coordinates).Owner

/-- `GameLogic::FindKing`: the last square, in loop order, that holds a king
of `Player`; `{-1, -1}` when there is none. -/
def FindKing (g : Game) (Player : Int) : XY :=
  allSquares.foldl
    (fun KingLocation s =>
      if (g.Board s.1 s.2).Owner = Player ∧ (g.Board s.1 s.2).Piece = PieceType.King then
        XY.ofIdx s.2 s.1
      else KingLocation)
    ⟨-1, -1⟩

/-! ## `Travel` -/

/-- The body of the `for (;;)` loop of `GameLogic::Travel`, run at most `fuel`
times; `none` when the loop has not reached its `break` by then. -/
def TravelLoop : Nat → Game → Int → XY → XY → Int → Matrix8 → Option Matrix8
  | 0, _, _, _, _, _, _ => none
  | fuel + 1, g, Player, Location, SpeedVector, Distance, TravelMap =>
    let k1 := decide ((g.sq Location).Owner ≠ Opponent Player)
    let k2 := decide (Distance = -1) || decide (Distance > 0)
    let Distance1 := if Distance = -1 then Distance else Distance - 1
    let Location1 := Location.add SpeedVector
    let k3 := Location1.InRange8
    let k4 := decide ((g.sq Location1).Owner ≠ Player)
    if k1 && k2 && k3 && k4 then
      TravelLoop fuel g Player Location1 SpeedVector Distance1 (TravelMap.set Location1 1)
    else some TravelMap

/-- `GameLogic::Travel`.  From a square of the board a non-zero speed vector
leaves the board after at most seven steps, so eight iterations reach the
`break`. -/
def Travel (g : Game) (Player : Int) (Location SpeedVector : XY) (Distance : Int) : Matrix8 :=
  match TravelLoop 8 g Player Location SpeedVector Distance EmptyMatrix8x8 with
  | some TravelMap => TravelMap
  | none => EmptyMatrix8x8

/-! ## `GetTravelMap`: the candidate moves of one piece -/

/-- The `case PieceType::Pawn` block of `GetTravelMap`: the speed vectors pushed
for a pawn, in the order of the `push_back` calls. -/
def PawnSpeedVectors (g : Game) (Player : Int) (SquareCoordinates : XY)
    (IncludeSpecialMoves AlwaysIncludePawnDiagonal : Bool) : List XY :=
  let dy : Int := if Player = PlayerType.Black then 1 else -1
  let TestFreeSpace1 : XY := ⟨SquareCoordinates.x, SquareCoordinates.y + dy⟩
  let TestFreeSpace2 : XY := ⟨SquareCoordinates.x, SquareCoordinates.y + dy + dy⟩
  let FreeSpace : List XY :=
    if TestFreeSpace1.InRange8 && decide ((g.sq TestFreeSpace1).Owner = PlayerType.Nobody) then
      ⟨0, dy⟩ ::
        (if TestFreeSpace2.InRange8
              && decide ((g.sq TestFreeSpace2).Owner = PlayerType.Nobody)
              && !(g.sq SquareCoordinates).Touched then
          [⟨0, 2 * dy⟩]
        else [])
    else []
  let DiagonalAttack : List XY :=
    ([-1, 1] : List Int).flatMap fun dx =>
      let TestDiagonalAttack : XY := ⟨SquareCoordinates.x + dx, SquareCoordinates.y + dy⟩
      if (TestDiagonalAttack.InRange8
            && decide ((g.sq TestDiagonalAttack).Owner = Opponent Player))
          || AlwaysIncludePawnDiagonal then
        [⟨dx, dy⟩]
      else []
  let EnPassant : List XY :=
    if IncludeSpecialMoves then
      ([-1, 1] : List Int).flatMap fun dx =>
        let TestEnPassant : XY := ⟨SquareCoordinates.x + dx, SquareCoordinates.y + dy⟩
        if TestEnPassant.InRange8 then
          if (g.sq TestEnPassant).EnPassantTarget = true then [⟨dx, dy⟩] else []
        else []
    else []
  FreeSpace ++ DiagonalAttack ++ EnPassant

/-- The nested loops `for (y = lo..hi) for (x = lo..hi) if (keep x y) push_back({x, y})`
that fill `SpeedVectors` for the other pieces. -/
def LoopSpeedVectors (range : List Int) (keep : Int → Int → Bool) : List XY :=
  range.flatMap fun y => range.flatMap fun x => if keep x y then [⟨x, y⟩] else []

/-- The `switch` of `GetTravelMap`: the `SpeedVectors` of the piece on the square. -/
def SpeedVectorsOf (g : Game) (Player : Int) (SquareCoordinates : XY)
    (IncludeSpecialMoves IncludeKing AlwaysIncludePawnDiagonal : Bool) : List XY :=
  let Piece := (g.sq SquareCoordinates).Piece
  if Piece = PieceType.Pawn then
    PawnSpeedVectors g Player SquareCoordinates IncludeSpecialMoves AlwaysIncludePawnDiagonal
  else if Piece = PieceType.Knight then
    LoopSpeedVectors [-2, -1, 0, 1, 2]
      (fun x y => decide (x ≠ 0) && decide (y ≠ 0) && decide (x.natAbs ≠ y.natAbs))
  else if Piece = PieceType.Bishop then
    LoopSpeedVectors [-1, 0, 1] (fun x y => decide (x ≠ 0) && decide (y ≠ 0))
  else if Piece = PieceType.Rook then
    LoopSpeedVectors [-1, 0, 1] (fun x y => decide (x ≠ y) && (decide (x = 0) || decide (y = 0)))
  else if Piece = PieceType.Dame then
    LoopSpeedVectors [-1, 0, 1] (fun x y => !(decide (x = 0) && decide (y = 0)))
  else if Piece = PieceType.King then
    if IncludeKing then
      LoopSpeedVectors [-1, 0, 1] (fun x y => !(decide (x = 0) && decide (y = 0)))
    else []
  else []

/-- The `switch` of `GetTravelMap`: the value of `Distance` after it. -/
def DistanceOf (g : Game) (SquareCoordinates : XY) (IncludeKing : Bool) : Int :=
  let Piece := (g.sq SquareCoordinates).Piece
  if Piece = PieceType.Pawn then 1
  else if Piece = PieceType.Knight then 1
  else if Piece = PieceType.Bishop then -1
  else if Piece = PieceType.Rook then -1
  else if Piece = PieceType.Dame then -1
  else if Piece = PieceType.King then (if IncludeKing then 1 else 0)
  else 0

/-- The `switch` of `GetTravelMap`: the value of `TravelMap` after it, which is
empty except for the castling targets that the king case marks. -/
def CastlingMarks (g : Game) (SquareCoordinates : XY)
    (IncludeSpecialMoves IncludeKing : Bool) : Matrix8 :=
  if (g.sq SquareCoordinates).Piece = PieceType.King ∧ IncludeKing = true
      ∧ IncludeSpecialMoves = true then
    fun y x => if (g.Board y x).CastlingTarget = true then 1 else 0
  else EmptyMatrix8x8

/-- `GetTravelMap` after its early return and up to the first
`NormalizeMatrix8x8`: the `switch` and the accumulation of `Travel` over the
speed vectors. -/
def TravelCandidates (g : Game) (Player : Int) (SquareCoordinates : XY)
    (IncludeSpecialMoves IncludeKing AlwaysIncludePawnDiagonal : Bool) : Matrix8 :=
  let SpeedVectors := SpeedVectorsOf g Player SquareCoordinates
    IncludeSpecialMoves IncludeKing AlwaysIncludePawnDiagonal
  let Distance := DistanceOf g SquareCoordinates IncludeKing
  let TravelMap := SpeedVectors.foldl
    (fun TravelMap sv =>
      TravelMap.add (Travel g (g.sq SquareCoordinates).Owner SquareCoordinates sv Distance))
    (CastlingMarks g SquareCoordinates IncludeSpecialMoves IncludeKing)
  NormalizeMatrix8x8 TravelMap

/-- `GetTravelMap(Player, SquareCoordinates, false, IncludeSpecialMoves, true,
IncludeKing, AlwaysIncludePawnDiagonal)`: with `SubstractKingIllegal` off and
`PreventRecursiveKingInCheck` on, both trailing blocks are skipped, nothing is
called back and the board is only read. -/
def GetTravelMapGuarded (g : Game) (Player : Int) (SquareCoordinates : XY)
    (IncludeSpecialMoves IncludeKing AlwaysIncludePawnDiagonal : Bool) : Matrix8 :=
  if !CanSelect g Player SquareCoordinates then EmptyMatrix8x8
  else
    NormalizeMatrix8x8 (TravelCandidates g Player SquareCoordinates
      IncludeSpecialMoves IncludeKing AlwaysIncludePawnDiagonal)

/-- `GetTravelMapGlobal(Player, true, IncludeKing, AlwaysIncludePawnDiagonal)`:
the combined map with the recursion guard on. -/
def GetTravelMapGlobalGuarded (g : Game) (Player : Int)
    (IncludeKing AlwaysIncludePawnDiagonal : Bool) : Matrix8 :=
  NormalizeMatrix8x8 (allSquares.foldl
    (fun TravelMap s =>
      if (g.Board s.1 s.2).Owner = Player then
        TravelMap.add (GetTravelMapGuarded g Player (XY.ofIdx s.2 s.1) false IncludeKing
          AlwaysIncludePawnDiagonal)
      else TravelMap)
    EmptyMatrix8x8)

/-- `GameLogic::KingInCheck`. -/
def KingInCheck (g : Game) (Player : Int) : Bool :=
  let KingLocation := FindKing g Player
  if !KingLocation.InRange8 then false
  else
    let TravelMapOpponentGlobal := GetTravelMapGlobalGuarded g (Opponent Player) true true
    allSquares.foldl
      (fun KingCheck s =>
        if TravelMapOpponentGlobal s.1 s.2 > 0 ∧ (s.2.val : Int) = KingLocation.x
            ∧ (s.1.val : Int) = KingLocation.y then true
        else KingCheck)
      false

/-- `GetTravelMap` after its early return and up to the check-escape block:
the candidates, from which the opponent's combined map is subtracted when the
piece is a king and `SubstractKingIllegal` is set. -/
def KingSubtracted (g : Game) (Player : Int) (SquareCoordinates : XY)
    (SubstractKingIllegal IncludeSpecialMoves IncludeKing AlwaysIncludePawnDiagonal : Bool) :
    Matrix8 :=
  let TravelMap := TravelCandidates g Player SquareCoordinates
    IncludeSpecialMoves IncludeKing AlwaysIncludePawnDiagonal
  if (g.sq SquareCoordinates).Piece = PieceType.King ∧ SubstractKingIllegal = true then
    let TravelMapOpponentGlobal := GetTravelMapGlobalGuarded g (Opponent Player) true true
    fun y x => TravelMap y x - TravelMapOpponentGlobal y x
  else TravelMap

/-- `GameLogic::SwapPieces`: exchanges `Owner`, `Piece` and `Touched` of two squares. -/
def SwapPieces (g : Game) (Source Destination : XY) : Game :=
  let Temp := g.sq Destination
  let g1 := g.setSq Destination (fun d =>
    { d with Owner := (g.sq Source).Owner, Piece := (g.sq Source).Piece,
             Touched := (g.sq Source).Touched })
  g1.setSq Source (fun s =>
    { s with Owner := Temp.Owner, Piece := Temp.Piece, Touched := Temp.Touched })

/-- One iteration of the check-escape loop of `GetTravelMap`
(`if (TravelMap[y][x] > 0) { SwapPieces; if (KingInCheck) ...; SwapPieces; }`),
acting on the map and on the object state. -/
def CheckEscapeStep (Player : Int) (SquareCoordinates : XY)
    (s : Matrix8 × Game) (c : Fin 8 × Fin 8) : Matrix8 × Game :=
  if s.1 c.1 c.2 > 0 then
    let g1 := SwapPieces s.2 SquareCoordinates (XY.ofIdx c.2 c.1)
    let TravelMap : Matrix8 :=
      if KingInCheck g1 Player then
        fun y x => if y = c.1 ∧ x = c.2 then 0 else s.1 y x
      else s.1
    (TravelMap, SwapPieces g1 SquareCoordinates (XY.ofIdx c.2 c.1))
  else s

/-- `GameLogic::GetTravelMap`: the returned matrix and the state of the object
after the call. -/
def GetTravelMap (g : Game) (Player : Int) (SquareCoordinates : XY)
    (SubstractKingIllegal IncludeSpecialMoves PreventRecursiveKingInCheck
      IncludeKing AlwaysIncludePawnDiagonal : Bool) : Matrix8 × Game :=
  if !CanSelect g Player SquareCoordinates then (EmptyMatrix8x8, g)
  else
    let TravelMap := KingSubtracted g Player SquareCoordinates SubstractKingIllegal
      IncludeSpecialMoves IncludeKing AlwaysIncludePawnDiagonal
    let s : Matrix8 × Game :=
      if !PreventRecursiveKingInCheck then
        if KingInCheck g Player then
          allSquares.foldl (CheckEscapeStep Player SquareCoordinates) (TravelMap, g)
        else (TravelMap, g)
      else (TravelMap, g)
    (NormalizeMatrix8x8 s.1, s.2)

/-- The body of the loops of `GetTravelMapGlobal`, acting on the accumulated
map and on the object state. -/
def GlobalStep (Player : Int)
    (PreventRecursiveKingInCheck IncludeKing AlwaysIncludePawnDiagonal : Bool)
    (s : Matrix8 × Game) (c : Fin 8 × Fin 8) : Matrix8 × Game :=
  if (s.2.Board c.1 c.2).Owner = Player then
    let r := GetTravelMap s.2 Player (XY.ofIdx c.2 c.1) false false
      PreventRecursiveKingInCheck IncludeKing AlwaysIncludePawnDiagonal
    (s.1.add r.1, r.2)
  else s

/-- `GameLogic::GetTravelMapGlobal`: the combined map of all pieces of a player
and the state of the object after the call. -/
def GetTravelMapGlobal (g : Game) (Player : Int)
    (PreventRecursiveKingInCheck IncludeKing AlwaysIncludePawnDiagonal : Bool) :
    Matrix8 × Game :=
  let s := allSquares.foldl
    (GlobalStep Player PreventRecursiveKingInCheck IncludeKing AlwaysIncludePawnDiagonal)
    (EmptyMatrix8x8, g)
  (NormalizeMatrix8x8 s.1, s.2)

/-! ## Game-end detection -/

/-- `GameLogic::PlayerCanMove`: the answer and the state of the object after
the call. -/
def PlayerCanMove (g : Game) (Player : Int) : Bool × Game :=
  let r1 := GetTravelMapGlobal g Player false false false
  let r2 := GetTravelMap r1.2 Player (FindKing r1.2 Player) true true false true false
  let TravelMapGlobal := r1.1.add r2.1
  (allSquares.foldl
      (fun CanMove s => if TravelMapGlobal s.1 s.2 > 0 then true else CanMove) false,
    r2.2)

/-- `GameLogic::Checkmate`: `KingInCheck(Player) && !PlayerCanMove(Player)`; the
second call is only made when the first returns true. -/
def Checkmate (g : Game) (Player : Int) : Bool × Game :=
  if KingInCheck g Player then
    let r := PlayerCanMove g Player
    (!r.1, r.2)
  else (false, g)

/-- `GameLogic::Stalemate`: `!KingInCheck(Player) && !PlayerCanMove(Player)`. -/
def Stalemate (g : Game) (Player : Int) : Bool × Game :=
  if !KingInCheck g Player then
    let r := PlayerCanMove g Player
    (!r.1, r.2)
  else (false, g)

/-! ## Castling information -/

/-- The loop `for (e = StartX + 1; e < EndX; e++)` of
`UpdateCastlingInformation`: the final value of `EmptyGround`. -/
def EmptyGround (g : Game) (TravelMapOpponentGlobal : Matrix8) (Row StartX EndX : Int) : Bool :=
  (IntRange (StartX + 1) EndX).foldl
    (fun EmptyGround e =>
      if (g.sq ⟨e, Row⟩).Owner ≠ PlayerType.Nobody ∨ TravelMapOpponentGlobal.at ⟨e, Row⟩ > 0
      then false else EmptyGround)
    true

/-- One iteration of the loop `for (int x : {0, 7})` of `UpdateCastlingInformation`. -/
def CastlingStep (Player Row : Int) (KingLocation : XY) (TravelMapOpponentGlobal : Matrix8)
    (g : Game) (x : Int) : Game :=
  if (g.sq ⟨x, Row⟩).Owner = Player ∧ (g.sq ⟨x, Row⟩).Piece = PieceType.Rook
      ∧ (g.sq ⟨x, Row⟩).Touched = false then
    let RookLocation : XY := ⟨x, Row⟩
    let StartX := if RookLocation.x < KingLocation.x then RookLocation.x else KingLocation.x
    let EndX := if RookLocation.x < KingLocation.x then KingLocation.x else RookLocation.x
    if x = 0 then
      if EmptyGround g TravelMapOpponentGlobal Row StartX EndX then
        g.setSq ⟨2, Row⟩ (fun s => { s with CastlingTarget := true })
      else g
    else if x = 7 then
      if EmptyGround g TravelMapOpponentGlobal Row StartX EndX then
        g.setSq ⟨6, Row⟩ (fun s => { s with CastlingTarget := true })
      else g
    else g
  else g

/-- The first loop of `UpdateCastlingInformation`: every `CastlingTarget` is
set to false. -/
def ClearCastlingTargets (g : Game) : Game :=
  { g with Board := fun y x => { g.Board y x with CastlingTarget := false } }

/-- The local `Row` of `UpdateCastlingInformation`: `int Row = 0; if (Player ==
PlayerType::White) Row = 7;`. -/
def HomeRow (Player : Int) : Int := if Player = PlayerType.White then 7 else 0

/-- `GameLogic::UpdateCastlingInformation`. -/
def UpdateCastlingInformation (g : Game) (Player : Int) : Game :=
  let g0 : Game := ClearCastlingTargets g
  if Player = PlayerType.Nobody then g0
  else if KingInCheck g0 Player then g0
  else
    let Row : Int := HomeRow Player
    let KingLocation := FindKing g0 Player
    if !KingLocation.InRange8 then g0
    else if KingLocation.x ≠ 4 ∧ KingLocation.y ≠ Row
        ∧ (g0.sq KingLocation).Touched ≠ false then g0
    else
      let TravelMapOpponentGlobal := GetTravelMapGlobalGuarded g0 (Opponent Player) true true
      ([0, 7] : List Int).foldl
        (CastlingStep Player Row KingLocation TravelMapOpponentGlobal) g0

/-! ## `Restart` -/

/-- The pieces of the back rows in the order of the inner loop of `Restart`,
each with the value of `x` at which it is placed. -/
def BackRow : List (Int × Int) :=
  [(0, PieceType.Rook), (1, PieceType.Knight), (2, PieceType.Bishop), (3, PieceType.Dame),
   (4, PieceType.King), (5, PieceType.Bishop), (6, PieceType.Knight), (7, PieceType.Rook)]

/-- The body of the loops that populate the board in `Restart`: one piece of
the back row of owner `o` and the pawn in front of it. -/
def PlacePieces (g : Game) (o : Int) (xp : Int × Int) : Game :=
  let g1 := g.setSq ⟨xp.1, (o - 1) * 7⟩ (fun s => { s with Owner := o, Piece := xp.2 })
  g1.setSq ⟨xp.1, (o - 1) * 7 + 1 - (o - 1) * 2⟩
    (fun s => { s with Owner := o, Piece := PieceType.Pawn })

/-- `GameLogic::Restart`. -/
def Restart (g : Game) : Game :=
  let g1 : Game :=
    { g with
      Turn := PlayerType.White
      Promotion := ⟨false, ⟨0, 0⟩⟩
      Board := fun y _ =>
        { Touched := if y.val ≤ 1 ∨ y.val ≥ 6 then false else true
          EnPassantTarget := false
          CastlingTarget := false
          Piece := PieceType.NoPiece
          Owner := PlayerType.Nobody } }
  let g2 := ([PlayerType.Black, PlayerType.White] : List Int).foldl
    (fun g o => BackRow.foldl (fun g xp => PlacePieces g o xp) g) g1
  UpdateCastlingInformation g2 g2.Turn

/-! ## `Move` -/

/-- The part of `Move` that runs once the destination is found in the travel
map: the relocation of the piece and the special-move bookkeeping. -/
def ApplyMove (g : Game) (Source Destination : XY) : Game :=
  -- Move the piece
  let g := g.setSq Destination (fun d =>
    { d with Owner := (g.sq Source).Owner, Piece := (g.sq Source).Piece })
  let g := g.setSq Source (fun s =>
    { s with Owner := PlayerType.Nobody, Piece := PieceType.NoPiece, Touched := true })
  -- Check if castling was performed
  let g :=
    if (g.sq Destination).Piece = PieceType.King ∧ (g.sq Destination).CastlingTarget = true then
      let RookSource : XY := ⟨if Destination.x > Source.x then 7 else 0, Destination.y⟩
      let RookDestination : XY := ⟨if Destination.x > Source.x then 5 else 3, Destination.y⟩
      let g1 := g.setSq RookDestination (fun d =>
        { d with Owner := (g.sq RookSource).Owner, Piece := (g.sq RookSource).Piece })
      g1.setSq RookSource (fun s =>
        { s with Owner := PlayerType.Nobody, Piece := PieceType.NoPiece, Touched := true })
    else g
  -- Check if En passant attack was performed
  let g :=
    if (g.sq Destination).Piece = PieceType.Pawn
        ∧ (g.sq Destination).EnPassantTarget = true then
      let CapturePiece : XY :=
        ⟨Destination.x,
          if g.Turn = PlayerType.Black then Destination.y - 1
          else if g.Turn = PlayerType.White then Destination.y + 1
          else Destination.y⟩
      if CapturePiece.InRange8 then
        g.setSq CapturePiece (fun s =>
          { s with Owner := PlayerType.Nobody, Piece := PieceType.NoPiece })
      else g
    else g
  -- Clear En passant information
  let g : Game := { g with Board := fun y x => { g.Board y x with EnPassantTarget := false } }
  -- Update En passant target for pawn
  let g :=
    if (g.sq Destination).Piece = PieceType.Pawn
        ∧ (Destination.y - Source.y).natAbs = 2 then
      if (g.sq Destination).Owner = PlayerType.Black then
        g.setSq ⟨Destination.x, Destination.y - 1⟩ (fun s => { s with EnPassantTarget := true })
      else if (g.sq Destination).Owner = PlayerType.White then
        g.setSq ⟨Destination.x, Destination.y + 1⟩ (fun s => { s with EnPassantTarget := true })
      else g
    else g
  -- See if pawn should be promoted
  if (g.sq Destination).Piece = PieceType.Pawn then
    if ((g.sq Destination).Owner = PlayerType.Black ∧ Destination.y = 7)
        ∨ ((g.sq Destination).Owner = PlayerType.White ∧ Destination.y = 0) then
      { g with Promotion := ⟨true, ⟨Destination.x, Destination.y⟩⟩ }
    else g
  else g

/-- `GameLogic::Move`: the returned status and the state of the object after
the call. -/
def Move (g : Game) (Source Destination : XY) : Bool × Game :=
  if !CanSelect g (g.sq Source).Owner Source then (false, g)
  else
    let r := GetTravelMap g (g.sq Source).Owner Source true true false true false
    if r.1.at Destination > 0 then (true, ApplyMove r.2 Source Destination)
    else (false, r.2)

/-! ## Derived forms used in the proofs -/

/-- The map of `GetTravelMap` after the check-escape block, entry by entry: a
positive entry is cleared exactly when the block runs, the king is in check,
and it is still in check after the pieces are swapped. -/
def EscapeFiltered (g : Game) (Player : Int) (SquareCoordinates : XY)
    (SubstractKingIllegal IncludeSpecialMoves PreventRecursiveKingInCheck
      IncludeKing AlwaysIncludePawnDiagonal : Bool) : Matrix8 :=
  fun y x =>
    if PreventRecursiveKingInCheck = false ∧ KingInCheck g Player = true
        ∧ KingSubtracted g Player SquareCoordinates SubstractKingIllegal IncludeSpecialMoves
            IncludeKing AlwaysIncludePawnDiagonal y x > 0
        ∧ KingInCheck (SwapPieces g SquareCoordinates (XY.ofIdx x y)) Player = true then 0
    else KingSubtracted g Player SquareCoordinates SubstractKingIllegal IncludeSpecialMoves
      IncludeKing AlwaysIncludePawnDiagonal y x

/-- Two states that agree on everything except, possibly, the `CastlingTarget` flags. -/
def SameButCastling (g h : Game) : Prop :=
  (∀ y x, (g.Board y x).Owner = (h.Board y x).Owner ∧ (g.Board y x).Piece = (h.Board y x).Piece
      ∧ (g.Board y x).Touched = (h.Board y x).Touched
      ∧ (g.Board y x).EnPassantTarget = (h.Board y x).EnPassantTarget)
    ∧ g.Promotion = h.Promotion ∧ g.Turn = h.Turn

/-! ## Positions used as concrete inputs -/

/-- A board without pieces: every square is empty with `Touched = true` and no
flag set, it is White's turn and no promotion is pending. -/
def EmptyBoard : Game :=
  { Board := fun _ _ => ⟨PlayerType.Nobody, PieceType.NoPiece, true, false, false⟩
    Promotion := ⟨false, ⟨0, 0⟩⟩
    Turn := PlayerType.White }

/-- Puts a piece on the square `(x, y)`. -/
def Game.place (g : Game) (x y Owner Piece : Int) (Touched : Bool) : Game :=
  g.setSq ⟨x, y⟩ (fun s => { s with Owner := Owner, Piece := Piece, Touched := Touched })

/-- White: king e1 `(4,7)`, knight e5 `(4,3)`.  Black: rook e8 `(4,0)`, knight d3
`(3,5)` giving check, king a8 `(0,0)`.  The white knight shields its king from
the rook. -/
def PinnedKnightInCheck : Game :=
  ((((EmptyBoard.place 4 7 PlayerType.White PieceType.King true).place
    4 3 PlayerType.White PieceType.Knight true).place
    4 0 PlayerType.Black PieceType.Rook true).place
    3 5 PlayerType.Black PieceType.Knight true).place
    0 0 PlayerType.Black PieceType.King true

/-- White: king e1 `(4,7)`.  Black: knight e2 `(4,6)` defended by the rook e8
`(4,0)`, king a8 `(0,0)`.  The white king is not in check. -/
def DefendedKnight : Game :=
  (((EmptyBoard.place 4 7 PlayerType.White PieceType.King true).place
    4 6 PlayerType.Black PieceType.Knight true).place
    4 0 PlayerType.Black PieceType.Rook true).place
    0 0 PlayerType.Black PieceType.King true

/-- White: king e1 `(4,7)`, knight e2 `(4,6)`.  Black: rook e8 `(4,0)`, king a8
`(0,0)`.  The knight is pinned; the white king is not in check. -/
def PinnedKnight : Game :=
  (((EmptyBoard.place 4 7 PlayerType.White PieceType.King true).place
    4 6 PlayerType.White PieceType.Knight true).place
    4 0 PlayerType.Black PieceType.Rook true).place
    0 0 PlayerType.Black PieceType.King true

/-- White: king on d1 `(3,7)`, having moved there (`Touched = true`), rook a1
`(0,7)` that has not moved; b1 and c1 empty.  Black: king e8 `(4,0)`. -/
def KingOnD1 : Game :=
  ((EmptyBoard.place 3 7 PlayerType.White PieceType.King true).place
    0 7 PlayerType.White PieceType.Rook false).place
    4 0 PlayerType.Black PieceType.King true

/-- White: king back on e1 `(4,7)` after having moved (`Touched = true`), rook a1
`(0,7)` that has not moved; b1, c1, d1 empty.  Black: king e8 `(4,0)`. -/
def KingReturnedToE1 : Game :=
  ((EmptyBoard.place 4 7 PlayerType.White PieceType.King true).place
    0 7 PlayerType.White PieceType.Rook false).place
    4 0 PlayerType.Black PieceType.King true

/-- White: king e1 `(4,7)` and rook a1 `(0,7)`, neither has moved; b1, c1, d1
empty.  Black: king e8 `(4,0)`. -/
def CastlingReady : Game :=
  ((EmptyBoard.place 4 7 PlayerType.White PieceType.King false).place
    0 7 PlayerType.White PieceType.Rook false).place
    4 0 PlayerType.Black PieceType.King true

/-- White: king a8 `(0,0)`.  Black: dame b6 `(1,2)`, king c7 `(2,1)`.  White is
not in check and has no move. -/
def Stalemated : Game :=
  ((EmptyBoard.place 0 0 PlayerType.White PieceType.King true).place
    1 2 PlayerType.Black PieceType.Dame true).place
    2 1 PlayerType.Black PieceType.King true

/-- The position `KingOnD1` with the castling flags as `UpdateCastlingInformation`
computes them for White, the player to move. -/
def KingOnD1Flagged : Game := UpdateCastlingInformation KingOnD1 PlayerType.White

/-! ## Promotion and turn (logic.cpp) -/

/-- `GameLogic::PromotionRequested`. -/
def PromotionRequested (g : Game) : Bool := g.Promotion.Pending

/-- `GameLogic::QueryPromotionLocation`. -/
def QueryPromotionLocation (g : Game) : XY :=
  if !g.Promotion.Pending then ⟨-1, -1⟩ else g.Promotion.Location

/-- `GameLogic::SatisfyPromotionRequest`. -/
def SatisfyPromotionRequest (g : Game) (Piece : Int) : Game :=
  let g1 := g.setSq g.Promotion.Location (fun s => { s with Piece := Piece })
  { g1 with Promotion := ⟨false, ⟨-1, -1⟩⟩ }

/-- `GameLogic::ChangeTurn`. -/
def ChangeTurn (g : Game) : Game :=
  let g1 : Game := { g with Turn := Opponent g.Turn }
  UpdateCastlingInformation g1 g1.Turn

/-! ## The blocks of `Move`, one by one -/

/-- The block `// Move the piece` of `Move`. -/
def MovePiece (g : Game) (Source Destination : XY) : Game :=
  (g.setSq Destination (fun d =>
      { d with Owner := (g.sq Source).Owner, Piece := (g.sq Source).Piece })).setSq Source
    (fun s => { s with Owner := PlayerType.Nobody, Piece := PieceType.NoPiece, Touched := true })

/-- The block `// Check if castling was performed` of `Move`. -/
def CastleRook (g : Game) (Source Destination : XY) : Game :=
  if (g.sq Destination).Piece = PieceType.King ∧ (g.sq Destination).CastlingTarget = true then
    let RookSource : XY := ⟨if Destination.x > Source.x then 7 else 0, Destination.y⟩
    let RookDestination : XY := ⟨if Destination.x > Source.x then 5 else 3, Destination.y⟩
    let g1 := g.setSq RookDestination (fun d =>
      { d with Owner := (g.sq RookSource).Owner, Piece := (g.sq RookSource).Piece })
    g1.setSq RookSource (fun s =>
      { s with Owner := PlayerType.Nobody, Piece := PieceType.NoPiece, Touched := true })
  else g

/-- The block `// Check if En passant attack was performed` of `Move`. -/
def CaptureEnPassant (g : Game) (Destination : XY) : Game :=
  if (g.sq Destination).Piece = PieceType.Pawn
      ∧ (g.sq Destination).EnPassantTarget = true then
    let CapturePiece : XY :=
      ⟨Destination.x,
        if g.Turn = PlayerType.Black then Destination.y - 1
        else if g.Turn = PlayerType.White then Destination.y + 1
        else Destination.y⟩
    if CapturePiece.InRange8 then
      g.setSq CapturePiece (fun s =>
        { s with Owner := PlayerType.Nobody, Piece := PieceType.NoPiece })
    else g
  else g

/-- The block `// Clear En passant information` of `Move`. -/
def ClearEnPassant (g : Game) : Game :=
  { g with Board := fun y x => { g.Board y x with EnPassantTarget := false } }

/-- The block `// Update En passant target for pawn` of `Move`. -/
def MarkEnPassant (g : Game) (Source Destination : XY) : Game :=
  if (g.sq Destination).Piece = PieceType.Pawn
      ∧ (Destination.y - Source.y).natAbs = 2 then
    if (g.sq Destination).Owner = PlayerType.Black then
      g.setSq ⟨Destination.x, Destination.y - 1⟩ (fun s => { s with EnPassantTarget := true })
    else if (g.sq Destination).Owner = PlayerType.White then
      g.setSq ⟨Destination.x, Destination.y + 1⟩ (fun s => { s with EnPassantTarget := true })
    else g
  else g

/-- The block `// See if pawn should be promoted` of `Move`. -/
def RequestPromotion (g : Game) (Destination : XY) : Game :=
  if (g.sq Destination).Piece = PieceType.Pawn then
    if ((g.sq Destination).Owner = PlayerType.Black ∧ Destination.y = 7)
        ∨ ((g.sq Destination).Owner = PlayerType.White ∧ Destination.y = 0) then
      { g with Promotion := ⟨true, ⟨Destination.x, Destination.y⟩⟩ }
    else g
  else g

/-- The local `CapturePiece` of the en-passant block of `Move`: the square
behind the destination as seen from the player to move. -/
def CaptureSquare (g : Game) (Destination : XY) : XY :=
  ⟨Destination.x,
    if g.Turn = PlayerType.Black then Destination.y - 1
    else if g.Turn = PlayerType.White then Destination.y + 1
    else Destination.y⟩

/-- Every `CastlingTarget` flag sits on column 2 or 6.  The flag is written by
`UpdateCastlingInformation` only, which clears all flags and sets them on
these two columns; `Move` and `SatisfyPromotionRequest` do not write it. -/
def CastlingFlagsOnTargets (g : Game) : Prop :=
  ∀ y x : Fin 8, (g.Board y x).CastlingTarget = true → x.val = 2 ∨ x.val = 6

/-! ## Further positions used as concrete inputs -/

/-- White: king e1 `(4,7)`, pawn e2 `(4,6)` that has not moved.  Black: king e8
`(4,0)`, pawn d4 `(3,4)`.  White is to move. -/
def PawnOnE2 : Game :=
  (((EmptyBoard.place 4 7 PlayerType.White PieceType.King true).place
    4 6 PlayerType.White PieceType.Pawn false).place
    4 0 PlayerType.Black PieceType.King true).place
    3 4 PlayerType.Black PieceType.Pawn true

/-- White: king e1 `(4,7)`, pawn a7 `(0,1)`.  Black: king e8 `(4,0)`.  White is
to move. -/
def PawnOnA7 : Game :=
  ((EmptyBoard.place 4 7 PlayerType.White PieceType.King true).place
    0 1 PlayerType.White PieceType.Pawn true).place
    4 0 PlayerType.Black PieceType.King true

/-- The position `PawnOnE2` after the white pawn has gone e2-e4: the pawn
stands on e4 `(4,4)`, e3 `(4,5)` is the en-passant target, the black pawn d4
`(3,4)` stands beside the white one, and `Turn` is still White. -/
def EnPassantReady : Game :=
  ((((EmptyBoard.place 4 7 PlayerType.White PieceType.King true).place
    4 4 PlayerType.White PieceType.Pawn true).place
    4 0 PlayerType.Black PieceType.King true).place
    3 4 PlayerType.Black PieceType.Pawn true).setSq ⟨4, 5⟩
      (fun s => { s with EnPassantTarget := true })

/-- White: king e1 `(4,7)` that has not moved, rook a4 `(0,3)`.  Black: king e8
`(4,0)`, knight a1 `(0,7)`; the square a1 has `Touched = false`, the value it
kept when the knight took the white rook that stood there unmoved.  White is to
move. -/
def RookRetakesA1 : Game :=
  (((EmptyBoard.place 4 7 PlayerType.White PieceType.King false).place
    0 3 PlayerType.White PieceType.Rook true).place
    4 0 PlayerType.Black PieceType.King true).place
    0 7 PlayerType.Black PieceType.Knight false

/-! ## `Save` and `Load` (logic.cpp)

The saved game is a sequence of bytes.  `Save` returns its status and the bytes
it hands to the output stream; `Load` takes the content of the file, `none`
when the file cannot be opened, and returns its status and the state of the
object after the call. -/

/-- `const int FileBufferSize = 4 + 1 + 8 * 8;` -/
abbrev FileBufferSize : Nat := 4 + 1 + 8 * 8

/-- Conversion of an `int` to `unsigned char`. -/
def toByte (i : Int) : Nat := (i % 256).toNat

/-- An array of `unsigned char`, as a function of the index. -/
abbrev FileBuffer := Nat → Nat

/-- The assignment `FileBuffer[i] = v`. -/
def FileBuffer.set (b : FileBuffer) (i v : Nat) : FileBuffer :=
  fun j => if j = i then v else b j

/-- The value `Save` stores for one square:
`((unsigned char)Owner << 0) | ((unsigned char)Piece << 2) |
((unsigned char)Touched << 5) | ((unsigned char)EnPassantTarget << 6)`,
converted to `unsigned char` by the assignment. -/
def SquareByte (s : BoardPiece) : Nat :=
  ((toByte s.Owner <<< 0) ||| (toByte s.Piece <<< 2)
    ||| ((if s.Touched then 1 else 0) <<< 5)
    ||| ((if s.EnPassantTarget then 1 else 0) <<< 6)) % 256

/-- The array `FileBuffer` of `Save` when it is written to the file. -/
def SaveBuffer (g : Game) : FileBuffer :=
  let b : FileBuffer := fun _ => 0
  -- Header
  let b := b.set 0 'A'.toNat
  let b := b.set 1 'L'.toNat
  let b := b.set 2 'D'.toNat
  let b := b.set 3 '1'.toNat
  -- Turn
  let b := b.set 4 (toByte g.Turn)
  allSquares.foldl
    (fun b s =>
      let OffsetY := 4 + 1 + s.1.val * 8
      b.set (OffsetY + s.2.val) (SquareByte (g.Board s.1 s.2)))
    b

/-- `GameLogic::Save`: the returned status and the `FileBufferSize` bytes
written.  The output stream does not throw, so the status is `true`. -/
def Save (g : Game) : Bool × List Nat :=
  (true, (List.range FileBufferSize).map (SaveBuffer g))

/-- The value of `FileHandle.tellg()` in `Load`: the stream is opened at its
end, so this is the length of the file, or `-1` when the file cannot be
opened. -/
def tellg (File : Option (List Nat)) : Int :=
  match File with
  | none => -1
  | some f => (f.length : Int)

/-- The array `FileBuffer` of `Load` after `FileHandle.read`: the
zero-initialised buffer filled with at most `FileBufferSize` bytes of the file. -/
def ReadBuffer (File : Option (List Nat)) : FileBuffer :=
  fun i => if i < FileBufferSize then (File.getD []).getD i 0 else 0

/-- The local `GoodHeader` of `Load`. -/
def GoodHeader (b : FileBuffer) : Bool :=
  decide (b 0 = 'A'.toNat) && decide (b 1 = 'L'.toNat)
    && decide (b 2 = 'D'.toNat) && decide (b 3 = '1'.toNat)

/-- The assignments of `Load` between the header test and the call of
`UpdateCastlingInformation`: the pending promotion, the turn and the four saved
fields of every square. -/
def LoadedState (g : Game) (b : FileBuffer) : Game :=
  { Promotion := ⟨false, ⟨0, 0⟩⟩
    Turn := (b 4 : Int)
    Board := fun y x =>
      let OffsetY := 4 + 1 + y.val * 8
      { g.Board y x with
        Owner := (((b (OffsetY + x.val) &&& 0x03) >>> 0 : Nat) : Int)
        Piece := (((b (OffsetY + x.val) &&& 0x1C) >>> 2 : Nat) : Int)
        Touched := decide ((b (OffsetY + x.val) &&& 0x20) >>> 5 ≠ 0)
        EnPassantTarget := decide ((b (OffsetY + x.val) &&& 0x40) >>> 6 ≠ 0) } }

/-- `GameLogic::Load`: the returned status and the state of the object after
the call.  A file shorter than `FileBufferSize - 1` bytes and a bad header make
the function throw inside its `try` block and return false. -/
def Load (g : Game) (File : Option (List Nat)) : Bool × Game :=
  if tellg File < (FileBufferSize : Int) - 1 then (false, g)
  else
    let b := ReadBuffer File
    if !GoodHeader b then (false, g)
    else
      let g1 := LoadedState g b
      (true, UpdateCastlingInformation g1 g1.Turn)

/-- A state whose `Turn` and every square's `Owner` and `Piece` are values of
the enumerations `PlayerType` (0..2) and `PieceType` (0..6). -/
def ValidState (g : Game) : Prop :=
  (0 ≤ g.Turn ∧ g.Turn ≤ 2)
    ∧ ∀ y x : Fin 8, (0 ≤ (g.Board y x).Owner ∧ (g.Board y x).Owner ≤ 2)
        ∧ (0 ≤ (g.Board y x).Piece ∧ (g.Board y x).Piece ≤ 6)

/-- White: king e1 `(4,7)` and rook h1 `(7,7)`, neither has moved.  Black: king
e8 `(4,0)`.  White is to move. -/
def RookOnH1 : Game :=
  ((EmptyBoard.place 4 7 PlayerType.White PieceType.King false).place
    7 7 PlayerType.White PieceType.Rook false).place
    4 0 PlayerType.Black PieceType.King true

/-! ## Rays -/

/-- The square `k` steps of `v` away from `L`. -/
def XY.steps (L v : XY) (k : Int) : XY := ⟨L.x + k * v.x, L.y + k * v.y⟩

/-- The squares the loop of `Travel` still marks when it stands on `Location`
with `Distance` left: the square `k` steps ahead, when the distance allows `k`
steps, every square from the first to the `k`-th step is on the board and not
owned by `Player`, and no square before the `k`-th step, the current one
included, is owned by the opponent. -/
def Reached (g : Game) (Player : Int) (Location SpeedVector : XY) (Distance : Int)
    (c : XY) : Prop :=
  ∃ k : Int, 1 ≤ k ∧ (Distance = -1 ∨ k ≤ Distance) ∧ c = Location.steps SpeedVector k
    ∧ (∀ j : Int, 1 ≤ j → j ≤ k →
        (Location.steps SpeedVector j).InRange8 = true
          ∧ (g.sq (Location.steps SpeedVector j)).Owner ≠ Player)
    ∧ (∀ j : Int, 0 ≤ j → j < k →
        (g.sq (Location.steps SpeedVector j)).Owner ≠ Opponent Player)

/-- The ray of a piece of `Player` on `L` in direction `v`, in the words of the
specification: the squares `L + k*v`, `k ≥ 1` (and `k ≤ Distance` unless
`Distance = -1`), such that every `L + j*v` with `1 ≤ j ≤ k` is on the board and
not owned by `Player` and every `L + j*v` with `1 ≤ j < k` is empty. -/
def OnRay (g : Game) (Player : Int) (L v : XY) (Distance : Int) (c : XY) : Prop :=
  ∃ k : Int, 1 ≤ k ∧ (Distance = -1 ∨ k ≤ Distance) ∧ c = L.steps v k
    ∧ (∀ j : Int, 1 ≤ j → j ≤ k →
        (L.steps v j).InRange8 = true ∧ (g.sq (L.steps v j)).Owner ≠ Player)
    ∧ (∀ j : Int, 1 ≤ j → j < k → (g.sq (L.steps v j)).Owner = PlayerType.Nobody)

/-- Every square is owned by nobody, by Black or by White. -/
def ValidOwners (g : Game) : Prop :=
  ∀ y x : Fin 8, (g.Board y x).Owner = PlayerType.Nobody
    ∨ (g.Board y x).Owner = PlayerType.Black ∨ (g.Board y x).Owner = PlayerType.White

/-- The four directions along a row or a column. -/
def RookDirections : List XY := [⟨0, -1⟩, ⟨-1, 0⟩, ⟨1, 0⟩, ⟨0, 1⟩]

/-- The four directions along a diagonal. -/
def BishopDirections : List XY := [⟨-1, -1⟩, ⟨1, -1⟩, ⟨-1, 1⟩, ⟨1, 1⟩]

/-! ## A game from the initial position -/

/-- The initial position, square by square: the back rows and the pawn rows of
Black (rows 0 and 1) and of White (rows 7 and 6) with `Touched = false`, the
empty rows 2..5 with `Touched = true`, no flag set, White to move and no
promotion pending. -/
def StartPosition : Game :=
  { Turn := PlayerType.White
    Promotion := ⟨false, ⟨0, 0⟩⟩
    Board := fun y x =>
      { Owner := if y.val ≤ 1 then PlayerType.Black
                 else if y.val ≥ 6 then PlayerType.White else PlayerType.Nobody
        Piece := if y.val = 0 ∨ y.val = 7 then
                   ([PieceType.Rook, PieceType.Knight, PieceType.Bishop, PieceType.Dame,
                     PieceType.King, PieceType.Bishop, PieceType.Knight,
                     PieceType.Rook] : List Int).getD x.val PieceType.NoPiece
                 else if y.val = 1 ∨ y.val = 6 then PieceType.Pawn else PieceType.NoPiece
        Touched := if y.val ≤ 1 ∨ y.val ≥ 6 then false else true
        EnPassantTarget := false
        CastlingTarget := false } }

/-- The position after 1. a3: the pawn of a2 `(0,6)` stands on a3 `(0,5)`; Black
is to move. -/
def AfterA3 : Game :=
  { (StartPosition.place 0 6 PlayerType.Nobody PieceType.NoPiece true).place
      0 5 PlayerType.White PieceType.Pawn true with Turn := PlayerType.Black }

/-- The position after 1. a3 e5: the pawn of e7 `(4,1)` stands on e5 `(4,3)`, e6
`(4,2)` is the en-passant target; White is to move. -/
def AfterE5 : Game :=
  { ((AfterA3.place 4 1 PlayerType.Nobody PieceType.NoPiece true).place
      4 3 PlayerType.Black PieceType.Pawn true).setSq ⟨4, 2⟩
        (fun s => { s with EnPassantTarget := true }) with Turn := PlayerType.White }

/-- The position after 1. a3 e5 2. a4: the pawn of a3 stands on a4 `(0,4)`, no
en-passant target is left; Black is to move. -/
def AfterA4 : Game :=
  { ((AfterE5.place 0 5 PlayerType.Nobody PieceType.NoPiece true).place
      0 4 PlayerType.White PieceType.Pawn true).setSq ⟨4, 2⟩
        (fun s => { s with EnPassantTarget := false }) with Turn := PlayerType.Black }

/-- The position after 1. a3 e5 2. a4 Qh4: the black dame of d8 `(3,0)` stands on
h4 `(7,4)` and looks at f2; the pawn of f2 shields the white king; White is to
move and is not in check. -/
def AfterQh4 : Game :=
  { (AfterA4.place 3 0 PlayerType.Nobody PieceType.NoPiece true).place
      7 4 PlayerType.Black PieceType.Dame true with Turn := PlayerType.White }

/-- The position after 1. a3 e5 2. a4 Qh4 3. f3: the pawn of f2 `(5,6)` stands on
f3 `(5,5)`, the diagonal h4-e1 is open; Black is to move. -/
def AfterF3 : Game :=
  { (AfterQh4.place 5 6 PlayerType.Nobody PieceType.NoPiece true).place
      5 5 PlayerType.White PieceType.Pawn true with Turn := PlayerType.Black }

/-! ## The call chain `GetTravelMap` / `GetTravelMapGlobal` / `KingInCheck`, literally

The three functions call each other.  Here they are written as in the source,
every nested call included, with a bound on the depth of the calls: a call that
would exceed the bound yields `none`.  Each function returns its result and the
state of the object after the call. -/

/-- The three functions with a given bound on the depth of nested calls. -/
structure Calls where
  /-- `GetTravelMap(Player, SquareCoordinates, SubstractKingIllegal,
  IncludeSpecialMoves, PreventRecursiveKingInCheck, IncludeKing,
  AlwaysIncludePawnDiagonal)`. -/
  travelMap : Game → Int → XY → Bool → Bool → Bool → Bool → Bool → Option (Matrix8 × Game)
  /-- `GetTravelMapGlobal(Player, PreventRecursiveKingInCheck, IncludeKing,
  AlwaysIncludePawnDiagonal)`. -/
  global : Game → Int → Bool → Bool → Bool → Option (Matrix8 × Game)
  /-- `KingInCheck(Player)`. -/
  kingInCheck : Game → Int → Option (Bool × Game)

/-- One iteration of the check-escape loop of `GetTravelMap`, the calls of
`KingInCheck` being made through `c`. -/
def CheckEscapeStepRec (c : Calls) (Player : Int) (SquareCoordinates : XY)
    (s : Matrix8 × Game) (sq : Fin 8 × Fin 8) : Option (Matrix8 × Game) :=
  if s.1 sq.1 sq.2 > 0 then
    let g1 := SwapPieces s.2 SquareCoordinates (XY.ofIdx sq.2 sq.1)
    match c.kingInCheck g1 Player with
    | none => none
    | some k =>
      let TravelMap : Matrix8 :=
        if k.1 then fun y x => if y = sq.1 ∧ x = sq.2 then 0 else s.1 y x
        else s.1
      some (TravelMap, SwapPieces k.2 SquareCoordinates (XY.ofIdx sq.2 sq.1))
  else some s

/-- The body of `GetTravelMap`, its nested calls being made through `c`. -/
def GetTravelMapBody (c : Calls) (g : Game) (Player : Int) (SquareCoordinates : XY)
    (SubstractKingIllegal IncludeSpecialMoves PreventRecursiveKingInCheck
      IncludeKing AlwaysIncludePawnDiagonal : Bool) : Option (Matrix8 × Game) :=
  if !CanSelect g Player SquareCoordinates then some (EmptyMatrix8x8, g)
  else
    let TravelMap := TravelCandidates g Player SquareCoordinates
      IncludeSpecialMoves IncludeKing AlwaysIncludePawnDiagonal
    let afterKingBlock : Option (Matrix8 × Game) :=
      if (g.sq SquareCoordinates).Piece = PieceType.King ∧ SubstractKingIllegal = true then
        match c.global g (Opponent Player) true true true with
        | none => none
        | some r => some (fun y x => TravelMap y x - r.1 y x, r.2)
      else some (TravelMap, g)
    match afterKingBlock with
    | none => none
    | some s1 =>
      if !PreventRecursiveKingInCheck then
        match c.kingInCheck s1.2 Player with
        | none => none
        | some k =>
          if k.1 then
            match allSquares.foldlM (CheckEscapeStepRec c Player SquareCoordinates)
                (s1.1, k.2) with
            | none => none
            | some s2 => some (NormalizeMatrix8x8 s2.1, s2.2)
          else some (NormalizeMatrix8x8 s1.1, k.2)
      else some (NormalizeMatrix8x8 s1.1, s1.2)

/-- The body of `GetTravelMapGlobal`, its nested calls being made through `c`. -/
def GetTravelMapGlobalBody (c : Calls) (g : Game) (Player : Int)
    (PreventRecursiveKingInCheck IncludeKing AlwaysIncludePawnDiagonal : Bool) :
    Option (Matrix8 × Game) :=
  match allSquares.foldlM
      (fun (s : Matrix8 × Game) (sq : Fin 8 × Fin 8) =>
        if (s.2.Board sq.1 sq.2).Owner = Player then
          match c.travelMap s.2 Player (XY.ofIdx sq.2 sq.1) false false
              PreventRecursiveKingInCheck IncludeKing AlwaysIncludePawnDiagonal with
          | none => none
          | some r => some (s.1.add r.1, r.2)
        else some s)
      (EmptyMatrix8x8, g) with
  | none => none
  | some s => some (NormalizeMatrix8x8 s.1, s.2)

/-- The body of `KingInCheck`, its nested call being made through `c`. -/
def KingInCheckBody (c : Calls) (g : Game) (Player : Int) : Option (Bool × Game) :=
  let KingLocation := FindKing g Player
  if !KingLocation.InRange8 then some (false, g)
  else
    match c.global g (Opponent Player) true true true with
    | none => none
    | some r =>
      some (allSquares.foldl
          (fun KingCheck s =>
            if r.1 s.1 s.2 > 0 ∧ (s.2.val : Int) = KingLocation.x
                ∧ (s.1.val : Int) = KingLocation.y then true
            else KingCheck)
          false,
        r.2)

/-- The three functions when at most `depth` calls may be nested: none at all
for `depth = 0`, and for `depth + 1` the bodies whose nested calls have `depth`
left. -/
def CallsWithin : Nat → Calls
  | 0 => ⟨fun _ _ _ _ _ _ _ _ => none, fun _ _ _ _ _ => none, fun _ _ => none⟩
  | depth + 1 =>
    ⟨GetTravelMapBody (CallsWithin depth), GetTravelMapGlobalBody (CallsWithin depth),
      KingInCheckBody (CallsWithin depth)⟩

/-! ## Definitions for the knight, the castling recomputation and game-end detection -/

/-- The eight speed vectors pushed by the loops of `case PieceType::Knight`, in
the order of the `push_back` calls. -/
def KnightJumps : List XY :=
  [⟨-1, -2⟩, ⟨1, -2⟩, ⟨-2, -1⟩, ⟨2, -1⟩, ⟨-2, 1⟩, ⟨2, 1⟩, ⟨-1, 2⟩, ⟨1, 2⟩]

/-- Two states whose squares agree on `Owner`, `Piece` and `Touched`; the flags
`EnPassantTarget` and `CastlingTarget`, the turn and the pending promotion may
differ. -/
def SamePieces (g h : Game) : Prop :=
  ∀ y x, (g.Board y x).Owner = (h.Board y x).Owner ∧ (g.Board y x).Piece = (h.Board y x).Piece
    ∧ (g.Board y x).Touched = (h.Board y x).Touched

/-- The number of squares owned by `Player`. -/
def OwnedSquares (g : Game) (Player : Int) : Nat :=
  (allSquares.filter fun s => decide ((g.Board s.1 s.2).Owner = Player)).length

/-- White: king a1 `(0,7)`, pawn e5 `(4,3)`.  Black: king h8 `(7,0)`, rooks b8
`(1,0)` and h2 `(7,6)`, pawns e6 `(4,2)` and d5 `(3,3)`; the black pawn has just
gone d7-d5, so d6 `(3,2)` is the en-passant target.  White is to move and is
not in check; the king has no square to go to and the pawn e5 is blocked. -/
def EnPassantOnly : Game :=
  (((((((EmptyBoard.place 0 7 PlayerType.White PieceType.King true).place
    4 3 PlayerType.White PieceType.Pawn true).place
    7 0 PlayerType.Black PieceType.King true).place
    1 0 PlayerType.Black PieceType.Rook true).place
    7 6 PlayerType.Black PieceType.Rook true).place
    4 2 PlayerType.Black PieceType.Pawn true).place
    3 3 PlayerType.Black PieceType.Pawn true).setSq ⟨3, 2⟩
      (fun s => { s with EnPassantTarget := true })

/-- White: king on g1 `(6,7)`, having moved there (`Touched = true`), rook h1
`(7,7)` that has not moved.  Black: king e8 `(4,0)`.  White is to move. -/
def KingOnG1 : Game :=
  ((EmptyBoard.place 6 7 PlayerType.White PieceType.King true).place
    7 7 PlayerType.White PieceType.Rook false).place
    4 0 PlayerType.Black PieceType.King true

/-- The position `KingOnG1` with the castling flags as `UpdateCastlingInformation`
computes them for White, the player to move. -/
def KingOnG1Flagged : Game := UpdateCastlingInformation KingOnG1 PlayerType.White

/-! # Basic facts -/

theorem InRange8_iff (c : XY) :
    c.InRange8 = true ↔ 0 ≤ c.x ∧ c.x < 8 ∧ 0 ≤ c.y ∧ c.y < 8 := by
  simp [XY.InRange8, XY.InRange, and_assoc]

theorem toFin8_val (i : Fin 8) : toFin8 (i.val : Int) = i := by
  apply Fin.ext
  simp [toFin8]

@[simp] theorem InRange8_ofIdx (x y : Fin 8) : (XY.ofIdx x y).InRange8 = true := by
  rw [InRange8_iff]
  simp [XY.ofIdx]

@[simp] theorem toFin8_ofIdx_x (x y : Fin 8) : toFin8 (XY.ofIdx x y).x = x := toFin8_val x

@[simp] theorem toFin8_ofIdx_y (x y : Fin 8) : toFin8 (XY.ofIdx x y).y = y := toFin8_val y

theorem ofIdx_toFin8 (c : XY) (h : c.InRange8 = true) :
    XY.ofIdx (toFin8 c.x) (toFin8 c.y) = c := by
  rw [InRange8_iff] at h
  obtain ⟨x, y⟩ := c
  simp only [XY.ofIdx, toFin8, XY.mk.injEq]
  simp only at h
  omega

@[simp] theorem sq_ofIdx (g : Game) (x y : Fin 8) : g.sq (XY.ofIdx x y) = g.Board y x := by
  simp [Game.sq]

theorem sq_of_inRange (g : Game) (c : XY) (h : c.InRange8 = true) :
    g.sq c = g.Board (toFin8 c.y) (toFin8 c.x) := by
  simp [Game.sq, h]

theorem sq_of_not_inRange (g : Game) (c : XY) (h : c.InRange8 = false) :
    g.sq c = OffBoard := by
  simp [Game.sq, h]

theorem setSq_Board (g : Game) (c : XY) (f : BoardPiece → BoardPiece) (h : c.InRange8 = true)
    (y x : Fin 8) :
    (g.setSq c f).Board y x =
      if y = toFin8 c.y ∧ x = toFin8 c.x then f (g.Board y x) else g.Board y x := by
  simp [Game.setSq, h]

@[simp] theorem setSq_Turn (g : Game) (c : XY) (f : BoardPiece → BoardPiece) :
    (g.setSq c f).Turn = g.Turn := by
  unfold Game.setSq; split <;> rfl

@[simp] theorem setSq_Promotion (g : Game) (c : XY) (f : BoardPiece → BoardPiece) :
    (g.setSq c f).Promotion = g.Promotion := by
  unfold Game.setSq; split <;> rfl

theorem Game.ext_fields (g h : Game) :
    g = h ↔ (∀ y x, g.Board y x = h.Board y x) ∧ g.Promotion = h.Promotion ∧ g.Turn = h.Turn := by
  constructor
  · rintro rfl; exact ⟨fun _ _ => rfl, rfl, rfl⟩
  · rintro ⟨hb, hp, ht⟩
    cases g; cases h
    simp only [Game.mk.injEq] at *
    exact ⟨funext fun y => funext fun x => hb y x, hp, ht⟩

theorem SwapPieces_Board (g : Game) (a b : XY) (ha : a.InRange8 = true) (hb : b.InRange8 = true)
    (y x : Fin 8) :
    (SwapPieces g a b).Board y x =
      if y = toFin8 a.y ∧ x = toFin8 a.x then
        { g.Board y x with Owner := (g.Board (toFin8 b.y) (toFin8 b.x)).Owner,
                           Piece := (g.Board (toFin8 b.y) (toFin8 b.x)).Piece,
                           Touched := (g.Board (toFin8 b.y) (toFin8 b.x)).Touched }
      else if y = toFin8 b.y ∧ x = toFin8 b.x then
        { g.Board y x with Owner := (g.Board (toFin8 a.y) (toFin8 a.x)).Owner,
                           Piece := (g.Board (toFin8 a.y) (toFin8 a.x)).Piece,
                           Touched := (g.Board (toFin8 a.y) (toFin8 a.x)).Touched }
      else g.Board y x := by
  unfold SwapPieces
  simp only [setSq_Board, ha, hb, sq_of_inRange]
  by_cases h1 : y = toFin8 a.y ∧ x = toFin8 a.x
  · obtain ⟨rfl, rfl⟩ := h1
    by_cases h2 : toFin8 a.y = toFin8 b.y ∧ toFin8 a.x = toFin8 b.x
    · simp [h2]
    · simp [h2]
  · simp [h1]

theorem SwapPieces_twice (g : Game) (a b : XY) (ha : a.InRange8 = true) (hb : b.InRange8 = true) :
    SwapPieces (SwapPieces g a b) a b = g := by
  rw [Game.ext_fields]
  refine ⟨fun y x => ?_, ?_, ?_⟩
  · simp only [SwapPieces_Board _ _ _ ha hb]
    by_cases h1 : y = toFin8 a.y ∧ x = toFin8 a.x
    · obtain ⟨rfl, rfl⟩ := h1
      by_cases h2 : toFin8 b.y = toFin8 a.y ∧ toFin8 b.x = toFin8 a.x
      · simp [h2]
      · simp [h2]
    · by_cases h2 : y = toFin8 b.y ∧ x = toFin8 b.x
      · obtain ⟨rfl, rfl⟩ := h2
        have h3 : ¬ (toFin8 b.y = toFin8 a.y ∧ toFin8 b.x = toFin8 a.x) := h1
        simp [h3]
      · simp [h1, h2]
  · simp [SwapPieces]
  · simp [SwapPieces]

/-! ## The check-escape loop restores the board -/

theorem CheckEscapeStep_eq (g : Game) (Player : Int) (a : XY) (ha : a.InRange8 = true)
    (tm : Matrix8) (c : Fin 8 × Fin 8) :
    CheckEscapeStep Player a (tm, g) c =
      (fun y x =>
        if (y = c.1 ∧ x = c.2) ∧ tm y x > 0
            ∧ KingInCheck (SwapPieces g a (XY.ofIdx x y)) Player = true then 0
        else tm y x, g) := by
  unfold CheckEscapeStep
  by_cases h : tm c.1 c.2 > 0
  · simp only [h, if_true, SwapPieces_twice g a _ ha (InRange8_ofIdx _ _)]
    congr 1
    funext y x
    by_cases hk : KingInCheck (SwapPieces g a (XY.ofIdx c.2 c.1)) Player = true
    · by_cases hyx : y = c.1 ∧ x = c.2
      · obtain ⟨rfl, rfl⟩ := hyx
        simp [hk, h]
      · simp [hk, hyx]
    · by_cases hyx : y = c.1 ∧ x = c.2
      · obtain ⟨rfl, rfl⟩ := hyx
        simp [hk]
      · simp [hk, hyx]
  · simp only [h, if_false]
    congr 1
    funext y x
    by_cases hyx : y = c.1 ∧ x = c.2
    · obtain ⟨rfl, rfl⟩ := hyx
      simp [h]
    · simp [hyx]

theorem CheckEscape_fold (g : Game) (Player : Int) (a : XY) (ha : a.InRange8 = true)
    (l : List (Fin 8 × Fin 8)) (tm : Matrix8) :
    l.foldl (CheckEscapeStep Player a) (tm, g) =
      (fun y x =>
        if (y, x) ∈ l ∧ tm y x > 0
            ∧ KingInCheck (SwapPieces g a (XY.ofIdx x y)) Player = true then 0
        else tm y x, g) := by
  induction l generalizing tm with
  | nil => simp
  | cons c l ih =>
    rw [List.foldl_cons, CheckEscapeStep_eq g Player a ha, ih]
    congr 1
    funext y x
    obtain ⟨cy, cx⟩ := c
    by_cases hc : y = cy ∧ x = cx
    · obtain ⟨rfl, rfl⟩ := hc
      by_cases h1 : tm y x > 0 ∧ KingInCheck (SwapPieces g a (XY.ofIdx x y)) Player = true
      · simp [h1]
      · have h2 : ¬ ((0 : Int) < tm y x ∧ KingInCheck (SwapPieces g a (XY.ofIdx x y)) Player = true) := h1
        simp only [and_self, true_and, gt_iff_lt, h2, if_false, List.mem_cons, true_or, and_false]
    · have hc2 : (y, x) ≠ (cy, cx) := by
        intro h; apply hc; cases h; exact ⟨rfl, rfl⟩
      simp [hc, hc2]

theorem mem_allSquares (y x : Fin 8) : (y, x) ∈ allSquares := by
  revert y x
  decide

theorem CheckEscape_fold_nonpos (Player : Int) (a : XY) (g : Game)
    (l : List (Fin 8 × Fin 8)) (tm : Matrix8) (h : ∀ y x, tm y x ≤ 0) :
    l.foldl (CheckEscapeStep Player a) (tm, g) = (tm, g) := by
  induction l with
  | nil => rfl
  | cons c l ih =>
    rw [List.foldl_cons]
    have : CheckEscapeStep Player a (tm, g) c = (tm, g) := by
      unfold CheckEscapeStep
      have := h c.1 c.2
      rw [if_neg (by simpa using this)]
    rw [this, ih]

theorem SpeedVectorsOf_offBoard (g : Game) (Player : Int) (a : XY) (ha : a.InRange8 = false)
    (spec ik diag : Bool) : SpeedVectorsOf g Player a spec ik diag = [] := by
  simp [SpeedVectorsOf, sq_of_not_inRange g a ha, OffBoard]

theorem KingSubtracted_offBoard (g : Game) (Player : Int) (a : XY) (ha : a.InRange8 = false)
    (sub spec ik diag : Bool) (y x : Fin 8) :
    KingSubtracted g Player a sub spec ik diag y x = 0 := by
  simp [KingSubtracted, TravelCandidates, SpeedVectorsOf_offBoard g Player a ha, CastlingMarks,
    sq_of_not_inRange g a ha, OffBoard, NormalizeMatrix8x8, EmptyMatrix8x8]

theorem GetTravelMap_snd (g : Game) (Player : Int) (a : XY)
    (sub spec prevent ik diag : Bool) :
    (GetTravelMap g Player a sub spec prevent ik diag).2 = g := by
  unfold GetTravelMap
  split
  · rfl
  · cases prevent
    · by_cases hk : KingInCheck g Player = true
      · simp only [Bool.not_false, if_true, hk]
        cases ha : a.InRange8
        · rw [CheckEscape_fold_nonpos]
          intro y x
          rw [KingSubtracted_offBoard g Player a ha]
        · rw [CheckEscape_fold g Player a ha]
      · simp [hk]
    · simp

theorem GetTravelMap_fst (g : Game) (Player : Int) (a : XY) (ha : a.InRange8 = true)
    (sub spec prevent ik diag : Bool) :
    (GetTravelMap g Player a sub spec prevent ik diag).1 =
      if CanSelect g Player a = true then
        NormalizeMatrix8x8 (EscapeFiltered g Player a sub spec prevent ik diag)
      else EmptyMatrix8x8 := by
  unfold GetTravelMap
  by_cases hs : CanSelect g Player a = true
  · simp only [hs, Bool.not_true, if_true]
    simp only [Bool.false_eq_true, if_false]
    cases prevent
    · by_cases hk : KingInCheck g Player = true
      · simp only [Bool.not_false, if_true, hk, CheckEscape_fold g Player a ha,
          mem_allSquares, true_and]
        funext y x
        simp [NormalizeMatrix8x8, EscapeFiltered, hk]
      · funext y x
        simp [NormalizeMatrix8x8, hk, EscapeFiltered]
    · funext y x
      simp [NormalizeMatrix8x8, EscapeFiltered]
  · simp [hs]

theorem Move_eq (g : Game) (Source Destination : XY) :
    Move g Source Destination =
      if (GetTravelMap g (g.sq Source).Owner Source true true false true false).1.at Destination > 0
      then (true, ApplyMove g Source Destination) else (false, g) := by
  unfold Move
  simp [CanSelect, GetTravelMap_snd]

/-! ## Castling flags do not matter to the attack maps -/

theorem SameButCastling.refl (g : Game) : SameButCastling g g :=
  ⟨fun _ _ => ⟨rfl, rfl, rfl, rfl⟩, rfl, rfl⟩

theorem SameButCastling.trans {g h k : Game} (h1 : SameButCastling g h)
    (h2 : SameButCastling h k) : SameButCastling g k := by
  refine ⟨fun y x => ?_, h1.2.1.trans h2.2.1, h1.2.2.trans h2.2.2⟩
  obtain ⟨a1, a2, a3, a4⟩ := h1.1 y x
  obtain ⟨b1, b2, b3, b4⟩ := h2.1 y x
  exact ⟨a1.trans b1, a2.trans b2, a3.trans b3, a4.trans b4⟩

theorem SameButCastling.symm {g h : Game} (h1 : SameButCastling g h) : SameButCastling h g := by
  refine ⟨fun y x => ?_, h1.2.1.symm, h1.2.2.symm⟩
  obtain ⟨a1, a2, a3, a4⟩ := h1.1 y x
  exact ⟨a1.symm, a2.symm, a3.symm, a4.symm⟩

theorem SameButCastling_setSq (g : Game) (c : XY) (b : Bool) :
    SameButCastling (g.setSq c (fun s => { s with CastlingTarget := b })) g := by
  refine ⟨fun y x => ?_, by simp, by simp⟩
  unfold Game.setSq
  split
  · simp only
    split <;> exact ⟨rfl, rfl, rfl, rfl⟩
  · exact ⟨rfl, rfl, rfl, rfl⟩

theorem SameButCastling_clear (g : Game) : SameButCastling (ClearCastlingTargets g) g :=
  ⟨fun _ _ => ⟨rfl, rfl, rfl, rfl⟩, rfl, rfl⟩

theorem SameButCastling_ite {c : Prop} [Decidable c] {a b g : Game}
    (ha : SameButCastling a g) (hb : SameButCastling b g) :
    SameButCastling (if c then a else b) g := by
  split <;> assumption

theorem CastlingStep_same (Player Row : Int) (k : XY) (tm : Matrix8) (g : Game) (x : Int) :
    SameButCastling (CastlingStep Player Row k tm g x) g := by
  unfold CastlingStep
  dsimp only
  refine SameButCastling_ite (SameButCastling_ite (SameButCastling_ite ?_ ?_)
    (SameButCastling_ite (SameButCastling_ite ?_ ?_) ?_)) ?_
  all_goals first | exact SameButCastling_setSq _ _ _ | exact SameButCastling.refl _

theorem UpdateCastlingInformation_same (g : Game) (Player : Int) :
    SameButCastling (UpdateCastlingInformation g Player) g := by
  have h0 := SameButCastling_clear g
  unfold UpdateCastlingInformation
  dsimp only
  refine SameButCastling_ite h0 (SameButCastling_ite h0 (SameButCastling_ite h0
    (SameButCastling_ite h0 ?_)))
  simp only [List.foldl_cons, List.foldl_nil]
  exact ((CastlingStep_same _ _ _ _ _ _).trans (CastlingStep_same _ _ _ _ _ _)).trans h0

/-- C1. From every prior state, `Restart` yields the standard starting
position: row 0 holds Black's Rook, Knight, Bishop, Dame, King, Bishop, Knight,
Rook at x = 0..7, row 1 eight Black pawns, row 7 White's pieces in the same
order, row 6 eight White pawns, every square of rows 2..5 is empty, and the
turn is White's. -/
theorem Restart_standard_position (g : Game) :
    (Idx8.map fun x => GetPiece (Restart g) (XY.ofIdx x 0)) =
        [PieceType.Rook, PieceType.Knight, PieceType.Bishop, PieceType.Dame,
         PieceType.King, PieceType.Bishop, PieceType.Knight, PieceType.Rook]
    ∧ (∀ x : Fin 8, GetOwner (Restart g) (XY.ofIdx x 0) = PlayerType.Black)
    ∧ (∀ x : Fin 8, GetOwner (Restart g) (XY.ofIdx x 1) = PlayerType.Black
        ∧ GetPiece (Restart g) (XY.ofIdx x 1) = PieceType.Pawn)
    ∧ (Idx8.map fun x => GetPiece (Restart g) (XY.ofIdx x 7)) =
        [PieceType.Rook, PieceType.Knight, PieceType.Bishop, PieceType.Dame,
         PieceType.King, PieceType.Bishop, PieceType.Knight, PieceType.Rook]
    ∧ (∀ x : Fin 8, GetOwner (Restart g) (XY.ofIdx x 7) = PlayerType.White)
    ∧ (∀ x : Fin 8, GetOwner (Restart g) (XY.ofIdx x 6) = PlayerType.White
        ∧ GetPiece (Restart g) (XY.ofIdx x 6) = PieceType.Pawn)
    ∧ (∀ x y : Fin 8, 2 ≤ y.val → y.val ≤ 5 →
        GetOwner (Restart g) (XY.ofIdx x y) = PlayerType.Nobody
        ∧ GetPiece (Restart g) (XY.ofIdx x y) = PieceType.NoPiece)
    ∧ GetTurn (Restart g) = PlayerType.White := by
  have hs := UpdateCastlingInformation_same
  unfold Restart
  simp only [GetOwner, GetPiece, GetTurn, sq_ofIdx, (hs _ _).1 _ _, (hs _ _).2.2]
  decide!

theorem SameButCastling.sq_Owner {g h : Game} (H : SameButCastling g h) (c : XY) :
    (g.sq c).Owner = (h.sq c).Owner := by
  unfold Game.sq; split
  · exact (H.1 _ _).1
  · rfl

theorem SameButCastling.sq_Piece {g h : Game} (H : SameButCastling g h) (c : XY) :
    (g.sq c).Piece = (h.sq c).Piece := by
  unfold Game.sq; split
  · exact (H.1 _ _).2.1
  · rfl

theorem SameButCastling.sq_Touched {g h : Game} (H : SameButCastling g h) (c : XY) :
    (g.sq c).Touched = (h.sq c).Touched := by
  unfold Game.sq; split
  · exact (H.1 _ _).2.2.1
  · rfl

theorem SameButCastling.sq_EnPassantTarget {g h : Game} (H : SameButCastling g h) (c : XY) :
    (g.sq c).EnPassantTarget = (h.sq c).EnPassantTarget := by
  unfold Game.sq; split
  · exact (H.1 _ _).2.2.2
  · rfl

theorem TravelLoop_congr {g h : Game} (H : ∀ c, (g.sq c).Owner = (h.sq c).Owner)
    (fuel : Nat) (Player : Int) (L v : XY) (d : Int) (tm : Matrix8) :
    TravelLoop fuel g Player L v d tm = TravelLoop fuel h Player L v d tm := by
  induction fuel generalizing L d tm with
  | zero => rfl
  | succ n ih =>
    unfold TravelLoop
    simp only [H, ih]

theorem Travel_congr {g h : Game} (H : ∀ c, (g.sq c).Owner = (h.sq c).Owner)
    (Player : Int) (L v : XY) (d : Int) :
    Travel g Player L v d = Travel h Player L v d := by
  unfold Travel
  rw [TravelLoop_congr H]

theorem PawnSpeedVectors_congr {g h : Game} (H : SameButCastling g h)
    (Player : Int) (a : XY) (spec diag : Bool) :
    PawnSpeedVectors g Player a spec diag = PawnSpeedVectors h Player a spec diag := by
  unfold PawnSpeedVectors
  simp only [H.sq_Owner, H.sq_Touched, H.sq_EnPassantTarget]

theorem SpeedVectorsOf_congr {g h : Game} (H : SameButCastling g h)
    (Player : Int) (a : XY) (spec ik diag : Bool) :
    SpeedVectorsOf g Player a spec ik diag = SpeedVectorsOf h Player a spec ik diag := by
  unfold SpeedVectorsOf
  simp only [H.sq_Piece, PawnSpeedVectors_congr H]

theorem DistanceOf_congr {g h : Game} (H : SameButCastling g h) (a : XY) (ik : Bool) :
    DistanceOf g a ik = DistanceOf h a ik := by
  unfold DistanceOf
  simp only [H.sq_Piece]

theorem CastlingMarks_noSpecial (g : Game) (a : XY) (ik : Bool) :
    CastlingMarks g a false ik = EmptyMatrix8x8 := by
  simp [CastlingMarks]

theorem TravelCandidates_congr {g h : Game} (H : SameButCastling g h)
    (Player : Int) (a : XY) (ik diag : Bool) :
    TravelCandidates g Player a false ik diag = TravelCandidates h Player a false ik diag := by
  unfold TravelCandidates
  simp only [SpeedVectorsOf_congr H, DistanceOf_congr H, CastlingMarks_noSpecial,
    Travel_congr H.sq_Owner, H.sq_Owner]

theorem GetTravelMapGuarded_congr {g h : Game} (H : SameButCastling g h)
    (Player : Int) (a : XY) (ik diag : Bool) :
    GetTravelMapGuarded g Player a false ik diag = GetTravelMapGuarded h Player a false ik diag := by
  unfold GetTravelMapGuarded CanSelect
  simp only [TravelCandidates_congr H, H.sq_Owner]

theorem GetTravelMapGlobalGuarded_congr {g h : Game} (H : SameButCastling g h)
    (Player : Int) (ik diag : Bool) :
    GetTravelMapGlobalGuarded g Player ik diag = GetTravelMapGlobalGuarded h Player ik diag := by
  unfold GetTravelMapGlobalGuarded
  simp only [GetTravelMapGuarded_congr H, (H.1 _ _).1]

theorem FindKing_congr {g h : Game} (H : SameButCastling g h) (Player : Int) :
    FindKing g Player = FindKing h Player := by
  unfold FindKing
  simp only [(H.1 _ _).1, (H.1 _ _).2.1]

theorem KingInCheck_congr {g h : Game} (H : SameButCastling g h) (Player : Int) :
    KingInCheck g Player = KingInCheck h Player := by
  unfold KingInCheck
  simp only [FindKing_congr H, GetTravelMapGlobalGuarded_congr H]

/-- C9. If the king of `p` is in check, then after `UpdateCastlingInformation(p)`
no square has `CastlingTarget = true`, whatever the castling flags were before
the call. -/
theorem UpdateCastlingInformation_in_check (g : Game) (p : Int)
    (h : KingInCheck g p = true) (y x : Fin 8) :
    ((UpdateCastlingInformation g p).Board y x).CastlingTarget = false := by
  have hk : KingInCheck (ClearCastlingTargets g) p = true := by
    rw [KingInCheck_congr (SameButCastling_clear g), h]
  unfold UpdateCastlingInformation
  dsimp only
  by_cases hp : p = PlayerType.Nobody
  · rw [if_pos hp]
    rfl
  · rw [if_neg hp, if_pos hk]
    rfl

/-- C3, evaluated on `PinnedKnightInCheck`.  The white king is in check, the
capture e5xd3 is offered by `GetTravelMap` and accepted by `Move`, and after
the move the white king is in check from the rook on e8. -/
theorem capture_offered_leaves_king_in_check :
    KingInCheck PinnedKnightInCheck PlayerType.White = true
    ∧ GetOwner PinnedKnightInCheck ⟨4, 3⟩ = PlayerType.White
    ∧ (GetTravelMap PinnedKnightInCheck PlayerType.White ⟨4, 3⟩
        true true false true false).1.at ⟨3, 5⟩ > 0
    ∧ (Move PinnedKnightInCheck ⟨4, 3⟩ ⟨3, 5⟩).1 = true
    ∧ KingInCheck (Move PinnedKnightInCheck ⟨4, 3⟩ ⟨3, 5⟩).2 PlayerType.White = true := by
  have hm : (GetTravelMap PinnedKnightInCheck PlayerType.White ⟨4, 3⟩
        true true false true false).1.at ⟨3, 5⟩ > 0 := by
    rw [GetTravelMap_fst _ _ _ (by decide)]
    decide!
  have ho : (PinnedKnightInCheck.sq ⟨4, 3⟩).Owner = PlayerType.White := by decide!
  refine ⟨by decide!, ho, hm, ?_, ?_⟩
  · rw [Move_eq, ho, if_pos hm]
  · rw [Move_eq, ho, if_pos hm]
    decide!

/-- C4, evaluated on `DefendedKnight`.  The white king on e1 is not in check,
the square e2 is marked in its travel map, `Move` accepts Kxe2, and after the
move the king is in check from the rook on e8. -/
theorem king_may_capture_defended_piece :
    FindKing DefendedKnight PlayerType.White = ⟨4, 7⟩
    ∧ KingInCheck DefendedKnight PlayerType.White = false
    ∧ (GetTravelMap DefendedKnight PlayerType.White ⟨4, 7⟩
        true true false true false).1.at ⟨4, 6⟩ > 0
    ∧ (Move DefendedKnight ⟨4, 7⟩ ⟨4, 6⟩).1 = true
    ∧ KingInCheck (Move DefendedKnight ⟨4, 7⟩ ⟨4, 6⟩).2 PlayerType.White = true := by
  have hm : (GetTravelMap DefendedKnight PlayerType.White ⟨4, 7⟩
        true true false true false).1.at ⟨4, 6⟩ > 0 := by
    rw [GetTravelMap_fst _ _ _ (by decide)]
    decide!
  have ho : (DefendedKnight.sq ⟨4, 7⟩).Owner = PlayerType.White := by decide!
  refine ⟨by decide!, by decide!, hm, ?_, ?_⟩
  · rw [Move_eq, ho, if_pos hm]
  · rw [Move_eq, ho, if_pos hm]
    decide!

/-- C5, evaluated on `PinnedKnight`.  The white king is not in check, the piece
on e2 is a white knight, `Move` accepts Ne2-c3, and afterwards the white king is
in check from the rook on e8. -/
theorem pinned_piece_may_expose_king :
    KingInCheck PinnedKnight PlayerType.White = false
    ∧ GetOwner PinnedKnight ⟨4, 6⟩ = PlayerType.White
    ∧ GetPiece PinnedKnight ⟨4, 6⟩ = PieceType.Knight
    ∧ (Move PinnedKnight ⟨4, 6⟩ ⟨2, 5⟩).1 = true
    ∧ KingInCheck (Move PinnedKnight ⟨4, 6⟩ ⟨2, 5⟩).2 PlayerType.White = true := by
  have hm : (GetTravelMap PinnedKnight PlayerType.White ⟨4, 6⟩
        true true false true false).1.at ⟨2, 5⟩ > 0 := by
    rw [GetTravelMap_fst _ _ _ (by decide)]
    decide!
  have ho : (PinnedKnight.sq ⟨4, 6⟩).Owner = PlayerType.White := by decide!
  refine ⟨by decide!, ho, by decide!, ?_, ?_⟩
  · rw [Move_eq, ho, if_pos hm]
  · rw [Move_eq, ho, if_pos hm]
    decide!

/-- C8, evaluated on `KingOnD1` and `KingReturnedToE1`.  White's king is off
its home square (and touched) in the first position and on e1 with
`Touched = true` in the second; in both, `UpdateCastlingInformation(White)`
sets `CastlingTarget` on c1 `(2,7)`. -/
theorem moved_king_still_gets_castling :
    (FindKing KingOnD1 PlayerType.White = ⟨3, 7⟩
      ∧ (KingOnD1.sq ⟨3, 7⟩).Touched = true
      ∧ ((UpdateCastlingInformation KingOnD1 PlayerType.White).sq ⟨2, 7⟩).CastlingTarget = true)
    ∧ (FindKing KingReturnedToE1 PlayerType.White = ⟨4, 7⟩
      ∧ (KingReturnedToE1.sq ⟨4, 7⟩).Touched = true
      ∧ ((UpdateCastlingInformation KingReturnedToE1 PlayerType.White).sq
          ⟨2, 7⟩).CastlingTarget = true) := by
  decide!

/-- C2. For in-range squares `src` and `dst`: if `dst` is not marked in
`GetTravelMap(Owner(src), src, true, true, false, true, false)`, then
`Move(src, dst)` returns false and leaves the whole state (board, turn and
pending promotion) exactly as it was. -/
theorem Move_unmarked_fails (g : Game) (src dst : XY)
    (_hsrc : src.InRange8 = true) (_hdst : dst.InRange8 = true)
    (h : ¬ (GetTravelMap g (GetOwner g src) src true true false true false).1.at dst > 0) :
    (Move g src dst).1 = false ∧ (Move g src dst).2 = g := by
  rw [Move_eq]
  unfold GetOwner at h
  rw [if_neg h]
  exact ⟨rfl, rfl⟩

/-- C2 at a concrete input: in `PinnedKnight` the knight on e2 cannot go to e3. -/
theorem Move_unmarked_fails_witness :
    (Move PinnedKnight ⟨4, 6⟩ ⟨4, 5⟩).1 = false
    ∧ (Move PinnedKnight ⟨4, 6⟩ ⟨4, 5⟩).2 = PinnedKnight :=
  Move_unmarked_fails PinnedKnight ⟨4, 6⟩ ⟨4, 5⟩ (by decide) (by decide) (by
    rw [GetTravelMap_fst _ _ _ (by decide)]
    decide!)

/-- C10, evaluated on `KingOnD1Flagged`.  `Move` accepts the king move d1-c1
onto the castling target; afterwards the source square d1 is not empty: it
holds the white rook brought over from a1. -/
theorem castling_from_d1_refills_source :
    GetPiece KingOnD1Flagged ⟨3, 7⟩ = PieceType.King
    ∧ (Move KingOnD1Flagged ⟨3, 7⟩ ⟨2, 7⟩).1 = true
    ∧ GetOwner (Move KingOnD1Flagged ⟨3, 7⟩ ⟨2, 7⟩).2 ⟨3, 7⟩ = PlayerType.White
    ∧ GetPiece (Move KingOnD1Flagged ⟨3, 7⟩ ⟨2, 7⟩).2 ⟨3, 7⟩ = PieceType.Rook := by
  have ho : (KingOnD1Flagged.sq ⟨3, 7⟩).Owner = PlayerType.White := by decide!
  have hm : (GetTravelMap KingOnD1Flagged PlayerType.White ⟨3, 7⟩
        true true false true false).1.at ⟨2, 7⟩ > 0 := by
    rw [GetTravelMap_fst _ _ _ (by decide)]
    decide!
  refine ⟨by decide!, ?_, ?_, ?_⟩
  · rw [Move_eq, ho, if_pos hm]
  · rw [Move_eq, ho, if_pos hm]
    decide!
  · rw [Move_eq, ho, if_pos hm]
    decide!

/-- C9 at a concrete input: White is in check in `PinnedKnightInCheck`. -/
theorem UpdateCastlingInformation_in_check_witness :
    ((UpdateCastlingInformation PinnedKnightInCheck PlayerType.White).Board 7 2).CastlingTarget
      = false :=
  UpdateCastlingInformation_in_check PinnedKnightInCheck PlayerType.White (by decide!) 7 2

/-! ## Entries of the travel maps -/

theorem Normalize_pos (m : Matrix8) (y x : Fin 8) :
    NormalizeMatrix8x8 m y x > 0 ↔ m y x > 0 := by
  unfold NormalizeMatrix8x8
  split <;> simp_all

theorem Normalize_nonneg (m : Matrix8) (y x : Fin 8) : 0 ≤ NormalizeMatrix8x8 m y x := by
  unfold NormalizeMatrix8x8
  split <;> simp

theorem Normalize_le_one (m : Matrix8) (y x : Fin 8) : NormalizeMatrix8x8 m y x ≤ 1 := by
  unfold NormalizeMatrix8x8
  split <;> simp

theorem Matrix8.set_one_nonneg (m : Matrix8) (c : XY) (h : ∀ y x, 0 ≤ m y x) (y x : Fin 8) :
    0 ≤ m.set c 1 y x := by
  unfold Matrix8.set
  split
  · simp only
    split
    · decide
    · exact h y x
  · exact h y x

theorem TravelLoop_nonneg (fuel : Nat) (g : Game) (Player : Int) (L v : XY) (d : Int)
    (tm r : Matrix8) (h : ∀ y x, 0 ≤ tm y x)
    (hr : TravelLoop fuel g Player L v d tm = some r) (y x : Fin 8) : 0 ≤ r y x := by
  induction fuel generalizing L d tm with
  | zero => simp [TravelLoop] at hr
  | succ n ih =>
    unfold TravelLoop at hr
    dsimp only at hr
    split at hr
    · exact ih _ _ _ (Matrix8.set_one_nonneg tm _ h) hr
    · cases hr
      exact h y x

theorem Travel_nonneg (g : Game) (Player : Int) (L v : XY) (d : Int) (y x : Fin 8) :
    0 ≤ Travel g Player L v d y x := by
  unfold Travel
  cases hr : TravelLoop 8 g Player L v d EmptyMatrix8x8 with
  | none => exact le_refl _
  | some r => exact TravelLoop_nonneg 8 g Player L v d _ r (fun _ _ => le_refl _) hr y x

theorem foldl_add_ge (f : XY → Matrix8) (hf : ∀ sv y x, 0 ≤ f sv y x)
    (l : List XY) (init : Matrix8) (y x : Fin 8) :
    init y x ≤ l.foldl (fun tm sv => Matrix8.add tm (f sv)) init y x := by
  induction l generalizing init with
  | nil => exact le_refl _
  | cons a l ih =>
    rw [List.foldl_cons]
    refine le_trans ?_ (ih _)
    unfold Matrix8.add
    have := hf a y x
    linarith

theorem foldl_add_append_ge (f : XY → Matrix8) (hf : ∀ sv y x, 0 ≤ f sv y x)
    (l e : List XY) (init : Matrix8) (y x : Fin 8) :
    l.foldl (fun tm sv => Matrix8.add tm (f sv)) init y x
      ≤ (l ++ e).foldl (fun tm sv => Matrix8.add tm (f sv)) init y x := by
  rw [List.foldl_append]
  exact foldl_add_ge f hf e _ y x

/-! ## Flags of `GetTravelMap` -/

theorem PawnSpeedVectors_special (g : Game) (Player : Int) (a : XY) (diag : Bool) :
    ∃ e, PawnSpeedVectors g Player a true diag = PawnSpeedVectors g Player a false diag ++ e := by
  unfold PawnSpeedVectors
  simp only [if_true, Bool.false_eq_true, if_false, List.append_nil]
  exact ⟨_, rfl⟩

theorem SpeedVectorsOf_special (g : Game) (Player : Int) (a : XY) (ik diag : Bool) :
    ∃ e, SpeedVectorsOf g Player a true ik diag = SpeedVectorsOf g Player a false ik diag ++ e := by
  unfold SpeedVectorsOf
  dsimp only
  split
  · exact PawnSpeedVectors_special g Player a diag
  · exact ⟨[], (List.append_nil _).symm⟩

theorem SpeedVectorsOf_notKing (g : Game) (Player : Int) (a : XY) (spec diag : Bool)
    (h : (g.sq a).Piece ≠ PieceType.King) :
    SpeedVectorsOf g Player a spec false diag = SpeedVectorsOf g Player a spec true diag := by
  unfold SpeedVectorsOf
  simp only [h, if_false]

theorem DistanceOf_notKing (g : Game) (a : XY) (h : (g.sq a).Piece ≠ PieceType.King) :
    DistanceOf g a false = DistanceOf g a true := by
  unfold DistanceOf
  simp only [h, if_false]

theorem CastlingMarks_notKing (g : Game) (a : XY) (spec ik : Bool)
    (h : (g.sq a).Piece ≠ PieceType.King) : CastlingMarks g a spec ik = EmptyMatrix8x8 := by
  unfold CastlingMarks
  rw [if_neg (fun hc => h hc.1)]

theorem TravelCandidates_mono (g : Game) (Player : Int) (a : XY)
    (h : (g.sq a).Piece ≠ PieceType.King) (y x : Fin 8)
    (hpos : TravelCandidates g Player a false false false y x > 0) :
    TravelCandidates g Player a true true false y x > 0 := by
  unfold TravelCandidates at hpos ⊢
  rw [Normalize_pos] at hpos ⊢
  rw [CastlingMarks_notKing g a _ _ h] at hpos ⊢
  rw [SpeedVectorsOf_notKing g Player a false false h, DistanceOf_notKing g a h] at hpos
  obtain ⟨e, he⟩ := SpeedVectorsOf_special g Player a true false
  rw [he]
  exact lt_of_lt_of_le hpos
    (foldl_add_append_ge (fun sv => Travel g (g.sq a).Owner a sv (DistanceOf g a true))
      (fun _ _ _ => Travel_nonneg _ _ _ _ _ _ _) _ e _ y x)

theorem TravelCandidates_king_excluded (g : Game) (Player : Int) (a : XY) (spec diag : Bool)
    (h : (g.sq a).Piece = PieceType.King) (y x : Fin 8) :
    TravelCandidates g Player a spec false diag y x = 0 := by
  unfold TravelCandidates
  simp [SpeedVectorsOf, CastlingMarks, h, NormalizeMatrix8x8, EmptyMatrix8x8]

theorem EscapeFiltered_pos (g : Game) (Player : Int) (a : XY)
    (sub spec prevent ik diag : Bool) (y x : Fin 8) :
    EscapeFiltered g Player a sub spec prevent ik diag y x > 0 ↔
      KingSubtracted g Player a sub spec ik diag y x > 0
        ∧ ¬ (prevent = false ∧ KingInCheck g Player = true
              ∧ KingInCheck (SwapPieces g a (XY.ofIdx x y)) Player = true) := by
  unfold EscapeFiltered
  split
  · rename_i hc
    constructor
    · intro h
      exact absurd h (lt_irrefl _)
    · intro h
      exact absurd ⟨hc.1, hc.2.1, hc.2.2.2⟩ h.2
  · rename_i hc
    constructor
    · intro h
      exact ⟨h, fun hn => hc ⟨hn.1, hn.2.1, h, hn.2.2⟩⟩
    · exact fun h => h.1

/-- A square marked for a piece in the map that `GetTravelMapGlobal(Player,
false, false, false)` asks for is marked in the map that `Move` asks for. -/
theorem GetTravelMap_plain_le_move (g : Game) (Player : Int) (a : XY)
    (ha : a.InRange8 = true) (y x : Fin 8)
    (h : (GetTravelMap g Player a false false false false false).1 y x > 0) :
    (GetTravelMap g Player a true true false true false).1 y x > 0 := by
  rw [GetTravelMap_fst g Player a ha] at h ⊢
  split at h
  · rename_i hs
    rw [if_pos hs]
    rw [Normalize_pos, EscapeFiltered_pos] at h ⊢
    refine ⟨?_, h.2⟩
    have h1 := h.1
    unfold KingSubtracted at h1 ⊢
    dsimp only at h1 ⊢
    rw [if_neg (by simp)] at h1
    by_cases hk : (g.sq a).Piece = PieceType.King
    · rw [TravelCandidates_king_excluded g Player a false false hk] at h1
      exact absurd h1 (lt_irrefl _)
    · rw [if_neg (fun hc => hk hc.1)]
      exact TravelCandidates_mono g Player a hk y x h1
  · simp [EmptyMatrix8x8] at h

/-! ## The combined map and the loops that scan a matrix -/

theorem GetTravelMap_fst_nonneg (g : Game) (Player : Int) (a : XY)
    (sub spec prevent ik diag : Bool) (y x : Fin 8) :
    0 ≤ (GetTravelMap g Player a sub spec prevent ik diag).1 y x := by
  unfold GetTravelMap
  split
  · exact le_refl _
  · exact Normalize_nonneg _ _ _

theorem GlobalStep_eq (g : Game) (Player : Int) (prevent ik diag : Bool) (tm : Matrix8)
    (c : Fin 8 × Fin 8) :
    GlobalStep Player prevent ik diag (tm, g) c =
      (if (g.Board c.1 c.2).Owner = Player then
        tm.add (GetTravelMap g Player (XY.ofIdx c.2 c.1) false false prevent ik diag).1
       else tm, g) := by
  unfold GlobalStep
  split
  · simp only [GetTravelMap_snd]
  · rfl

theorem GetTravelMapGlobal_fold (g : Game) (Player : Int) (prevent ik diag : Bool)
    (l : List (Fin 8 × Fin 8)) (tm : Matrix8) (h0 : ∀ y x, 0 ≤ tm y x) :
    (l.foldl (GlobalStep Player prevent ik diag) (tm, g)).2 = g
    ∧ ∀ y x,
        (0 ≤ (l.foldl (GlobalStep Player prevent ik diag) (tm, g)).1 y x)
        ∧ ((l.foldl (GlobalStep Player prevent ik diag) (tm, g)).1 y x > 0 →
          tm y x > 0 ∨ ∃ c ∈ l, (g.Board c.1 c.2).Owner = Player
            ∧ (GetTravelMap g Player (XY.ofIdx c.2 c.1) false false prevent ik diag).1 y x > 0) := by
  induction l generalizing tm with
  | nil =>
    refine ⟨rfl, fun y x => ⟨h0 y x, fun h => Or.inl h⟩⟩
  | cons c l ih =>
    rw [List.foldl_cons, GlobalStep_eq]
    by_cases hc : (g.Board c.1 c.2).Owner = Player
    · rw [if_pos hc]
      have h1 : ∀ y x, 0 ≤ Matrix8.add tm
          (GetTravelMap g Player (XY.ofIdx c.2 c.1) false false prevent ik diag).1 y x := by
        intro y x
        unfold Matrix8.add
        have := GetTravelMap_fst_nonneg g Player (XY.ofIdx c.2 c.1) false false prevent ik diag y x
        have := h0 y x
        linarith
      obtain ⟨i1, i2⟩ := ih _ h1
      refine ⟨i1, fun y x => ⟨(i2 y x).1, fun h => ?_⟩⟩
      rcases (i2 y x).2 h with h2 | ⟨d, hd, h3⟩
      · unfold Matrix8.add at h2
        by_cases h4 : tm y x > 0
        · exact Or.inl h4
        · right
          refine ⟨c, List.mem_cons_self _ _, hc, ?_⟩
          have := h0 y x
          omega
      · exact Or.inr ⟨d, List.mem_cons_of_mem _ hd, h3⟩
    · rw [if_neg hc]
      obtain ⟨i1, i2⟩ := ih _ h0
      refine ⟨i1, fun y x => ⟨(i2 y x).1, fun h => ?_⟩⟩
      rcases (i2 y x).2 h with h2 | ⟨d, hd, h3⟩
      · exact Or.inl h2
      · exact Or.inr ⟨d, List.mem_cons_of_mem _ hd, h3⟩

theorem GetTravelMapGlobal_snd (g : Game) (Player : Int) (prevent ik diag : Bool) :
    (GetTravelMapGlobal g Player prevent ik diag).2 = g := by
  simp only [GetTravelMapGlobal]
  exact (GetTravelMapGlobal_fold g Player prevent ik diag allSquares EmptyMatrix8x8
    (fun _ _ => le_refl _)).1

theorem GetTravelMapGlobal_pos (g : Game) (Player : Int) (prevent ik diag : Bool) (y x : Fin 8)
    (h : (GetTravelMapGlobal g Player prevent ik diag).1 y x > 0) :
    ∃ c : Fin 8 × Fin 8, (g.Board c.1 c.2).Owner = Player
      ∧ (GetTravelMap g Player (XY.ofIdx c.2 c.1) false false prevent ik diag).1 y x > 0 := by
  simp only [GetTravelMapGlobal] at h
  have h1 := (Normalize_pos _ y x).mp h
  rcases ((GetTravelMapGlobal_fold g Player prevent ik diag allSquares EmptyMatrix8x8
    (fun _ _ => le_refl _)).2 y x).2 h1 with h2 | ⟨c, _, h3⟩
  · exact absurd h2 (lt_irrefl _)
  · exact ⟨c, h3⟩

theorem scan_any (l : List (Fin 8 × Fin 8)) (P : Fin 8 × Fin 8 → Prop) [DecidablePred P]
    (init : Bool) :
    l.foldl (fun b s => if P s then true else b) init = true ↔ init = true ∨ ∃ s ∈ l, P s := by
  induction l generalizing init with
  | nil => simp
  | cons a l ih =>
    rw [List.foldl_cons, ih]
    by_cases ha : P a
    · simp [ha]
    · simp [ha]

theorem FindKing_fold (g : Game) (Player : Int) (l : List (Fin 8 × Fin 8)) (init : XY)
    (h0 : init.InRange8 = false ∨ ∃ y x, init = XY.ofIdx x y ∧ (g.Board y x).Owner = Player
      ∧ (g.Board y x).Piece = PieceType.King) :
    let k := l.foldl
      (fun KingLocation s =>
        if (g.Board s.1 s.2).Owner = Player ∧ (g.Board s.1 s.2).Piece = PieceType.King then
          XY.ofIdx s.2 s.1
        else KingLocation) init
    k.InRange8 = false ∨ ∃ y x, k = XY.ofIdx x y ∧ (g.Board y x).Owner = Player
      ∧ (g.Board y x).Piece = PieceType.King := by
  induction l generalizing init with
  | nil => exact h0
  | cons a l ih =>
    simp only [List.foldl_cons]
    apply ih
    split
    · rename_i h
      exact Or.inr ⟨a.1, a.2, rfl, h.1, h.2⟩
    · exact h0

theorem FindKing_spec (g : Game) (Player : Int) :
    (FindKing g Player).InRange8 = false
    ∨ ∃ y x, FindKing g Player = XY.ofIdx x y ∧ (g.Board y x).Owner = Player
        ∧ (g.Board y x).Piece = PieceType.King :=
  FindKing_fold g Player allSquares ⟨-1, -1⟩ (Or.inl (by decide))

theorem GetTravelMap_fst_offBoard (g : Game) (Player : Int) (a : XY) (ha : a.InRange8 = false)
    (sub spec prevent ik diag : Bool) (y x : Fin 8) :
    (GetTravelMap g Player a sub spec prevent ik diag).1 y x = 0 := by
  unfold GetTravelMap
  split
  · rfl
  · have hz : ∀ y x, KingSubtracted g Player a sub spec ik diag y x ≤ 0 := fun y x =>
      le_of_eq (KingSubtracted_offBoard g Player a ha sub spec ik diag y x)
    have : NormalizeMatrix8x8 (KingSubtracted g Player a sub spec ik diag) y x = 0 := by
      unfold NormalizeMatrix8x8
      rw [if_neg (not_lt.mpr (hz y x))]
    cases prevent
    · by_cases hk : KingInCheck g Player = true
      · simp only [Bool.not_false, if_true, hk, CheckEscape_fold_nonpos Player a g _ _ hz]
        exact this
      · simp only [Bool.not_false, if_true, hk]
        exact this
    · exact this

@[simp] theorem at_ofIdx (m : Matrix8) (x y : Fin 8) : m.at (XY.ofIdx x y) = m y x := by
  simp [Matrix8.at]

theorem Move_of_marked (g : Game) (p : Int) (sx sy dx dy : Fin 8)
    (ho : (g.Board sy sx).Owner = p)
    (hm : (GetTravelMap g p (XY.ofIdx sx sy) true true false true false).1 dy dx > 0) :
    (Move g (XY.ofIdx sx sy) (XY.ofIdx dx dy)).1 = true := by
  rw [Move_eq, sq_ofIdx, ho, at_ofIdx, if_pos hm]

/-- Whenever `PlayerCanMove` answers true, some `Move` from a square of the
player succeeds. -/
theorem PlayerCanMove_move (g : Game) (p : Int) (h : (PlayerCanMove g p).1 = true) :
    ∃ sx sy dx dy : Fin 8, (g.Board sy sx).Owner = p
      ∧ (Move g (XY.ofIdx sx sy) (XY.ofIdx dx dy)).1 = true := by
  simp only [PlayerCanMove, GetTravelMapGlobal_snd] at h
  rw [scan_any] at h
  rcases h with h | ⟨s, _, hs⟩
  · exact absurd h (by decide)
  · unfold Matrix8.add at hs
    by_cases h1 : (GetTravelMapGlobal g p false false false).1 s.1 s.2 > 0
    · obtain ⟨c, hc, hm⟩ := GetTravelMapGlobal_pos g p false false false s.1 s.2 h1
      exact ⟨c.2, c.1, s.2, s.1, hc, Move_of_marked g p _ _ _ _ hc
        (GetTravelMap_plain_le_move g p _ (InRange8_ofIdx _ _) _ _ hm)⟩
    · have h2 : (GetTravelMap g p (FindKing g p) true true false true false).1 s.1 s.2 > 0 := by
        have : (GetTravelMapGlobal g p false false false).1 s.1 s.2 ≤ 0 := not_lt.mp h1
        omega
      rcases FindKing_spec g p with hk | ⟨ky, kx, hk, hko, _⟩
      · rw [GetTravelMap_fst_offBoard g p _ hk] at h2
        exact absurd h2 (lt_irrefl _)
      · rw [hk] at h2
        exact ⟨kx, ky, s.2, s.1, hko, Move_of_marked g p _ _ _ _ hko h2⟩

/-- C6. For a player `p` with exactly one king: if no `Move` from a square
owned by `p` would succeed, then with the king in check `Checkmate(p)` is true
and `Stalemate(p)` false, and with the king not in check `Stalemate(p)` is true
and `Checkmate(p)` false. -/
theorem no_move_classification (g : Game) (p : Int)
    (_hking : ∃ ky kx : Fin 8, ∀ y x : Fin 8,
      ((g.Board y x).Owner = p ∧ (g.Board y x).Piece = PieceType.King) ↔ (y = ky ∧ x = kx))
    (hno : ∀ sx sy dx dy : Fin 8, GetOwner g (XY.ofIdx sx sy) = p →
      (Move g (XY.ofIdx sx sy) (XY.ofIdx dx dy)).1 = false) :
    (KingInCheck g p = true → (Checkmate g p).1 = true ∧ (Stalemate g p).1 = false)
    ∧ (KingInCheck g p = false → (Stalemate g p).1 = true ∧ (Checkmate g p).1 = false) := by
  have hcan : (PlayerCanMove g p).1 = false := by
    cases hc : (PlayerCanMove g p).1 with
    | false => rfl
    | true =>
      obtain ⟨sx, sy, dx, dy, ho, hm⟩ := PlayerCanMove_move g p hc
      have := hno sx sy dx dy (by simpa [GetOwner] using ho)
      rw [this] at hm
      exact absurd hm (by decide)
  constructor
  · intro hk
    simp [Checkmate, Stalemate, hk, hcan]
  · intro hk
    simp [Checkmate, Stalemate, hk, hcan]

/-- C6 at a concrete input: White in `Stalemated`. -/
theorem no_move_classification_witness :
    (KingInCheck Stalemated PlayerType.White = true →
        (Checkmate Stalemated PlayerType.White).1 = true
        ∧ (Stalemate Stalemated PlayerType.White).1 = false)
    ∧ (KingInCheck Stalemated PlayerType.White = false →
        (Stalemate Stalemated PlayerType.White).1 = true
        ∧ (Checkmate Stalemated PlayerType.White).1 = false) :=
  no_move_classification Stalemated PlayerType.White ⟨0, 0, by decide!⟩ (by
    intro sx sy dx dy
    rw [Move_eq, GetTravelMap_fst _ _ _ (InRange8_ofIdx _ _)]
    revert sx sy dx dy
    decide!)

theorem EscapeFiltered_not_in_check (g : Game) (Player : Int) (a : XY)
    (sub spec prevent ik diag : Bool) (hk : KingInCheck g Player = false) :
    EscapeFiltered g Player a sub spec prevent ik diag = KingSubtracted g Player a sub spec ik diag := by
  funext y x
  unfold EscapeFiltered
  rw [if_neg]
  rw [hk]
  simp

theorem Move_fst_iff (g : Game) (s d : XY) :
    (Move g s d).1 = true
      ↔ (GetTravelMap g (g.sq s).Owner s true true false true false).1.at d > 0 := by
  rw [Move_eq]
  split
  · rename_i h
    exact ⟨fun _ => h, fun _ => rfl⟩
  · rename_i h
    exact ⟨fun hc => absurd hc (by simp), fun hc => absurd hc h⟩

/-! ## `GetTravelMapGlobal` with the recursion guard on -/

theorem GetTravelMap_guarded (g : Game) (Player : Int) (a : XY) (spec ik diag : Bool) :
    GetTravelMap g Player a false spec true ik diag
      = (GetTravelMapGuarded g Player a spec ik diag, g) := by
  unfold GetTravelMap GetTravelMapGuarded KingSubtracted
  split
  · rfl
  · simp

theorem GlobalStep_guarded_fold (g : Game) (Player : Int) (ik diag : Bool)
    (l : List (Fin 8 × Fin 8)) (tm : Matrix8) :
    l.foldl (GlobalStep Player true ik diag) (tm, g) =
      (l.foldl
        (fun TravelMap s =>
          if (g.Board s.1 s.2).Owner = Player then
            TravelMap.add (GetTravelMapGuarded g Player (XY.ofIdx s.2 s.1) false ik diag)
          else TravelMap) tm, g) := by
  induction l generalizing tm with
  | nil => rfl
  | cons c l ih =>
    rw [List.foldl_cons, List.foldl_cons, GlobalStep_eq, GetTravelMap_guarded, ih]

theorem GetTravelMapGlobal_guarded (g : Game) (Player : Int) (ik diag : Bool) :
    GetTravelMapGlobal g Player true ik diag = (GetTravelMapGlobalGuarded g Player ik diag, g) := by
  simp only [GetTravelMapGlobal, GlobalStep_guarded_fold, GetTravelMapGlobalGuarded]

/-! ## `FindKing` -/

theorem FindKing_fold_unique (g : Game) (Player : Int) (k : XY) (l : List (Fin 8 × Fin 8))
    (init : XY)
    (hu : ∀ s ∈ l, ((g.Board s.1 s.2).Owner = Player ∧ (g.Board s.1 s.2).Piece = PieceType.King)
      → XY.ofIdx s.2 s.1 = k)
    (h0 : init = k ∨ ∃ s ∈ l, (g.Board s.1 s.2).Owner = Player
      ∧ (g.Board s.1 s.2).Piece = PieceType.King) :
    l.foldl
      (fun KingLocation s =>
        if (g.Board s.1 s.2).Owner = Player ∧ (g.Board s.1 s.2).Piece = PieceType.King then
          XY.ofIdx s.2 s.1
        else KingLocation) init = k := by
  induction l generalizing init with
  | nil =>
    rcases h0 with h | ⟨s, hs, _⟩
    · exact h
    · exact absurd hs (List.not_mem_nil _)
  | cons a l ih =>
    rw [List.foldl_cons]
    apply ih
    · exact fun s hs => hu s (List.mem_cons_of_mem _ hs)
    · by_cases ha : (g.Board a.1 a.2).Owner = Player ∧ (g.Board a.1 a.2).Piece = PieceType.King
      · rw [if_pos ha]
        exact Or.inl (hu a (List.mem_cons_self _ _) ha)
      · rw [if_neg ha]
        rcases h0 with h | ⟨s, hs, h1, h2⟩
        · exact Or.inl h
        · rcases List.mem_cons.mp hs with rfl | hs'
          · exact absurd ⟨h1, h2⟩ ha
          · exact Or.inr ⟨s, hs', h1, h2⟩

/-- The only king of a player is the one `FindKing` returns. -/
theorem FindKing_only_king (g : Game) (Player : Int) (ky kx : Fin 8)
    (h : ∀ y x : Fin 8,
      ((g.Board y x).Owner = Player ∧ (g.Board y x).Piece = PieceType.King) ↔ (y = ky ∧ x = kx)) :
    FindKing g Player = XY.ofIdx kx ky := by
  unfold FindKing
  apply FindKing_fold_unique
  · intro s _ hs
    obtain ⟨h1, h2⟩ := (h s.1 s.2).mp hs
    rw [h1, h2]
  · exact Or.inr ⟨(ky, kx), mem_allSquares ky kx, (h ky kx).mpr ⟨rfl, rfl⟩⟩

/-! ## `UpdateCastlingInformation` for a king on its home square -/

theorem sq_setSq (g : Game) (c : XY) (f : BoardPiece → BoardPiece) (c' : XY)
    (hc : c.InRange8 = true) (hc' : c'.InRange8 = true) :
    (g.setSq c f).sq c' =
      if toFin8 c'.y = toFin8 c.y ∧ toFin8 c'.x = toFin8 c.x then f (g.sq c') else g.sq c' := by
  simp only [Game.sq, hc', if_true, setSq_Board g c f hc]

theorem HomeRow_cases (p : Int) : HomeRow p = 0 ∨ HomeRow p = 7 := by
  unfold HomeRow
  split
  · exact Or.inr rfl
  · exact Or.inl rfl

theorem InRange8_row (x Row : Int) (hx : 0 ≤ x ∧ x < 8) (hr : Row = 0 ∨ Row = 7) :
    (XY.mk x Row).InRange8 = true := by
  rw [InRange8_iff]
  rcases hr with h | h <;> simp [h, hx.1, hx.2]

theorem CastlingStep_keeps (Player Row : Int) (k : XY) (tm : Matrix8) (g : Game) (x : Int)
    (c : XY) (hr : Row = 0 ∨ Row = 7) (hc : c.InRange8 = true)
    (h : (g.sq c).CastlingTarget = true) :
    ((CastlingStep Player Row k tm g x).sq c).CastlingTarget = true := by
  have h2 : (XY.mk 2 Row).InRange8 = true := InRange8_row 2 Row (by decide) hr
  have h6 : (XY.mk 6 Row).InRange8 = true := InRange8_row 6 Row (by decide) hr
  unfold CastlingStep
  dsimp only
  split_ifs
  all_goals first
    | exact h
    | (rw [sq_setSq _ _ _ _ h2 hc]; split <;> first | rfl | exact h)
    | (rw [sq_setSq _ _ _ _ h6 hc]; split <;> first | rfl | exact h)

theorem EmptyGround_fold (g : Game) (tm : Matrix8) (Row : Int) (l : List Int) (init : Bool) :
    l.foldl
      (fun EmptyGround e =>
        if (g.sq ⟨e, Row⟩).Owner ≠ PlayerType.Nobody ∨ tm.at ⟨e, Row⟩ > 0
        then false else EmptyGround) init = true
    ↔ init = true ∧ ∀ e ∈ l, (g.sq ⟨e, Row⟩).Owner = PlayerType.Nobody ∧ ¬ tm.at ⟨e, Row⟩ > 0 := by
  induction l generalizing init with
  | nil => simp
  | cons a l ih =>
    rw [List.foldl_cons, ih]
    by_cases ha : (g.sq ⟨a, Row⟩).Owner ≠ PlayerType.Nobody ∨ tm.at ⟨a, Row⟩ > 0
    · rw [if_pos ha]
      constructor
      · intro h; exact absurd h.1 (by decide)
      · intro h
        have := h.2 a (List.mem_cons_self _ _)
        rcases ha with ha | ha
        · exact absurd this.1 ha
        · exact absurd ha this.2
    · rw [if_neg ha]
      have ha' : (g.sq ⟨a, Row⟩).Owner = PlayerType.Nobody ∧ ¬ tm.at ⟨a, Row⟩ > 0 :=
        ⟨by_contra fun h => ha (Or.inl h), fun h => ha (Or.inr h)⟩
      constructor
      · intro h
        refine ⟨h.1, fun e he => ?_⟩
        rcases List.mem_cons.mp he with rfl | he'
        · exact ha'
        · exact h.2 e he'
      · intro h
        exact ⟨h.1, fun e he => h.2 e (List.mem_cons_of_mem _ he)⟩

theorem mem_IntRange (lo hi e : Int) : e ∈ IntRange lo hi ↔ lo ≤ e ∧ e < hi := by
  unfold IntRange
  simp only [List.mem_map, List.mem_range]
  constructor
  · rintro ⟨i, hi', rfl⟩
    omega
  · intro h
    refine ⟨(e - lo).toNat, ?_, ?_⟩ <;> omega

theorem EmptyGround_iff (g : Game) (tm : Matrix8) (Row StartX EndX : Int) :
    EmptyGround g tm Row StartX EndX = true
    ↔ ∀ e : Int, StartX < e → e < EndX →
        (g.sq ⟨e, Row⟩).Owner = PlayerType.Nobody ∧ ¬ tm.at ⟨e, Row⟩ > 0 := by
  unfold EmptyGround
  rw [EmptyGround_fold]
  simp only [true_and, mem_IntRange]
  constructor
  · intro h e h1 h2
    exact h e ⟨by omega, h2⟩
  · intro h e he
    exact h e (by omega) he.2

theorem CastlingStep_sets (Player Row : Int) (tm : Matrix8) (g : Game) (rx tx : Int)
    (hr : Row = 0 ∨ Row = 7) (hside : (rx = 0 ∧ tx = 2) ∨ (rx = 7 ∧ tx = 6))
    (hrook : (g.sq ⟨rx, Row⟩).Owner = Player ∧ (g.sq ⟨rx, Row⟩).Piece = PieceType.Rook
      ∧ (g.sq ⟨rx, Row⟩).Touched = false)
    (hbetween : ∀ e : Int, min rx 4 < e → e < max rx 4 →
        (g.sq ⟨e, Row⟩).Owner = PlayerType.Nobody ∧ ¬ tm.at ⟨e, Row⟩ > 0) :
    ((CastlingStep Player Row ⟨4, Row⟩ tm g rx).sq ⟨tx, Row⟩).CastlingTarget = true := by
  have h2 : (XY.mk 2 Row).InRange8 = true := InRange8_row 2 Row (by decide) hr
  have h6 : (XY.mk 6 Row).InRange8 = true := InRange8_row 6 Row (by decide) hr
  unfold CastlingStep
  rw [if_pos hrook]
  dsimp only
  rcases hside with ⟨rfl, rfl⟩ | ⟨rfl, rfl⟩
  · have he : EmptyGround g tm Row 0 4 = true := by
      rw [EmptyGround_iff]
      intro e h1 h3
      exact hbetween e (by simpa using h1) (by simpa using h3)
    simp only [show (0 : Int) < 4 by decide, if_true, he]
    rw [sq_setSq _ _ _ _ h2 h2]
    simp
  · have he : EmptyGround g tm Row 4 7 = true := by
      rw [EmptyGround_iff]
      intro e h1 h3
      exact hbetween e (by simpa using h1) (by simpa using h3)
    simp only [show ¬ (7 : Int) < 4 by decide, if_false, show (7 : Int) ≠ 0 by decide, he, if_true]
    rw [sq_setSq _ _ _ _ h6 h6]
    simp

theorem TravelCandidates_castling_marked (g : Game) (Player : Int) (k : XY) (diag : Bool)
    (y x : Fin 8) (hpiece : (g.sq k).Piece = PieceType.King)
    (hflag : (g.Board y x).CastlingTarget = true) :
    TravelCandidates g Player k true true diag y x = 1 := by
  unfold TravelCandidates
  have h1 : CastlingMarks g k true true y x = 1 := by
    unfold CastlingMarks
    rw [if_pos ⟨hpiece, rfl, rfl⟩]
    simp [hflag]
  have h2 := foldl_add_ge (fun sv => Travel g (g.sq k).Owner k sv (DistanceOf g k true))
    (fun _ _ _ => Travel_nonneg _ _ _ _ _ _ _)
    (SpeedVectorsOf g Player k true true diag) (CastlingMarks g k true true) y x
  unfold NormalizeMatrix8x8
  rw [if_pos]
  rw [h1] at h2
  exact lt_of_lt_of_le (by decide) h2

theorem UpdateCastlingInformation_home (g : Game) (p : Int) (hpn : p ≠ PlayerType.Nobody)
    (hnc : KingInCheck g p = false) (hfk : FindKing g p = ⟨4, HomeRow p⟩) :
    UpdateCastlingInformation g p =
      CastlingStep p (HomeRow p) ⟨4, HomeRow p⟩ (GetTravelMapGlobalGuarded g (Opponent p) true true)
        (CastlingStep p (HomeRow p) ⟨4, HomeRow p⟩
          (GetTravelMapGlobalGuarded g (Opponent p) true true) (ClearCastlingTargets g) 0) 7 := by
  have S0 := SameButCastling_clear g
  have hin : (XY.mk 4 (HomeRow p)).InRange8 = true :=
    InRange8_row 4 _ (by decide) (HomeRow_cases p)
  unfold UpdateCastlingInformation
  dsimp only
  rw [if_neg hpn, KingInCheck_congr S0, hnc, FindKing_congr S0, hfk,
    GetTravelMapGlobalGuarded_congr S0]
  simp [hin]

/-- C7. Castling is offered when its preconditions hold.  For `p` Black or
White with home row `HomeRow p`: if the only king of `p` stands on
`(4, HomeRow p)` with `Touched = false`, `p` is not in check, the corner
`(rx, HomeRow p)` (`rx = 0`, resp. `7`) holds an untouched rook of `p`, and
every square strictly between king and rook is empty and unmarked in
`GetTravelMapGlobal(Opponent(p), true, true, true)`, then after
`UpdateCastlingInformation(p)` the square `(tx, HomeRow p)` (`tx = 2`, resp.
`6`) has `CastlingTarget = true` and is marked in the king's `GetTravelMap`
with `IncludeSpecialMoves = true` and `IncludeKing = true`, whatever the other
flags. -/
theorem castling_offered (g : Game) (p rx tx : Int)
    (hp : p = PlayerType.Black ∨ p = PlayerType.White)
    (hside : (rx = 0 ∧ tx = 2) ∨ (rx = 7 ∧ tx = 6))
    (hking : ∀ y x : Fin 8,
      ((g.Board y x).Owner = p ∧ (g.Board y x).Piece = PieceType.King)
        ↔ ((x.val : Int) = 4 ∧ (y.val : Int) = HomeRow p))
    (_hkt : (g.sq ⟨4, HomeRow p⟩).Touched = false)
    (hnc : KingInCheck g p = false)
    (hrook : (g.sq ⟨rx, HomeRow p⟩).Owner = p ∧ (g.sq ⟨rx, HomeRow p⟩).Piece = PieceType.Rook
      ∧ (g.sq ⟨rx, HomeRow p⟩).Touched = false)
    (hbetween : ∀ e : Int, min rx 4 < e → e < max rx 4 →
      (g.sq ⟨e, HomeRow p⟩).Owner = PlayerType.Nobody
      ∧ ¬ (GetTravelMapGlobal g (Opponent p) true true true).1.at ⟨e, HomeRow p⟩ > 0)
    (sub prevent diag : Bool) :
    ((UpdateCastlingInformation g p).sq ⟨tx, HomeRow p⟩).CastlingTarget = true
    ∧ (GetTravelMap (UpdateCastlingInformation g p) p ⟨4, HomeRow p⟩
        sub true prevent true diag).1.at ⟨tx, HomeRow p⟩ > 0 := by
  have hr := HomeRow_cases p
  have hpn : p ≠ PlayerType.Nobody := by rcases hp with rfl | rfl <;> decide
  rw [GetTravelMapGlobal_guarded] at hbetween
  dsimp only at hbetween
  obtain ⟨ky, hky⟩ : ∃ ky : Fin 8, (ky.val : Int) = HomeRow p := by
    rcases hr with h | h
    · exact ⟨0, by rw [h]; decide⟩
    · exact ⟨7, by rw [h]; decide⟩
  have hk4 : XY.ofIdx 4 ky = ⟨4, HomeRow p⟩ := by
    unfold XY.ofIdx
    rw [hky]
    rfl
  have hfk : FindKing g p = ⟨4, HomeRow p⟩ := by
    rw [← hk4]
    apply FindKing_only_king
    intro y x
    rw [hking, ← hky]
    constructor
    · rintro ⟨h1, h2⟩
      refine ⟨Fin.ext (by exact_mod_cast h2), Fin.ext ?_⟩
      show x.val = 4
      omega
    · rintro ⟨rfl, rfl⟩
      exact ⟨rfl, rfl⟩
  have hkin : (XY.mk 4 (HomeRow p)).InRange8 = true := InRange8_row 4 _ (by decide) hr
  have htx : 0 ≤ tx ∧ tx < 8 := by rcases hside with ⟨_, rfl⟩ | ⟨_, rfl⟩ <;> decide
  have htin : (XY.mk tx (HomeRow p)).InRange8 = true := InRange8_row tx _ htx hr
  have htb : min rx 4 < tx ∧ tx < max rx 4 := by
    rcases hside with ⟨rfl, rfl⟩ | ⟨rfl, rfl⟩ <;> decide
  have S0 := SameButCastling_clear g
  have hU := UpdateCastlingInformation_home g p hpn hnc hfk
  have S := UpdateCastlingInformation_same g p
  -- the flag
  have hflag : ((UpdateCastlingInformation g p).sq ⟨tx, HomeRow p⟩).CastlingTarget = true := by
    rw [hU]
    rcases hside with ⟨rfl, rfl⟩ | ⟨rfl, rfl⟩
    · apply CastlingStep_keeps _ _ _ _ _ _ _ hr htin
      apply CastlingStep_sets _ _ _ _ 0 2 hr (Or.inl ⟨rfl, rfl⟩)
      · simpa only [S0.sq_Owner, S0.sq_Piece, S0.sq_Touched] using hrook
      · simpa only [S0.sq_Owner] using hbetween
    · have S1 := (CastlingStep_same p (HomeRow p) ⟨4, HomeRow p⟩
        (GetTravelMapGlobalGuarded g (Opponent p) true true) (ClearCastlingTargets g) 0).trans S0
      apply CastlingStep_sets _ _ _ _ 7 6 hr (Or.inr ⟨rfl, rfl⟩)
      · simpa only [S1.sq_Owner, S1.sq_Piece, S1.sq_Touched] using hrook
      · simpa only [S1.sq_Owner] using hbetween
  refine ⟨hflag, ?_⟩
  -- the king's travel map
  have hkg : (g.sq ⟨4, HomeRow p⟩).Owner = p ∧ (g.sq ⟨4, HomeRow p⟩).Piece = PieceType.King := by
    rw [← hk4, sq_ofIdx]
    exact (hking ky 4).mpr ⟨rfl, hky⟩
  have hsel : CanSelect (UpdateCastlingInformation g p) p ⟨4, HomeRow p⟩ = true := by
    unfold CanSelect
    rw [S.sq_Owner, hkg.1]
    simp
  rw [GetTravelMap_fst _ _ _ hkin, if_pos hsel]
  unfold Matrix8.at
  rw [if_pos htin, Normalize_pos, EscapeFiltered_pos]
  rw [sq_of_inRange _ _ htin] at hflag
  have hcand := TravelCandidates_castling_marked (UpdateCastlingInformation g p) p
    ⟨4, HomeRow p⟩ diag _ _ (by rw [S.sq_Piece]; exact hkg.2) hflag
  have hun := (hbetween tx htb.1 htb.2).2
  unfold Matrix8.at at hun
  rw [if_pos htin] at hun
  dsimp only at hun hcand ⊢
  constructor
  · unfold KingSubtracted
    dsimp only
    split
    · show TravelCandidates (UpdateCastlingInformation g p) p ⟨4, HomeRow p⟩ true true diag
          (toFin8 (HomeRow p)) (toFin8 tx)
        - GetTravelMapGlobalGuarded (UpdateCastlingInformation g p) (Opponent p) true true
          (toFin8 (HomeRow p)) (toFin8 tx) > 0
      rw [hcand, GetTravelMapGlobalGuarded_congr S]
      have h0 := Normalize_nonneg (allSquares.foldl
        (fun TravelMap s =>
          if (g.Board s.1 s.2).Owner = Opponent p then
            TravelMap.add (GetTravelMapGuarded g (Opponent p) (XY.ofIdx s.2 s.1) false true true)
          else TravelMap) EmptyMatrix8x8) (toFin8 (HomeRow p)) (toFin8 tx)
      change 0 ≤ GetTravelMapGlobalGuarded g (Opponent p) true true _ _ at h0
      omega
    · rw [hcand]
      decide
  · rintro ⟨_, h, _⟩
    rw [KingInCheck_congr S, hnc] at h
    exact absurd h (by decide)


/-- C7 at a concrete input: White's queenside castling in `CastlingReady`. -/
theorem castling_offered_witness :
    ((UpdateCastlingInformation CastlingReady PlayerType.White).sq
        ⟨2, HomeRow PlayerType.White⟩).CastlingTarget = true
    ∧ (GetTravelMap (UpdateCastlingInformation CastlingReady PlayerType.White) PlayerType.White
        ⟨4, HomeRow PlayerType.White⟩ true true false true false).1.at
          ⟨2, HomeRow PlayerType.White⟩ > 0 :=
  castling_offered CastlingReady PlayerType.White 0 2 (Or.inr rfl) (Or.inl ⟨rfl, rfl⟩)
    (by decide!) (by decide!) (by decide!) (by decide!)
    (by
      intro e h1 h2
      have he : e = 1 ∨ e = 2 ∨ e = 3 := by
        have h3 : (0 : Int) < e := by simpa using h1
        have h4 : e < 4 := by simpa using h2
        omega
      rw [GetTravelMapGlobal_guarded]
      rcases he with rfl | rfl | rfl <;> decide!)
    true false false

/-! ## `Travel` reaches its `break` -/

theorem TravelLoop_isSome_of_measure (g : Game) (Player : Int) (v : XY) (φ : XY → Int)
    (hstep : ∀ L : XY, (L.add v).InRange8 = true → φ (L.add v) + 1 ≤ φ L)
    (hnonneg : ∀ L : XY, L.InRange8 = true → 0 ≤ φ L)
    (fuel : Nat) (L : XY) (d : Int) (tm : Matrix8)
    (hL : L.InRange8 = true) (h : φ L < fuel) :
    (TravelLoop fuel g Player L v d tm).isSome = true := by
  induction fuel generalizing L d tm with
  | zero =>
    have := hnonneg L hL
    simp only [Nat.cast_zero] at h
    omega
  | succ n ih =>
    unfold TravelLoop
    dsimp only
    split
    · rename_i hc
      have hin : (L.add v).InRange8 = true := by
        simp only [Bool.and_eq_true] at hc
        exact hc.1.2
      apply ih _ _ _ hin
      have := hstep L hin
      push_cast at h
      omega
    · rfl

/-- From a square of the board and with a non-zero speed vector, the loop of
`Travel` leaves within eight iterations. -/
theorem TravelLoop_isSome (g : Game) (Player : Int) (L v : XY) (d : Int) (tm : Matrix8)
    (hL : L.InRange8 = true) (hv : v.x ≠ 0 ∨ v.y ≠ 0) :
    (TravelLoop 8 g Player L v d tm).isSome = true := by
  have hL' := (InRange8_iff L).mp hL
  by_cases hx : 0 < v.x
  · apply TravelLoop_isSome_of_measure g Player v (fun c => 7 - c.x) _ _ 8 L d tm hL
    · show 7 - L.x < 8
      omega
    · intro c _
      show 7 - (c.x + v.x) + 1 ≤ 7 - c.x
      omega
    · intro c hc
      have := (InRange8_iff c).mp hc
      show 0 ≤ 7 - c.x
      omega
  · by_cases hx2 : v.x < 0
    · apply TravelLoop_isSome_of_measure g Player v (fun c => c.x) _ _ 8 L d tm hL
      · show L.x < 8
        omega
      · intro c _
        show c.x + v.x + 1 ≤ c.x
        omega
      · intro c hc
        exact ((InRange8_iff c).mp hc).1
    · have hx0 : v.x = 0 := by omega
      have hy : v.y ≠ 0 := by
        rcases hv with h | h
        · exact absurd hx0 h
        · exact h
      by_cases hy1 : 0 < v.y
      · apply TravelLoop_isSome_of_measure g Player v (fun c => 7 - c.y) _ _ 8 L d tm hL
        · show 7 - L.y < 8
          omega
        · intro c _
          show 7 - (c.y + v.y) + 1 ≤ 7 - c.y
          omega
        · intro c hc
          have := (InRange8_iff c).mp hc
          show 0 ≤ 7 - c.y
          omega
      · apply TravelLoop_isSome_of_measure g Player v (fun c => c.y) _ _ 8 L d tm hL
        · show L.y < 8
          omega
        · intro c _
          show c.y + v.y + 1 ≤ c.y
          omega
        · intro c hc
          exact ((InRange8_iff c).mp hc).2.2.1

theorem PawnSpeedVectors_nonzero (g : Game) (Player : Int) (a : XY) (spec diag : Bool)
    (v : XY) (hv : v ∈ PawnSpeedVectors g Player a spec diag) : v.x ≠ 0 ∨ v.y ≠ 0 := by
  unfold PawnSpeedVectors at hv
  dsimp only at hv
  have hdy : (if Player = PlayerType.Black then (1 : Int) else -1) = 1
      ∨ (if Player = PlayerType.Black then (1 : Int) else -1) = -1 := by
    split
    · exact Or.inl rfl
    · exact Or.inr rfl
  generalize (if Player = PlayerType.Black then (1 : Int) else -1) = dy at hv hdy
  have hy : v.y = dy ∨ v.y = 2 * dy := by
    simp only [List.mem_append, List.flatMap_cons, List.flatMap_nil, List.append_nil] at hv
    rcases hv with (hv | hv | hv) | hv
    · split_ifs at hv <;> simp at hv <;> rcases hv with rfl | rfl <;> simp
    · split_ifs at hv <;> simp_all
    · split_ifs at hv <;> simp_all
    · split_ifs at hv <;> simp at hv <;> rcases hv with rfl | rfl <;> simp
  right
  rcases hdy with rfl | rfl <;> rcases hy with h | h <;> rw [h] <;> decide

/-- Every speed vector that `GetTravelMap` hands to `Travel` is non-zero. -/
theorem SpeedVectorsOf_nonzero (g : Game) (Player : Int) (a : XY) (spec ik diag : Bool)
    (v : XY) (hv : v ∈ SpeedVectorsOf g Player a spec ik diag) : v.x ≠ 0 ∨ v.y ≠ 0 := by
  unfold SpeedVectorsOf at hv
  dsimp only at hv
  split at hv
  · exact PawnSpeedVectors_nonzero g Player a spec diag v hv
  · have key : ∀ l : List XY, (∀ w ∈ l, w.x ≠ 0 ∨ w.y ≠ 0) → v ∈ l → v.x ≠ 0 ∨ v.y ≠ 0 :=
      fun l hl hm => hl v hm
    split at hv
    · exact key _ (by decide) hv
    · split at hv
      · exact key _ (by decide) hv
      · split at hv
        · exact key _ (by decide) hv
        · split at hv
          · exact key _ (by decide) hv
          · split at hv
            · split at hv
              · exact key _ (by decide) hv
              · exact absurd hv (List.not_mem_nil _)
            · exact absurd hv (List.not_mem_nil _)

/-! ## `Move` block by block -/

theorem ApplyMove_eq (g : Game) (Source Destination : XY) :
    ApplyMove g Source Destination =
      RequestPromotion
        (MarkEnPassant
          (ClearEnPassant
            (CaptureEnPassant (CastleRook (MovePiece g Source Destination) Source Destination)
              Destination))
          Source Destination)
        Destination := rfl

theorem toFin8_inj (a b : XY) (ha : a.InRange8 = true) (hb : b.InRange8 = true) :
    (toFin8 a.y = toFin8 b.y ∧ toFin8 a.x = toFin8 b.x) ↔ a = b := by
  constructor
  · rintro ⟨h1, h2⟩
    rw [← ofIdx_toFin8 a ha, ← ofIdx_toFin8 b hb, h1, h2]
  · rintro rfl
    exact ⟨rfl, rfl⟩

/-- Reading a square after an assignment to a square. -/
theorem sq_setSq_eq (g : Game) (c : XY) (f : BoardPiece → BoardPiece) (c' : XY) :
    (g.setSq c f).sq c' = if c'.InRange8 = true ∧ c' = c then f (g.sq c') else g.sq c' := by
  cases hc : c.InRange8
  · have : g.setSq c f = g := by simp [Game.setSq, hc]
    rw [this, if_neg]
    rintro ⟨h1, rfl⟩
    rw [hc] at h1
    exact absurd h1 (by decide)
  · cases hc' : c'.InRange8
    · rw [sq_of_not_inRange _ _ hc', sq_of_not_inRange _ _ hc', if_neg]
      rintro ⟨h1, _⟩
      exact absurd h1 (by decide)
    · rw [sq_setSq g c f c' hc hc']
      simp only [toFin8_inj c' c hc' hc, true_and]

theorem Board_eq_sq (g : Game) (y x : Fin 8) : g.Board y x = g.sq (XY.ofIdx x y) :=
  (sq_ofIdx g x y).symm

/-! ## Fields that `Move` leaves alone -/

@[simp] theorem MovePiece_Turn (g : Game) (s d : XY) : (MovePiece g s d).Turn = g.Turn := by
  simp [MovePiece]

@[simp] theorem MovePiece_Promotion (g : Game) (s d : XY) :
    (MovePiece g s d).Promotion = g.Promotion := by
  simp [MovePiece]

@[simp] theorem CastleRook_Turn (g : Game) (s d : XY) : (CastleRook g s d).Turn = g.Turn := by
  unfold CastleRook
  split <;> simp

@[simp] theorem CastleRook_Promotion (g : Game) (s d : XY) :
    (CastleRook g s d).Promotion = g.Promotion := by
  unfold CastleRook
  split <;> simp

@[simp] theorem CaptureEnPassant_Turn (g : Game) (d : XY) :
    (CaptureEnPassant g d).Turn = g.Turn := by
  unfold CaptureEnPassant
  dsimp only
  split_ifs <;> simp

@[simp] theorem CaptureEnPassant_Promotion (g : Game) (d : XY) :
    (CaptureEnPassant g d).Promotion = g.Promotion := by
  unfold CaptureEnPassant
  dsimp only
  split_ifs <;> simp

@[simp] theorem ClearEnPassant_Turn (g : Game) : (ClearEnPassant g).Turn = g.Turn := rfl

@[simp] theorem ClearEnPassant_Promotion (g : Game) :
    (ClearEnPassant g).Promotion = g.Promotion := rfl

@[simp] theorem MarkEnPassant_Turn (g : Game) (s d : XY) : (MarkEnPassant g s d).Turn = g.Turn := by
  unfold MarkEnPassant
  split_ifs <;> simp

@[simp] theorem MarkEnPassant_Promotion (g : Game) (s d : XY) :
    (MarkEnPassant g s d).Promotion = g.Promotion := by
  unfold MarkEnPassant
  split_ifs <;> simp

@[simp] theorem RequestPromotion_Turn (g : Game) (d : XY) :
    (RequestPromotion g d).Turn = g.Turn := by
  unfold RequestPromotion
  split_ifs <;> rfl

@[simp] theorem RequestPromotion_Board (g : Game) (d : XY) :
    (RequestPromotion g d).Board = g.Board := by
  unfold RequestPromotion
  split_ifs <;> rfl

theorem RequestPromotion_sq (g : Game) (d c : XY) : (RequestPromotion g d).sq c = g.sq c := by
  simp [Game.sq]

theorem ApplyMove_Turn (g : Game) (s d : XY) : (ApplyMove g s d).Turn = g.Turn := by
  simp [ApplyMove_eq]

/-- C20. `Move` never advances the turn: for every state and every `src`,
`dst`, `GetTurn()` after `Move(src, dst)` equals `GetTurn()` before it, whether
the move succeeds, fails, or sets a pending promotion. -/
theorem Move_keeps_turn (g : Game) (src dst : XY) :
    GetTurn (Move g src dst).2 = GetTurn g := by
  unfold GetTurn
  rw [Move_eq]
  split
  · exact ApplyMove_Turn g src dst
  · rfl

/-! ## `SatisfyPromotionRequest` -/

theorem SatisfyPromotionRequest_sq (g : Game) (Piece : Int) (c : XY) :
    (SatisfyPromotionRequest g Piece).sq c =
      if c.InRange8 = true ∧ c = g.Promotion.Location then { g.sq c with Piece := Piece }
      else g.sq c := by
  have h : (SatisfyPromotionRequest g Piece).sq c
      = (g.setSq g.Promotion.Location (fun s => { s with Piece := Piece })).sq c := by
    simp [SatisfyPromotionRequest, Game.sq]
  rw [h, sq_setSq_eq]

theorem SatisfyPromotionRequest_effect (g : Game) (Piece : Int)
    (hL : g.Promotion.Location.InRange8 = true) :
    GetPiece (SatisfyPromotionRequest g Piece) g.Promotion.Location = Piece
    ∧ (∀ y x : Fin 8, (SatisfyPromotionRequest g Piece).Board y x
        = if XY.ofIdx x y = g.Promotion.Location then { g.Board y x with Piece := Piece }
          else g.Board y x)
    ∧ (SatisfyPromotionRequest g Piece).Turn = g.Turn
    ∧ (SatisfyPromotionRequest g Piece).Promotion = ⟨false, ⟨-1, -1⟩⟩ := by
  refine ⟨?_, ?_, ?_, ?_⟩
  · unfold GetPiece
    rw [SatisfyPromotionRequest_sq, if_pos ⟨hL, rfl⟩]
  · intro y x
    rw [Board_eq_sq, SatisfyPromotionRequest_sq, Board_eq_sq g]
    simp
  · simp [SatisfyPromotionRequest]
  · simp [SatisfyPromotionRequest]

/-- C18. When a promotion is pending at an in-range location `L`,
`SatisfyPromotionRequest(piece)` sets the `Piece` of square `L` to `piece`,
leaves the `Owner` (and the flags) of `L` and every other square unchanged,
leaves `Turn` unchanged, and clears the pending state. -/
theorem SatisfyPromotionRequest_pending (g : Game) (piece : Int)
    (_hp : PromotionRequested g = true)
    (hL : (QueryPromotionLocation g).InRange8 = true) :
    GetPiece (SatisfyPromotionRequest g piece) (QueryPromotionLocation g) = piece
    ∧ (SatisfyPromotionRequest g piece).sq (QueryPromotionLocation g)
        = { g.sq (QueryPromotionLocation g) with Piece := piece }
    ∧ (∀ y x : Fin 8, XY.ofIdx x y ≠ QueryPromotionLocation g →
        (SatisfyPromotionRequest g piece).Board y x = g.Board y x)
    ∧ GetTurn (SatisfyPromotionRequest g piece) = GetTurn g
    ∧ PromotionRequested (SatisfyPromotionRequest g piece) = false := by
  have hq : QueryPromotionLocation g = g.Promotion.Location := by
    unfold QueryPromotionLocation
    unfold PromotionRequested at _hp
    rw [_hp]
    rfl
  rw [hq] at hL ⊢
  obtain ⟨h1, h2, h3, h4⟩ := SatisfyPromotionRequest_effect g piece hL
  refine ⟨h1, ?_, ?_, h3, ?_⟩
  · rw [SatisfyPromotionRequest_sq, if_pos ⟨hL, rfl⟩]
  · intro y x hne
    rw [h2, if_neg hne]
  · unfold PromotionRequested
    rw [h4]

theorem Restart_Promotion (g : Game) : (Restart g).Promotion = ⟨false, ⟨0, 0⟩⟩ := by
  unfold Restart
  rw [(UpdateCastlingInformation_same _ _).2.1]
  decide!

/-- C17 fails right after `Restart`: no promotion is pending, the rook of a8
stands on `(0,0)`, and `SatisfyPromotionRequest(Dame)` turns it into a dame. -/
theorem SatisfyPromotionRequest_after_Restart_mutates :
    PromotionRequested (Restart EmptyBoard) = false
    ∧ GetPiece (Restart EmptyBoard) ⟨0, 0⟩ = PieceType.Rook
    ∧ GetPiece (SatisfyPromotionRequest (Restart EmptyBoard) PieceType.Dame) ⟨0, 0⟩
        = PieceType.Dame := by
  have hs := UpdateCastlingInformation_same
  refine ⟨?_, ?_, ?_⟩
  · unfold PromotionRequested
    rw [Restart_Promotion]
  · unfold GetPiece Restart
    rw [(hs _ _).sq_Piece]
    decide!
  · have hL : (Restart EmptyBoard).Promotion.Location = ⟨0, 0⟩ := by
      rw [Restart_Promotion]
    unfold GetPiece
    rw [SatisfyPromotionRequest_sq, hL, if_pos ⟨by decide, rfl⟩]

/-- C17, amended.  `SatisfyPromotionRequest` does not test whether a promotion
is pending: when none is pending and the stored `Promotion.Location` is on the
board (as right after `Restart`, where it is `{0, 0}`), the call sets the
`Piece` of that square to `piece`; the `Owner` of every square and the `Piece`
of every other square are unchanged. -/
theorem SatisfyPromotionRequest_not_pending (g : Game) (piece : Int)
    (_hp : PromotionRequested g = false)
    (hL : g.Promotion.Location.InRange8 = true) :
    GetPiece (SatisfyPromotionRequest g piece) g.Promotion.Location = piece
    ∧ (∀ y x : Fin 8, ((SatisfyPromotionRequest g piece).Board y x).Owner = (g.Board y x).Owner)
    ∧ (∀ y x : Fin 8, XY.ofIdx x y ≠ g.Promotion.Location →
        ((SatisfyPromotionRequest g piece).Board y x).Piece = (g.Board y x).Piece) := by
  obtain ⟨h1, h2, _, _⟩ := SatisfyPromotionRequest_effect g piece hL
  refine ⟨h1, ?_, ?_⟩
  · intro y x
    rw [h2]
    split <;> rfl
  · intro y x hne
    rw [h2, if_neg hne]

/-- C17 (amended) at a concrete input: the state right after `Restart`. -/
theorem SatisfyPromotionRequest_not_pending_witness :
    GetPiece (SatisfyPromotionRequest (Restart EmptyBoard) PieceType.Dame)
        (Restart EmptyBoard).Promotion.Location = PieceType.Dame
    ∧ (∀ y x : Fin 8,
        ((SatisfyPromotionRequest (Restart EmptyBoard) PieceType.Dame).Board y x).Owner
          = ((Restart EmptyBoard).Board y x).Owner)
    ∧ (∀ y x : Fin 8, XY.ofIdx x y ≠ (Restart EmptyBoard).Promotion.Location →
        ((SatisfyPromotionRequest (Restart EmptyBoard) PieceType.Dame).Board y x).Piece
          = ((Restart EmptyBoard).Board y x).Piece) :=
  SatisfyPromotionRequest_not_pending (Restart EmptyBoard) PieceType.Dame
    (by unfold PromotionRequested
        rw [Restart_Promotion])
    (by rw [Restart_Promotion]
        decide)

/-! ## What `Move` leaves on the destination square -/

theorem Matrix8.at_pos_inRange (m : Matrix8) (c : XY) (h : m.at c > 0) : c.InRange8 = true := by
  unfold Matrix8.at at h
  split at h
  · assumption
  · exact absurd h (lt_irrefl _)

theorem Move_success_inRange (g : Game) (s d : XY) (h : (Move g s d).1 = true) :
    s.InRange8 = true ∧ d.InRange8 = true := by
  rw [Move_fst_iff] at h
  have hd := Matrix8.at_pos_inRange _ _ h
  refine ⟨?_, hd⟩
  cases hs : s.InRange8
  · unfold Matrix8.at at h
    rw [if_pos hd, GetTravelMap_fst_offBoard g _ s hs] at h
    exact absurd h (lt_irrefl _)
  · rfl

theorem MovePiece_sq_dst (g : Game) (s d : XY) (hd : d.InRange8 = true) :
    (MovePiece g s d).sq d =
      if d = s then
        { g.sq d with Owner := PlayerType.Nobody, Piece := PieceType.NoPiece, Touched := true }
      else { g.sq d with Owner := (g.sq s).Owner, Piece := (g.sq s).Piece } := by
  unfold MovePiece
  rw [sq_setSq_eq, sq_setSq_eq]
  by_cases h : d = s
  · subst h
    simp [hd]
  · simp [hd, h]

theorem MovePiece_sq_CastlingTarget (g : Game) (s d c : XY) :
    ((MovePiece g s d).sq c).CastlingTarget = (g.sq c).CastlingTarget := by
  unfold MovePiece
  rw [sq_setSq_eq, sq_setSq_eq]
  split_ifs <;> rfl

theorem MovePiece_sq_EnPassantTarget (g : Game) (s d c : XY) :
    ((MovePiece g s d).sq c).EnPassantTarget = (g.sq c).EnPassantTarget := by
  unfold MovePiece
  rw [sq_setSq_eq, sq_setSq_eq]
  split_ifs <;> rfl

/-- A king that castles onto a square of column 2 or 6 keeps that square: the
rook is taken from column 0 or 7 and put on column 3 or 5. -/
theorem CastleRook_sq_dst (g : Game) (s d : XY)
    (hcol : (g.sq d).CastlingTarget = true → d.x = 2 ∨ d.x = 6) :
    (CastleRook g s d).sq d = g.sq d := by
  unfold CastleRook
  split
  · rename_i h
    have hx := hcol h.2
    dsimp only
    rw [sq_setSq_eq, sq_setSq_eq, if_neg, if_neg]
    · rintro ⟨_, h2⟩
      have := congrArg XY.x h2
      dsimp only at this
      split at this <;> omega
    · rintro ⟨_, h2⟩
      have := congrArg XY.x h2
      dsimp only at this
      split at this <;> omega
  · rfl

theorem CastleRook_sq_EnPassantTarget (g : Game) (s d c : XY) :
    ((CastleRook g s d).sq c).EnPassantTarget = (g.sq c).EnPassantTarget := by
  unfold CastleRook
  split
  · dsimp only
    rw [sq_setSq_eq, sq_setSq_eq]
    split_ifs <;> rfl
  · rfl

theorem CastleRook_sq_CastlingTarget (g : Game) (s d c : XY) :
    ((CastleRook g s d).sq c).CastlingTarget = (g.sq c).CastlingTarget := by
  unfold CastleRook
  split
  · dsimp only
    rw [sq_setSq_eq, sq_setSq_eq]
    split_ifs <;> rfl
  · rfl

theorem setSq_of_not_inRange (g : Game) (c : XY) (f : BoardPiece → BoardPiece)
    (h : c.InRange8 = false) : g.setSq c f = g := by
  simp [Game.setSq, h]

theorem CaptureEnPassant_eq (g : Game) (d : XY) :
    CaptureEnPassant g d =
      if (g.sq d).Piece = PieceType.Pawn ∧ (g.sq d).EnPassantTarget = true then
        g.setSq (CaptureSquare g d)
          (fun s => { s with Owner := PlayerType.Nobody, Piece := PieceType.NoPiece })
      else g := by
  unfold CaptureEnPassant
  by_cases h : (g.sq d).Piece = PieceType.Pawn ∧ (g.sq d).EnPassantTarget = true
  · rw [if_pos h, if_pos h]
    show (if (CaptureSquare g d).InRange8 = true then
        g.setSq (CaptureSquare g d)
          (fun s => { s with Owner := PlayerType.Nobody, Piece := PieceType.NoPiece })
      else g) = _
    cases hc : (CaptureSquare g d).InRange8
    · rw [setSq_of_not_inRange _ _ _ hc]
      rfl
    · rfl
  · rw [if_neg h, if_neg h]

/-- With Black or White to move, the pawn removed by the en-passant block is
not the one on the destination square. -/
theorem CaptureEnPassant_sq_dst (g : Game) (d : XY)
    (hturn : g.Turn = PlayerType.Black ∨ g.Turn = PlayerType.White) :
    (CaptureEnPassant g d).sq d = g.sq d := by
  rw [CaptureEnPassant_eq]
  split
  · rw [sq_setSq_eq, if_neg]
    rintro ⟨_, h2⟩
    have := congrArg XY.y h2
    unfold CaptureSquare at this
    dsimp only at this
    rcases hturn with h | h
    · rw [if_pos h] at this
      omega
    · rw [if_neg (by rw [h]; decide), if_pos h] at this
      omega
  · rfl

theorem CaptureEnPassant_sq_CastlingTarget (g : Game) (d c : XY) :
    ((CaptureEnPassant g d).sq c).CastlingTarget = (g.sq c).CastlingTarget := by
  rw [CaptureEnPassant_eq]
  split
  · rw [sq_setSq_eq]
    split_ifs <;> rfl
  · rfl

theorem ClearEnPassant_sq (g : Game) (c : XY) :
    (ClearEnPassant g).sq c = { g.sq c with EnPassantTarget := false } := by
  unfold Game.sq ClearEnPassant
  split <;> rfl

theorem MarkEnPassant_sq_Owner (g : Game) (s d c : XY) :
    ((MarkEnPassant g s d).sq c).Owner = (g.sq c).Owner := by
  unfold MarkEnPassant
  split_ifs
  · rw [sq_setSq_eq]; split <;> rfl
  · rw [sq_setSq_eq]; split <;> rfl
  · rfl
  · rfl

theorem MarkEnPassant_sq_Piece (g : Game) (s d c : XY) :
    ((MarkEnPassant g s d).sq c).Piece = (g.sq c).Piece := by
  unfold MarkEnPassant
  split_ifs
  · rw [sq_setSq_eq]; split <;> rfl
  · rw [sq_setSq_eq]; split <;> rfl
  · rfl
  · rfl

theorem MarkEnPassant_sq_CastlingTarget (g : Game) (s d c : XY) :
    ((MarkEnPassant g s d).sq c).CastlingTarget = (g.sq c).CastlingTarget := by
  unfold MarkEnPassant
  split_ifs
  · rw [sq_setSq_eq]; split <;> rfl
  · rw [sq_setSq_eq]; split <;> rfl
  · rfl
  · rfl

/-- The state of `Move` just before the en-passant flags are cleared. -/
theorem relocated_sq_dst (g : Game) (s d : XY) (hd : d.InRange8 = true)
    (hturn : g.Turn = PlayerType.Black ∨ g.Turn = PlayerType.White)
    (hcol : (g.sq d).CastlingTarget = true → d.x = 2 ∨ d.x = 6) :
    (CaptureEnPassant (CastleRook (MovePiece g s d) s d) d).sq d =
      if d = s then
        { g.sq d with Owner := PlayerType.Nobody, Piece := PieceType.NoPiece, Touched := true }
      else { g.sq d with Owner := (g.sq s).Owner, Piece := (g.sq s).Piece } := by
  rw [CaptureEnPassant_sq_dst _ _ (by simpa using hturn), CastleRook_sq_dst _ _ _
    (by rw [MovePiece_sq_CastlingTarget]; exact hcol), MovePiece_sq_dst g s d hd]

/-! ## Where `Travel` can put a mark -/

theorem Matrix8.set_one_pos (m : Matrix8) (c : XY) (y x : Fin 8) (h : m.set c 1 y x > 0) :
    m y x > 0 ∨ (c.InRange8 = true ∧ XY.ofIdx x y = c) := by
  unfold Matrix8.set at h
  split at h
  · rename_i hc
    dsimp only at h
    split at h
    · rename_i hyx
      right
      refine ⟨hc, ?_⟩
      rw [hyx.1, hyx.2]
      exact ofIdx_toFin8 c hc
    · exact Or.inl h
  · exact Or.inl h

/-- An entry marked by the loop of `Travel` was marked before or belongs to a
square that is not owned by `Player`. -/
theorem TravelLoop_pos_not_own (fuel : Nat) (g : Game) (Player : Int) (L v : XY) (d : Int)
    (tm r : Matrix8) (hr : TravelLoop fuel g Player L v d tm = some r) (y x : Fin 8)
    (h : r y x > 0) : tm y x > 0 ∨ (g.Board y x).Owner ≠ Player := by
  induction fuel generalizing L d tm with
  | zero => simp [TravelLoop] at hr
  | succ n ih =>
    unfold TravelLoop at hr
    dsimp only at hr
    split at hr
    · rename_i hc
      rcases ih _ _ _ hr with h1 | h1
      · rcases Matrix8.set_one_pos tm _ y x h1 with h2 | ⟨_, h2⟩
        · exact Or.inl h2
        · right
          simp only [Bool.and_eq_true, decide_eq_true_eq] at hc
          rw [Board_eq_sq, h2]
          exact hc.2
      · exact Or.inr h1
    · cases hr
      exact Or.inl h

theorem Travel_pos_not_own (g : Game) (Player : Int) (L v : XY) (d : Int) (y x : Fin 8)
    (h : Travel g Player L v d y x > 0) : (g.Board y x).Owner ≠ Player := by
  unfold Travel at h
  cases hr : TravelLoop 8 g Player L v d EmptyMatrix8x8 with
  | none =>
    rw [hr] at h
    exact absurd h (lt_irrefl _)
  | some r =>
    rw [hr] at h
    rcases TravelLoop_pos_not_own 8 g Player L v d _ r hr y x h with h1 | h1
    · exact absurd h1 (lt_irrefl _)
    · exact h1

theorem TravelLoop_one (n : Nat) (g : Game) (Player : Int) (L v : XY) (tm : Matrix8) :
    TravelLoop (n + 2) g Player L v 1 tm = some tm
    ∨ TravelLoop (n + 2) g Player L v 1 tm = some (tm.set (L.add v) 1) := by
  have h2 : ∀ (L' : XY) (tm' : Matrix8), TravelLoop (n + 1) g Player L' v 0 tm' = some tm' := by
    intro L' tm'
    unfold TravelLoop
    simp
  unfold TravelLoop
  dsimp only
  split
  · right
    rw [show (if (1 : Int) = -1 then (1 : Int) else 1 - 1) = 0 by decide, h2]
  · exact Or.inl rfl

/-- With `Distance = 1` the loop of `Travel` marks at most the square one
speed vector away. -/
theorem Travel_one_pos (g : Game) (Player : Int) (L v : XY) (y x : Fin 8)
    (h : Travel g Player L v 1 y x > 0) : XY.ofIdx x y = L.add v := by
  unfold Travel at h
  rcases TravelLoop_one 6 g Player L v EmptyMatrix8x8 with hr | hr
  · rw [hr] at h
    exact absurd h (lt_irrefl _)
  · rw [hr] at h
    dsimp only at h
    rcases Matrix8.set_one_pos _ _ y x h with h3 | ⟨_, h3⟩
    · exact absurd h3 (lt_irrefl _)
    · exact h3

theorem foldl_add_pos (f : XY → Matrix8) (l : List XY) (init : Matrix8) (y x : Fin 8)
    (h : l.foldl (fun tm sv => Matrix8.add tm (f sv)) init y x > 0) :
    init y x > 0 ∨ ∃ sv ∈ l, f sv y x > 0 := by
  induction l generalizing init with
  | nil => exact Or.inl h
  | cons a l ih =>
    rw [List.foldl_cons] at h
    rcases ih _ h with h1 | ⟨sv, hsv, h1⟩
    · unfold Matrix8.add at h1
      by_cases h2 : init y x > 0
      · exact Or.inl h2
      · right
        exact ⟨a, List.mem_cons_self _ _, by omega⟩
    · exact Or.inr ⟨sv, List.mem_cons_of_mem _ hsv, h1⟩

/-- A square marked in a travel map is a castling mark or is reached by
`Travel` along one of the speed vectors of the piece. -/
theorem GetTravelMap_pos_origin (g : Game) (Player : Int) (a : XY) (ha : a.InRange8 = true)
    (sub spec prevent ik diag : Bool) (y x : Fin 8)
    (h : (GetTravelMap g Player a sub spec prevent ik diag).1 y x > 0) :
    (g.sq a).Owner = Player
    ∧ (CastlingMarks g a spec ik y x > 0
      ∨ ∃ sv ∈ SpeedVectorsOf g Player a spec ik diag,
          Travel g (g.sq a).Owner a sv (DistanceOf g a ik) y x > 0) := by
  rw [GetTravelMap_fst g Player a ha] at h
  split at h
  · rename_i hs
    refine ⟨by simpa [CanSelect] using hs, ?_⟩
    rw [Normalize_pos, EscapeFiltered_pos] at h
    have h1 := h.1
    have h2 : TravelCandidates g Player a spec ik diag y x > 0 := by
      unfold KingSubtracted at h1
      dsimp only at h1
      split at h1
      · have := Normalize_nonneg (allSquares.foldl
          (fun TravelMap s =>
            if (g.Board s.1 s.2).Owner = Opponent Player then
              TravelMap.add (GetTravelMapGuarded g (Opponent Player) (XY.ofIdx s.2 s.1)
                false true true)
            else TravelMap) EmptyMatrix8x8) y x
        change 0 ≤ GetTravelMapGlobalGuarded g (Opponent Player) true true y x at this
        have h1' : TravelCandidates g Player a spec ik diag y x
            - GetTravelMapGlobalGuarded g (Opponent Player) true true y x > 0 := h1
        omega
      · exact h1
    unfold TravelCandidates at h2
    rw [Normalize_pos] at h2
    exact foldl_add_pos _ _ _ y x h2
  · exact absurd h (lt_irrefl _)

/-- A piece other than a king is never sent to a square of its own side; in
particular not to its own square. -/
theorem Move_success_not_own (g : Game) (s d : XY) (h : (Move g s d).1 = true)
    (hk : (g.sq s).Piece ≠ PieceType.King) : (g.sq d).Owner ≠ (g.sq s).Owner := by
  obtain ⟨hs, hd⟩ := Move_success_inRange g s d h
  rw [Move_fst_iff] at h
  unfold Matrix8.at at h
  rw [if_pos hd] at h
  rcases (GetTravelMap_pos_origin g _ s hs _ _ _ _ _ _ _ h).2 with h1 | ⟨sv, _, h1⟩
  · rw [CastlingMarks_notKing g s _ _ hk] at h1
    exact absurd h1 (lt_irrefl _)
  · rw [sq_of_inRange g d hd]
    exact Travel_pos_not_own _ _ _ _ _ _ _ h1

/-! ## Pawn moves -/

theorem PawnSpeedVectors_y (g : Game) (Player : Int) (a : XY) (spec diag : Bool)
    (v : XY) (hv : v ∈ PawnSpeedVectors g Player a spec diag) :
    v.y = (if Player = PlayerType.Black then 1 else -1)
    ∨ v.y = 2 * (if Player = PlayerType.Black then 1 else -1) := by
  unfold PawnSpeedVectors at hv
  dsimp only at hv
  generalize (if Player = PlayerType.Black then (1 : Int) else -1) = dy at hv ⊢
  simp only [List.mem_append, List.flatMap_cons, List.flatMap_nil, List.append_nil] at hv
  rcases hv with (hv | hv | hv) | hv
  · split_ifs at hv <;> simp at hv <;> rcases hv with rfl | rfl <;> simp
  · split_ifs at hv <;> simp_all
  · split_ifs at hv <;> simp_all
  · split_ifs at hv <;> simp at hv <;> rcases hv with rfl | rfl <;> simp

/-- A pawn that `Move` accepts ends one or two rows ahead, ahead being down the
board for Black and up for every other owner. -/
theorem Move_pawn_rows (g : Game) (s d : XY) (h : (Move g s d).1 = true)
    (hp : (g.sq s).Piece = PieceType.Pawn) :
    d.y - s.y = (if (g.sq s).Owner = PlayerType.Black then 1 else -1)
    ∨ d.y - s.y = 2 * (if (g.sq s).Owner = PlayerType.Black then 1 else -1) := by
  obtain ⟨hs, hd⟩ := Move_success_inRange g s d h
  rw [Move_fst_iff] at h
  unfold Matrix8.at at h
  rw [if_pos hd] at h
  have hk : (g.sq s).Piece ≠ PieceType.King := by rw [hp]; decide
  rcases (GetTravelMap_pos_origin g _ s hs _ _ _ _ _ _ _ h).2 with h1 | ⟨sv, hsv, h1⟩
  · rw [CastlingMarks_notKing g s _ _ hk] at h1
    exact absurd h1 (lt_irrefl _)
  · have hdist : DistanceOf g s true = 1 := by simp [DistanceOf, hp]
    rw [hdist] at h1
    have h2 := Travel_one_pos _ _ _ _ _ _ h1
    rw [ofIdx_toFin8 d hd] at h2
    have hv : sv ∈ PawnSpeedVectors g (g.sq s).Owner s true false := by
      unfold SpeedVectorsOf at hsv
      dsimp only at hsv
      rw [if_pos hp] at hsv
      exact hsv
    have h3 := PawnSpeedVectors_y g _ s true false sv hv
    have h4 : d.y - s.y = sv.y := by
      rw [h2]
      simp [XY.add]
    rw [h4]
    exact h3

/-! ## The en-passant flags and the promotion request after `Move` -/

theorem CastlingFlagsOnTargets.sq {g : Game} (H : CastlingFlagsOnTargets g) (c : XY)
    (h : (g.sq c).CastlingTarget = true) : c.x = 2 ∨ c.x = 6 := by
  cases hc : c.InRange8
  · rw [sq_of_not_inRange g c hc] at h
    exact absurd h (by decide)
  · rw [sq_of_inRange g c hc] at h
    have h1 := H _ _ h
    have h2 := (InRange8_iff c).mp hc
    unfold toFin8 at h1
    dsimp only at h1
    omega

theorem MarkEnPassant_flags (h : Game) (s d c : XY) :
    ((MarkEnPassant (ClearEnPassant h) s d).sq c).EnPassantTarget = true ↔
      ((h.sq d).Piece = PieceType.Pawn ∧ (d.y - s.y).natAbs = 2 ∧ c.InRange8 = true
        ∧ (((h.sq d).Owner = PlayerType.Black ∧ c = ⟨d.x, d.y - 1⟩)
          ∨ ((h.sq d).Owner = PlayerType.White ∧ c = ⟨d.x, d.y + 1⟩))) := by
  unfold MarkEnPassant
  simp only [ClearEnPassant_sq]
  by_cases h1 : (h.sq d).Piece = PieceType.Pawn ∧ (d.y - s.y).natAbs = 2
  · rw [if_pos h1]
    by_cases h2 : (h.sq d).Owner = PlayerType.Black
    · rw [if_pos h2, sq_setSq_eq]
      have hw : (h.sq d).Owner ≠ PlayerType.White := by rw [h2]; decide
      by_cases h3 : c.InRange8 = true ∧ c = ⟨d.x, d.y - 1⟩
      · rw [if_pos h3]
        have h4 := h3.1
        rw [h3.2] at h4
        simp [h1, h2, h3.2, h4]
      · rw [if_neg h3, ClearEnPassant_sq]
        simp only [Bool.false_eq_true, false_iff]
        rintro ⟨_, _, h4, h5 | h5⟩
        · exact h3 ⟨h4, h5.2⟩
        · exact hw h5.1
    · rw [if_neg h2]
      by_cases h2' : (h.sq d).Owner = PlayerType.White
      · rw [if_pos h2', sq_setSq_eq]
        by_cases h3 : c.InRange8 = true ∧ c = ⟨d.x, d.y + 1⟩
        · rw [if_pos h3]
          have h4 := h3.1
          rw [h3.2] at h4
          simp [h1, h2', h3.2, h4]
        · rw [if_neg h3, ClearEnPassant_sq]
          simp only [Bool.false_eq_true, false_iff]
          rintro ⟨_, _, h4, h5 | h5⟩
          · exact h2 h5.1
          · exact h3 ⟨h4, h5.2⟩
      · rw [if_neg h2', ClearEnPassant_sq]
        simp only [Bool.false_eq_true, false_iff]
        rintro ⟨_, _, _, h5 | h5⟩
        · exact h2 h5.1
        · exact h2' h5.1
  · rw [if_neg h1, ClearEnPassant_sq]
    simp only [Bool.false_eq_true, false_iff]
    rintro ⟨h4, h5, _⟩
    exact h1 ⟨h4, h5⟩

theorem RequestPromotion_after (h : Game) (s d : XY) :
    (RequestPromotion (MarkEnPassant (ClearEnPassant h) s d) d).Promotion =
      if (h.sq d).Piece = PieceType.Pawn
          ∧ (((h.sq d).Owner = PlayerType.Black ∧ d.y = 7)
            ∨ ((h.sq d).Owner = PlayerType.White ∧ d.y = 0)) then
        ⟨true, ⟨d.x, d.y⟩⟩
      else h.Promotion := by
  unfold RequestPromotion
  simp only [MarkEnPassant_sq_Piece, MarkEnPassant_sq_Owner, ClearEnPassant_sq]
  by_cases h1 : (h.sq d).Piece = PieceType.Pawn
  · rw [if_pos h1]
    by_cases h2 : ((h.sq d).Owner = PlayerType.Black ∧ d.y = 7)
        ∨ ((h.sq d).Owner = PlayerType.White ∧ d.y = 0)
    · rw [if_pos h2, if_pos ⟨h1, h2⟩]
    · rw [if_neg h2, if_neg (fun hc => h2 hc.2)]
      simp
  · rw [if_neg h1, if_neg (fun hc => h1 hc.1)]
    simp

theorem CastleRook_of_not_king (g : Game) (s d : XY) (h : (g.sq d).Piece ≠ PieceType.King) :
    CastleRook g s d = g := by
  unfold CastleRook
  rw [if_neg (fun hc => h hc.1)]

theorem CaptureEnPassant_of_not_pawn (g : Game) (d : XY)
    (h : (g.sq d).Piece ≠ PieceType.Pawn) : CaptureEnPassant g d = g := by
  rw [CaptureEnPassant_eq, if_neg (fun hc => h hc.1)]

/-- The destination square just before the en-passant flags are cleared: it
holds what the block `// Move the piece` put there, unless the en-passant block
emptied it, which needs a `Turn` other than Black and White. -/
theorem relocated_cases (g : Game) (s d : XY) (hd : d.InRange8 = true)
    (hcol : (g.sq s).Piece = PieceType.King → (g.sq d).CastlingTarget = true →
      d.x = 2 ∨ d.x = 6) :
    (CaptureEnPassant (CastleRook (MovePiece g s d) s d) d).sq d = (MovePiece g s d).sq d
    ∨ (((CaptureEnPassant (CastleRook (MovePiece g s d) s d) d).sq d).Piece = PieceType.NoPiece
        ∧ ¬ (g.Turn = PlayerType.Black ∨ g.Turn = PlayerType.White)) := by
  have h1 : (CastleRook (MovePiece g s d) s d).sq d = (MovePiece g s d).sq d := by
    by_cases hk : ((MovePiece g s d).sq d).Piece = PieceType.King
    · apply CastleRook_sq_dst
      rw [MovePiece_sq_CastlingTarget]
      apply hcol
      rw [MovePiece_sq_dst g s d hd] at hk
      split at hk
      · simp at hk
      · exact hk
    · rw [CastleRook_of_not_king _ _ _ hk]
  by_cases ht : g.Turn = PlayerType.Black ∨ g.Turn = PlayerType.White
  · left
    rw [CaptureEnPassant_sq_dst _ _ (by simpa using ht), h1]
  · rw [CaptureEnPassant_eq]
    split
    · rw [sq_setSq_eq]
      split
      · right
        exact ⟨rfl, ht⟩
      · exact Or.inl h1
    · exact Or.inl h1

/-! ## The state after a successful `Move` -/

theorem Move_snd_of_success (g : Game) (s d : XY) (h : (Move g s d).1 = true) :
    (Move g s d).2 = ApplyMove g s d := by
  have h1 := (Move_fst_iff g s d).mp h
  rw [Move_eq, if_pos h1]

/-- The en-passant flags after `ApplyMove`, read off the state just before the
flags are cleared. -/
theorem ApplyMove_flags (g : Game) (s d c : XY) :
    ((ApplyMove g s d).sq c).EnPassantTarget = true ↔
      (((CaptureEnPassant (CastleRook (MovePiece g s d) s d) d).sq d).Piece = PieceType.Pawn
        ∧ (d.y - s.y).natAbs = 2 ∧ c.InRange8 = true
        ∧ ((((CaptureEnPassant (CastleRook (MovePiece g s d) s d) d).sq d).Owner
              = PlayerType.Black ∧ c = ⟨d.x, d.y - 1⟩)
          ∨ (((CaptureEnPassant (CastleRook (MovePiece g s d) s d) d).sq d).Owner
              = PlayerType.White ∧ c = ⟨d.x, d.y + 1⟩))) := by
  rw [ApplyMove_eq, RequestPromotion_sq]
  exact MarkEnPassant_flags _ s d c

theorem ApplyMove_Promotion (g : Game) (s d : XY) :
    (ApplyMove g s d).Promotion =
      if ((CaptureEnPassant (CastleRook (MovePiece g s d) s d) d).sq d).Piece = PieceType.Pawn
          ∧ ((((CaptureEnPassant (CastleRook (MovePiece g s d) s d) d).sq d).Owner
                = PlayerType.Black ∧ d.y = 7)
            ∨ (((CaptureEnPassant (CastleRook (MovePiece g s d) s d) d).sq d).Owner
                = PlayerType.White ∧ d.y = 0)) then
        ⟨true, ⟨d.x, d.y⟩⟩
      else g.Promotion := by
  rw [ApplyMove_eq, RequestPromotion_after]
  simp only [CaptureEnPassant_Promotion, CastleRook_Promotion, MovePiece_Promotion]

/-- A pawn that `Move` accepts, with Black or White to move, stands on the
destination square when the en-passant flags are cleared. -/
theorem relocated_pawn (g : Game) (s d : XY) (h : (Move g s d).1 = true)
    (hp : (g.sq s).Piece = PieceType.Pawn)
    (hturn : g.Turn = PlayerType.Black ∨ g.Turn = PlayerType.White) :
    ((CaptureEnPassant (CastleRook (MovePiece g s d) s d) d).sq d).Piece = PieceType.Pawn
    ∧ ((CaptureEnPassant (CastleRook (MovePiece g s d) s d) d).sq d).Owner = (g.sq s).Owner := by
  obtain ⟨_, hd⟩ := Move_success_inRange g s d h
  have hk : (g.sq s).Piece ≠ PieceType.King := by rw [hp]; decide
  have hne : d ≠ s := by
    intro hc
    have := Move_success_not_own g s d h hk
    rw [hc] at this
    exact this rfl
  rcases relocated_cases g s d hd (fun hc => absurd hc hk) with h1 | h1
  · rw [h1, MovePiece_sq_dst g s d hd, if_neg hne]
    exact ⟨hp, rfl⟩
  · exact absurd hturn h1.2

/-- A pawn found on the destination square when the en-passant flags are cleared
is the piece that was moved, provided the castling flags sit on columns 2 and 6. -/
theorem relocated_pawn_origin (g : Game) (s d : XY) (hd : d.InRange8 = true)
    (hflags : CastlingFlagsOnTargets g)
    (hp : ((CaptureEnPassant (CastleRook (MovePiece g s d) s d) d).sq d).Piece
      = PieceType.Pawn) :
    (g.sq s).Piece = PieceType.Pawn
    ∧ ((CaptureEnPassant (CastleRook (MovePiece g s d) s d) d).sq d).Owner = (g.sq s).Owner := by
  rcases relocated_cases g s d hd (fun _ hc => hflags.sq d hc) with h1 | h1
  · rw [h1, MovePiece_sq_dst g s d hd] at hp ⊢
    by_cases hne : d = s
    · rw [if_pos hne] at hp
      simp at hp
    · rw [if_neg hne] at hp ⊢
      exact ⟨hp, rfl⟩
  · rw [h1.1] at hp
    simp at hp

/-! ## The castling flags: who writes them -/

theorem ApplyMove_sq_CastlingTarget (g : Game) (s d c : XY) :
    ((ApplyMove g s d).sq c).CastlingTarget = (g.sq c).CastlingTarget := by
  rw [ApplyMove_eq, RequestPromotion_sq, MarkEnPassant_sq_CastlingTarget, ClearEnPassant_sq]
  show ((CaptureEnPassant (CastleRook (MovePiece g s d) s d) d).sq c).CastlingTarget = _
  rw [CaptureEnPassant_sq_CastlingTarget, CastleRook_sq_CastlingTarget,
    MovePiece_sq_CastlingTarget]

theorem Move_sq_CastlingTarget (g : Game) (s d c : XY) :
    ((Move g s d).2.sq c).CastlingTarget = (g.sq c).CastlingTarget := by
  rw [Move_eq]
  split
  · exact ApplyMove_sq_CastlingTarget g s d c
  · rfl

/-- The call `Move` keeps the castling flags on columns 2 and 6. -/
theorem Move_flags_on_targets (g : Game) (s d : XY) (H : CastlingFlagsOnTargets g) :
    CastlingFlagsOnTargets (Move g s d).2 := by
  intro y x h
  rw [Board_eq_sq, Move_sq_CastlingTarget, ← Board_eq_sq] at h
  exact H y x h

theorem ClearCastlingTargets_sq (g : Game) (c : XY) :
    ((ClearCastlingTargets g).sq c).CastlingTarget = false := by
  unfold Game.sq ClearCastlingTargets
  split <;> rfl

/-- A flag found after one iteration of the loop over the rooks was there
before or was set by this iteration, for an own rook that has not moved. -/
theorem CastlingStep_flag_origin (Player Row : Int) (k : XY) (tm : Matrix8) (g : Game)
    (x : Int) (c : XY)
    (h : ((CastlingStep Player Row k tm g x).sq c).CastlingTarget = true) :
    (g.sq c).CastlingTarget = true
    ∨ (((x = 0 ∧ c = ⟨2, Row⟩) ∨ (x = 7 ∧ c = ⟨6, Row⟩))
        ∧ (g.sq ⟨x, Row⟩).Owner = Player ∧ (g.sq ⟨x, Row⟩).Piece = PieceType.Rook
        ∧ (g.sq ⟨x, Row⟩).Touched = false) := by
  have key : ∀ (b : Bool) (t : Int),
      ((if b = true then g.setSq ⟨t, Row⟩ (fun s => { s with CastlingTarget := true })
        else g).sq c).CastlingTarget = true →
      (g.sq c).CastlingTarget = true ∨ c = ⟨t, Row⟩ := by
    intro b t hb
    cases b
    · exact Or.inl hb
    · rw [if_pos rfl, sq_setSq_eq] at hb
      split at hb
      · rename_i hc
        exact Or.inr hc.2
      · exact Or.inl hb
  unfold CastlingStep at h
  dsimp only at h
  by_cases h1 : (g.sq ⟨x, Row⟩).Owner = Player ∧ (g.sq ⟨x, Row⟩).Piece = PieceType.Rook
      ∧ (g.sq ⟨x, Row⟩).Touched = false
  · rw [if_pos h1] at h
    by_cases h2 : x = 0
    · rw [if_pos h2] at h
      rcases key _ _ h with hk | hk
      · exact Or.inl hk
      · exact Or.inr ⟨Or.inl ⟨h2, hk⟩, h1⟩
    · rw [if_neg h2] at h
      by_cases h3 : x = 7
      · rw [if_pos h3] at h
        rcases key _ _ h with hk | hk
        · exact Or.inl hk
        · exact Or.inr ⟨Or.inr ⟨h3, hk⟩, h1⟩
      · rw [if_neg h3] at h
        exact Or.inl h
  · rw [if_neg h1] at h
    exact Or.inl h

/-- A castling flag left by `UpdateCastlingInformation(p)` sits on `(2, Row)` with
a rook of `p` that has not moved on `(0, Row)`, or on `(6, Row)` with such a rook
on `(7, Row)`. -/
theorem UpdateCastlingInformation_flag_origin (g : Game) (p : Int) (c : XY)
    (h : ((UpdateCastlingInformation g p).sq c).CastlingTarget = true) :
    (c = ⟨2, HomeRow p⟩ ∧ (g.sq ⟨0, HomeRow p⟩).Owner = p
        ∧ (g.sq ⟨0, HomeRow p⟩).Piece = PieceType.Rook
        ∧ (g.sq ⟨0, HomeRow p⟩).Touched = false)
    ∨ (c = ⟨6, HomeRow p⟩ ∧ (g.sq ⟨7, HomeRow p⟩).Owner = p
        ∧ (g.sq ⟨7, HomeRow p⟩).Piece = PieceType.Rook
        ∧ (g.sq ⟨7, HomeRow p⟩).Touched = false) := by
  have h0 : ((ClearCastlingTargets g).sq c).CastlingTarget ≠ true := by
    rw [ClearCastlingTargets_sq]; decide
  have S0 := SameButCastling_clear g
  unfold UpdateCastlingInformation at h
  dsimp only at h
  by_cases c1 : p = PlayerType.Nobody
  · rw [if_pos c1] at h; exact absurd h h0
  rw [if_neg c1] at h
  by_cases c2 : KingInCheck (ClearCastlingTargets g) p = true
  · rw [if_pos c2] at h; exact absurd h h0
  rw [if_neg c2] at h
  by_cases c3 : (!(FindKing (ClearCastlingTargets g) p).InRange8) = true
  · rw [if_pos c3] at h; exact absurd h h0
  rw [if_neg c3] at h
  split at h
  · exact absurd h h0
  simp only [List.foldl_cons, List.foldl_nil] at h
  rcases CastlingStep_flag_origin _ _ _ _ _ _ _ h with h7 | ⟨hs, ho, hp, ht⟩
  · rcases CastlingStep_flag_origin _ _ _ _ _ _ _ h7 with h8 | ⟨hs, ho, hp, ht⟩
    · exact absurd h8 h0
    · rcases hs with ⟨_, hc⟩ | ⟨hx, _⟩
      · left
        rw [← S0.sq_Owner, ← S0.sq_Piece, ← S0.sq_Touched]
        exact ⟨hc, ho, hp, ht⟩
      · exact absurd hx (by decide)
  · have S1 := (CastlingStep_same p (HomeRow p) (FindKing (ClearCastlingTargets g) p)
      (GetTravelMapGlobalGuarded (ClearCastlingTargets g) (Opponent p) true true)
      (ClearCastlingTargets g) 0).trans S0
    rcases hs with ⟨hx, _⟩ | ⟨_, hc⟩
    · exact absurd hx (by decide)
    · right
      rw [← S1.sq_Owner, ← S1.sq_Piece, ← S1.sq_Touched]
      exact ⟨hc, ho, hp, ht⟩

/-- After `UpdateCastlingInformation` every castling flag sits on column 2 or 6. -/
theorem UpdateCastlingInformation_flags_on_targets (g : Game) (p : Int) :
    CastlingFlagsOnTargets (UpdateCastlingInformation g p) := by
  intro y x h
  rw [Board_eq_sq] at h
  rcases UpdateCastlingInformation_flag_origin g p _ h with ⟨hc, _⟩ | ⟨hc, _⟩
  · left
    have := congrArg XY.x hc
    simp only [XY.ofIdx] at this
    exact_mod_cast this
  · right
    have := congrArg XY.x hc
    simp only [XY.ofIdx] at this
    exact_mod_cast this

/-- The states that `Restart` and `ChangeTurn` leave have their castling flags
on columns 2 and 6. -/
theorem Restart_flags_on_targets (g : Game) : CastlingFlagsOnTargets (Restart g) := by
  unfold Restart
  exact UpdateCastlingInformation_flags_on_targets _ _

theorem ChangeTurn_flags_on_targets (g : Game) : CastlingFlagsOnTargets (ChangeTurn g) := by
  unfold ChangeTurn
  exact UpdateCastlingInformation_flags_on_targets _ _

theorem SatisfyPromotionRequest_flags_on_targets (g : Game) (Piece : Int)
    (H : CastlingFlagsOnTargets g) : CastlingFlagsOnTargets (SatisfyPromotionRequest g Piece) := by
  intro y x h
  rw [Board_eq_sq, SatisfyPromotionRequest_sq] at h
  apply H y x
  rw [Board_eq_sq]
  split at h
  · exact h
  · exact h

/-- C13. After a successful `Move` in which a pawn of Black or White advances
two ranks (`|dst.y - src.y| = 2`), with Black or White to move, the square
passed over, `(dst.x, (src.y + dst.y) / 2)`, is a square of the board, and a
square has `EnPassantTarget = true` exactly when it is that square. -/
theorem Move_double_step_marks_passed_square (g : Game) (src dst : XY)
    (h : (Move g src dst).1 = true)
    (hp : GetPiece g src = PieceType.Pawn)
    (ho : GetOwner g src = PlayerType.Black ∨ GetOwner g src = PlayerType.White)
    (hturn : GetTurn g = PlayerType.Black ∨ GetTurn g = PlayerType.White)
    (h2 : (dst.y - src.y).natAbs = 2) :
    (XY.mk dst.x ((src.y + dst.y) / 2)).InRange8 = true
    ∧ ∀ y x : Fin 8, ((Move g src dst).2.Board y x).EnPassantTarget = true
        ↔ ((x.val : Int) = dst.x ∧ (y.val : Int) = (src.y + dst.y) / 2) := by
  unfold GetPiece at hp
  unfold GetOwner at ho
  unfold GetTurn at hturn
  obtain ⟨hs, hd⟩ := Move_success_inRange g src dst h
  obtain ⟨hP, hO⟩ := relocated_pawn g src dst h hp hturn
  have hrows := Move_pawn_rows g src dst h hp
  rw [InRange8_iff] at hs hd
  constructor
  · rw [InRange8_iff]
    dsimp only
    omega
  · intro y x
    rw [Move_snd_of_success g src dst h, Board_eq_sq, ApplyMove_flags, hP, hO]
    have hin : (XY.ofIdx x y).InRange8 = true := InRange8_ofIdx x y
    simp only [hin, h2, true_and]
    have hc : ∀ r : Int, XY.ofIdx x y = ⟨dst.x, r⟩ ↔ ((x.val : Int) = dst.x ∧ (y.val : Int) = r) := by
      intro r
      unfold XY.ofIdx
      constructor
      · intro e
        injection e with e1 e2
        exact ⟨e1, e2⟩
      · rintro ⟨e1, e2⟩
        rw [e1, e2]
    rw [hc, hc]
    rcases ho with ho | ho
    · rw [ho] at hrows ⊢
      simp only [if_true] at hrows
      have hw : ¬ (PlayerType.Black = PlayerType.White) := by decide
      simp only [hw, false_and, or_false, true_and]
      have e : (src.y + dst.y) / 2 = dst.y - 1 := by omega
      rw [e]
    · rw [ho] at hrows ⊢
      have hb : ¬ (PlayerType.White = PlayerType.Black) := by decide
      simp only [hb, if_false] at hrows
      simp only [hb, false_and, false_or, true_and]
      have e : (src.y + dst.y) / 2 = dst.y + 1 := by omega
      rw [e]

/-- C13 at a concrete input: in `PawnOnE2` the white pawn goes e2-e4 and e3
`(4,5)` becomes the only en-passant target. -/
theorem Move_double_step_marks_passed_square_witness :
    (XY.mk 4 ((6 + 4) / 2)).InRange8 = true
    ∧ ∀ y x : Fin 8, ((Move PawnOnE2 ⟨4, 6⟩ ⟨4, 4⟩).2.Board y x).EnPassantTarget = true
        ↔ ((x.val : Int) = 4 ∧ (y.val : Int) = (6 + 4) / 2) :=
  Move_double_step_marks_passed_square PawnOnE2 ⟨4, 6⟩ ⟨4, 4⟩
    (by rw [Move_fst_iff, GetTravelMap_fst _ _ _ (by decide)]
        decide!)
    (by decide!) (by decide!) (by decide) (by decide)

/-- C14. En-passant rights last one move only.  In a state whose castling flags
sit on columns 2 and 6 (every state left by `Restart`, `Load`, `ChangeTurn`,
`Move` and `SatisfyPromotionRequest`), after every successful `Move` that is not
a two-rank pawn advance no square has `EnPassantTarget = true`, whatever
en-passant flags were set before the move. -/
theorem Move_clears_en_passant (g : Game) (src dst : XY)
    (h : (Move g src dst).1 = true)
    (hflags : CastlingFlagsOnTargets g)
    (hn : ¬ (GetPiece g src = PieceType.Pawn ∧ (dst.y - src.y).natAbs = 2)) :
    ∀ y x : Fin 8, ((Move g src dst).2.Board y x).EnPassantTarget = false := by
  intro y x
  obtain ⟨_, hd⟩ := Move_success_inRange g src dst h
  rw [Move_snd_of_success g src dst h, Board_eq_sq]
  cases hc : ((ApplyMove g src dst).sq (XY.ofIdx x y)).EnPassantTarget
  · rfl
  · rw [ApplyMove_flags] at hc
    obtain ⟨hP, h2, _⟩ := hc
    exact absurd ⟨(relocated_pawn_origin g src dst hd hflags hP).1, h2⟩ hn

/-- C14 at a concrete input: in `EnPassantReady`, where e3 is an en-passant
target, the black king goes e8-e7 and no en-passant target is left. -/
theorem Move_clears_en_passant_witness :
    (EnPassantReady.sq ⟨4, 5⟩).EnPassantTarget = true
    ∧ ∀ y x : Fin 8, ((Move EnPassantReady ⟨4, 0⟩ ⟨4, 1⟩).2.Board y x).EnPassantTarget = false :=
  ⟨by decide!,
    Move_clears_en_passant EnPassantReady ⟨4, 0⟩ ⟨4, 1⟩
      (by rw [Move_fst_iff, GetTravelMap_fst _ _ _ (by decide)]
          decide!)
      (by unfold CastlingFlagsOnTargets
          decide!)
      (by unfold GetPiece
          decide!)⟩

/-- C16. After a successful `Move(src, dst)`, with Black or White to move and
the castling flags on columns 2 and 6: if the moved piece is a Black pawn with
`dst.y = 7` or a White pawn with `dst.y = 0`, then `PromotionRequested()` is true
and `QueryPromotionLocation() = dst`; in every other case the pending-promotion
state (`Pending` and `Location`) is unchanged by the move. -/
theorem Move_promotion_request (g : Game) (src dst : XY)
    (h : (Move g src dst).1 = true)
    (hturn : GetTurn g = PlayerType.Black ∨ GetTurn g = PlayerType.White)
    (hflags : CastlingFlagsOnTargets g) :
    ((GetPiece g src = PieceType.Pawn
        ∧ ((GetOwner g src = PlayerType.Black ∧ dst.y = 7)
          ∨ (GetOwner g src = PlayerType.White ∧ dst.y = 0))) →
      PromotionRequested (Move g src dst).2 = true
        ∧ QueryPromotionLocation (Move g src dst).2 = dst)
    ∧ (¬ (GetPiece g src = PieceType.Pawn
        ∧ ((GetOwner g src = PlayerType.Black ∧ dst.y = 7)
          ∨ (GetOwner g src = PlayerType.White ∧ dst.y = 0))) →
      (Move g src dst).2.Promotion = g.Promotion) := by
  unfold GetTurn at hturn
  unfold GetPiece GetOwner
  obtain ⟨_, hd⟩ := Move_success_inRange g src dst h
  rw [Move_snd_of_success g src dst h]
  constructor
  · rintro ⟨hp, ho⟩
    obtain ⟨hP, hO⟩ := relocated_pawn g src dst h hp hturn
    have e : (ApplyMove g src dst).Promotion = ⟨true, ⟨dst.x, dst.y⟩⟩ := by
      rw [ApplyMove_Promotion, hP, hO, if_pos ⟨rfl, ho⟩]
    unfold PromotionRequested QueryPromotionLocation
    rw [e]
    exact ⟨rfl, rfl⟩
  · intro hn
    rw [ApplyMove_Promotion]
    by_cases hc : ((CaptureEnPassant (CastleRook (MovePiece g src dst) src dst) dst).sq dst).Piece
          = PieceType.Pawn
        ∧ ((((CaptureEnPassant (CastleRook (MovePiece g src dst) src dst) dst).sq dst).Owner
              = PlayerType.Black ∧ dst.y = 7)
          ∨ (((CaptureEnPassant (CastleRook (MovePiece g src dst) src dst) dst).sq dst).Owner
              = PlayerType.White ∧ dst.y = 0))
    · obtain ⟨hp, hO⟩ := relocated_pawn_origin g src dst hd hflags hc.1
      rw [hO] at hc
      exact absurd ⟨hp, hc.2⟩ hn
    · rw [if_neg hc]

/-- C16 at a concrete input: in `PawnOnA7` the white pawn goes a7-a8 and a
promotion is requested on a8 `(0,0)`. -/
theorem Move_promotion_request_witness :
    PromotionRequested (Move PawnOnA7 ⟨0, 1⟩ ⟨0, 0⟩).2 = true
    ∧ QueryPromotionLocation (Move PawnOnA7 ⟨0, 1⟩ ⟨0, 0⟩).2 = ⟨0, 0⟩ :=
  (Move_promotion_request PawnOnA7 ⟨0, 1⟩ ⟨0, 0⟩
    (by rw [Move_fst_iff, GetTravelMap_fst _ _ _ (by decide)]
        decide!)
    (Or.inr rfl)
    (by unfold CastlingFlagsOnTargets
        decide!)).1
    ⟨by unfold GetPiece
        decide!,
      Or.inr ⟨by unfold GetOwner
                 decide!, rfl⟩⟩

/-! ## Castling through `Move` -/

theorem LoopSpeedVectors_x (keep : Int → Int → Bool) (v : XY)
    (hv : v ∈ LoopSpeedVectors [-1, 0, 1] keep) : v.x = -1 ∨ v.x = 0 ∨ v.x = 1 := by
  unfold LoopSpeedVectors at hv
  simp only [List.mem_flatMap] at hv
  obtain ⟨y, _, x, hx, hv⟩ := hv
  split at hv
  · simp only [List.mem_singleton] at hv
    rw [hv]
    simpa using hx
  · simp at hv

/-- A king steps at most one column; a square two columns away is reached only
as a castling target. -/
theorem Move_king_two_columns (g : Game) (s d : XY) (h : (Move g s d).1 = true)
    (hk : (g.sq s).Piece = PieceType.King) (hfar : d.x = s.x - 2 ∨ d.x = s.x + 2) :
    (g.sq d).CastlingTarget = true := by
  obtain ⟨hs, hd⟩ := Move_success_inRange g s d h
  rw [Move_fst_iff] at h
  unfold Matrix8.at at h
  rw [if_pos hd] at h
  rcases (GetTravelMap_pos_origin g _ s hs _ _ _ _ _ _ _ h).2 with h1 | ⟨sv, hsv, h1⟩
  · unfold CastlingMarks at h1
    split at h1
    · rw [sq_of_inRange g d hd]
      by_contra hc
      have h1' : (if (g.Board (toFin8 d.y) (toFin8 d.x)).CastlingTarget = true then (1 : Int)
          else 0) > 0 := h1
      rw [if_neg hc] at h1'
      exact absurd h1' (lt_irrefl _)
    · exact absurd h1 (lt_irrefl _)
  · have hdist : DistanceOf g s true = 1 := by
      unfold DistanceOf
      simp [hk]
    rw [hdist] at h1
    have h2 := Travel_one_pos _ _ _ _ _ _ h1
    rw [ofIdx_toFin8 d hd] at h2
    have hx : d.x = s.x + sv.x := by rw [h2]; rfl
    have hv : sv ∈ LoopSpeedVectors [-1, 0, 1]
        (fun x y => !(decide (x = 0) && decide (y = 0))) := by
      unfold SpeedVectorsOf at hsv
      simpa [hk] using hsv
    have := LoopSpeedVectors_x _ sv hv
    omega

/-- The state of `Move` after the castling and en-passant blocks when a king
lands on a castling target of column 2 or 6. -/
theorem castled_state (u : Game) (s d : XY) (hd : d.InRange8 = true) (hne : d ≠ s)
    (hk : (u.sq s).Piece = PieceType.King) (hf : (u.sq d).CastlingTarget = true)
    (hcol : d.x = 2 ∨ d.x = 6) :
    CaptureEnPassant (CastleRook (MovePiece u s d) s d) d =
      ((MovePiece u s d).setSq ⟨if d.x > s.x then 5 else 3, d.y⟩ (fun q =>
        { q with Owner := ((MovePiece u s d).sq ⟨if d.x > s.x then 7 else 0, d.y⟩).Owner,
                 Piece := ((MovePiece u s d).sq ⟨if d.x > s.x then 7 else 0, d.y⟩).Piece })).setSq
        ⟨if d.x > s.x then 7 else 0, d.y⟩
        (fun q => { q with Owner := PlayerType.Nobody, Piece := PieceType.NoPiece,
                           Touched := true }) := by
  have hK : ((MovePiece u s d).sq d).Piece = PieceType.King := by
    rw [MovePiece_sq_dst u s d hd, if_neg hne]
    exact hk
  have hF : ((MovePiece u s d).sq d).CastlingTarget = true := by
    rw [MovePiece_sq_CastlingTarget]; exact hf
  have h1 : ((CastleRook (MovePiece u s d) s d).sq d).Piece ≠ PieceType.Pawn := by
    rw [CastleRook_sq_dst _ _ _ (fun _ => hcol), hK]
    decide
  rw [CaptureEnPassant_of_not_pawn _ _ h1]
  unfold CastleRook
  rw [if_pos ⟨hK, hF⟩]

theorem ApplyMove_sq_Owner (g : Game) (s d c : XY) :
    ((ApplyMove g s d).sq c).Owner
      = ((CaptureEnPassant (CastleRook (MovePiece g s d) s d) d).sq c).Owner := by
  rw [ApplyMove_eq, RequestPromotion_sq, MarkEnPassant_sq_Owner, ClearEnPassant_sq]

theorem ApplyMove_sq_Piece (g : Game) (s d c : XY) :
    ((ApplyMove g s d).sq c).Piece
      = ((CaptureEnPassant (CastleRook (MovePiece g s d) s d) d).sq c).Piece := by
  rw [ApplyMove_eq, RequestPromotion_sq, MarkEnPassant_sq_Piece, ClearEnPassant_sq]

theorem ApplyMove_sq_Touched (g : Game) (s d c : XY) :
    ((ApplyMove g s d).sq c).Touched
      = ((CaptureEnPassant (CastleRook (MovePiece g s d) s d) d).sq c).Touched := by
  rw [ApplyMove_eq, RequestPromotion_sq]
  unfold MarkEnPassant
  split_ifs <;> simp [sq_setSq_eq, ClearEnPassant_sq, apply_ite]

/-- C12. Castling relocates the rook together with the king.  In the state
left by `UpdateCastlingInformation(p)` with `p`'s king on `(4, Row)`, `Row` being
the home row of `p`, a successful `Move` of that king to `(2, Row)` leaves the
king on `(2, Row)`, `p`'s rook on `(3, Row)` and the squares `(0, Row)` and
`(4, Row)` empty; a successful `Move` to `(6, Row)` leaves the king on
`(6, Row)`, `p`'s rook on `(5, Row)` and the squares `(7, Row)` and `(4, Row)`
empty. -/
theorem castling_relocates_rook (g : Game) (p tx : Int)
    (htx : tx = 2 ∨ tx = 6)
    (hking : GetOwner (UpdateCastlingInformation g p) ⟨4, HomeRow p⟩ = p
      ∧ GetPiece (UpdateCastlingInformation g p) ⟨4, HomeRow p⟩ = PieceType.King)
    (h : (Move (UpdateCastlingInformation g p) ⟨4, HomeRow p⟩ ⟨tx, HomeRow p⟩).1 = true) :
    GetOwner (Move (UpdateCastlingInformation g p) ⟨4, HomeRow p⟩ ⟨tx, HomeRow p⟩).2
        ⟨tx, HomeRow p⟩ = p
    ∧ GetPiece (Move (UpdateCastlingInformation g p) ⟨4, HomeRow p⟩ ⟨tx, HomeRow p⟩).2
        ⟨tx, HomeRow p⟩ = PieceType.King
    ∧ GetOwner (Move (UpdateCastlingInformation g p) ⟨4, HomeRow p⟩ ⟨tx, HomeRow p⟩).2
        ⟨if tx = 2 then 3 else 5, HomeRow p⟩ = p
    ∧ GetPiece (Move (UpdateCastlingInformation g p) ⟨4, HomeRow p⟩ ⟨tx, HomeRow p⟩).2
        ⟨if tx = 2 then 3 else 5, HomeRow p⟩ = PieceType.Rook
    ∧ GetOwner (Move (UpdateCastlingInformation g p) ⟨4, HomeRow p⟩ ⟨tx, HomeRow p⟩).2
        ⟨if tx = 2 then 0 else 7, HomeRow p⟩ = PlayerType.Nobody
    ∧ GetPiece (Move (UpdateCastlingInformation g p) ⟨4, HomeRow p⟩ ⟨tx, HomeRow p⟩).2
        ⟨if tx = 2 then 0 else 7, HomeRow p⟩ = PieceType.NoPiece
    ∧ GetOwner (Move (UpdateCastlingInformation g p) ⟨4, HomeRow p⟩ ⟨tx, HomeRow p⟩).2
        ⟨4, HomeRow p⟩ = PlayerType.Nobody
    ∧ GetPiece (Move (UpdateCastlingInformation g p) ⟨4, HomeRow p⟩ ⟨tx, HomeRow p⟩).2
        ⟨4, HomeRow p⟩ = PieceType.NoPiece := by
  unfold GetOwner GetPiece at *
  obtain ⟨hko, hkp⟩ := hking
  have hflag := Move_king_two_columns _ _ _ h hkp (by
    rcases htx with rfl | rfl
    · exact Or.inl rfl
    · exact Or.inr rfl)
  have S := UpdateCastlingInformation_same g p
  have hrook := UpdateCastlingInformation_flag_origin g p _ hflag
  rw [← S.sq_Owner, ← S.sq_Piece, ← S.sq_Touched, ← S.sq_Owner, ← S.sq_Piece,
    ← S.sq_Touched] at hrook
  obtain ⟨_, hd⟩ := Move_success_inRange _ _ _ h
  rw [Move_snd_of_success _ _ _ h]
  simp only [ApplyMove_sq_Owner, ApplyMove_sq_Piece]
  have hR := HomeRow_cases p
  generalize HomeRow p = R at *
  generalize UpdateCastlingInformation g p = u at *
  have hne : (XY.mk tx R) ≠ ⟨4, R⟩ := by
    intro hc
    injection hc with hc _
    omega
  rw [castled_state u _ _ hd hne hkp hflag htx]
  rcases htx with rfl | rfl
  · rcases hrook with ⟨_, ho, hp, _⟩ | ⟨hc, _⟩
    · rcases hR with rfl | rfl <;>
        simp [sq_setSq_eq, MovePiece, InRange8_iff, hko, hkp, ho, hp]
    · injection hc with hc _
      exact absurd hc (by decide)
  · rcases hrook with ⟨hc, _⟩ | ⟨_, ho, hp, _⟩
    · injection hc with hc _
      exact absurd hc (by decide)
    · rcases hR with rfl | rfl <;>
        simp [sq_setSq_eq, MovePiece, InRange8_iff, hko, hkp, ho, hp]

/-- C12 at a concrete input: in `CastlingReady` with the flags computed for
White, the king goes e1-c1 and the rook of a1 lands on d1. -/
theorem castling_relocates_rook_witness :
    GetOwner (Move (UpdateCastlingInformation CastlingReady PlayerType.White)
        ⟨4, HomeRow PlayerType.White⟩ ⟨2, HomeRow PlayerType.White⟩).2
        ⟨2, HomeRow PlayerType.White⟩ = PlayerType.White
    ∧ GetPiece (Move (UpdateCastlingInformation CastlingReady PlayerType.White)
        ⟨4, HomeRow PlayerType.White⟩ ⟨2, HomeRow PlayerType.White⟩).2
        ⟨2, HomeRow PlayerType.White⟩ = PieceType.King
    ∧ GetOwner (Move (UpdateCastlingInformation CastlingReady PlayerType.White)
        ⟨4, HomeRow PlayerType.White⟩ ⟨2, HomeRow PlayerType.White⟩).2
        ⟨3, HomeRow PlayerType.White⟩ = PlayerType.White
    ∧ GetPiece (Move (UpdateCastlingInformation CastlingReady PlayerType.White)
        ⟨4, HomeRow PlayerType.White⟩ ⟨2, HomeRow PlayerType.White⟩).2
        ⟨3, HomeRow PlayerType.White⟩ = PieceType.Rook
    ∧ GetOwner (Move (UpdateCastlingInformation CastlingReady PlayerType.White)
        ⟨4, HomeRow PlayerType.White⟩ ⟨2, HomeRow PlayerType.White⟩).2
        ⟨0, HomeRow PlayerType.White⟩ = PlayerType.Nobody
    ∧ GetPiece (Move (UpdateCastlingInformation CastlingReady PlayerType.White)
        ⟨4, HomeRow PlayerType.White⟩ ⟨2, HomeRow PlayerType.White⟩).2
        ⟨0, HomeRow PlayerType.White⟩ = PieceType.NoPiece
    ∧ GetOwner (Move (UpdateCastlingInformation CastlingReady PlayerType.White)
        ⟨4, HomeRow PlayerType.White⟩ ⟨2, HomeRow PlayerType.White⟩).2
        ⟨4, HomeRow PlayerType.White⟩ = PlayerType.Nobody
    ∧ GetPiece (Move (UpdateCastlingInformation CastlingReady PlayerType.White)
        ⟨4, HomeRow PlayerType.White⟩ ⟨2, HomeRow PlayerType.White⟩).2
        ⟨4, HomeRow PlayerType.White⟩ = PieceType.NoPiece :=
  castling_relocates_rook CastlingReady PlayerType.White 2 (Or.inl rfl)
    (by unfold GetOwner GetPiece
        decide!)
    (by rw [Move_fst_iff, GetTravelMap_fst _ _ _ (by decide)]
        decide!)

/-- C18 at a concrete input: in `PawnOnA7` the white pawn goes a7-a8, a
promotion is pending on a8 `(0,0)`, and `SatisfyPromotionRequest(Dame)` puts a
dame there and clears the request. -/
theorem SatisfyPromotionRequest_pending_witness :
    PromotionRequested (Move PawnOnA7 ⟨0, 1⟩ ⟨0, 0⟩).2 = true
    ∧ GetPiece (SatisfyPromotionRequest (Move PawnOnA7 ⟨0, 1⟩ ⟨0, 0⟩).2 PieceType.Dame) ⟨0, 0⟩
        = PieceType.Dame
    ∧ PromotionRequested (SatisfyPromotionRequest (Move PawnOnA7 ⟨0, 1⟩ ⟨0, 0⟩).2
        PieceType.Dame) = false := by
  have hm : (Move PawnOnA7 ⟨0, 1⟩ ⟨0, 0⟩).1 = true := by
    rw [Move_fst_iff, GetTravelMap_fst _ _ _ (by decide)]
    decide!
  have e := Move_snd_of_success _ _ _ hm
  have hp : PromotionRequested (Move PawnOnA7 ⟨0, 1⟩ ⟨0, 0⟩).2 = true := by
    rw [e]
    decide!
  have hq : QueryPromotionLocation (Move PawnOnA7 ⟨0, 1⟩ ⟨0, 0⟩).2 = ⟨0, 0⟩ := by
    rw [e]
    decide!
  have w := SatisfyPromotionRequest_pending (Move PawnOnA7 ⟨0, 1⟩ ⟨0, 0⟩).2 PieceType.Dame hp
    (by rw [hq]; decide)
  rw [hq] at w
  exact ⟨hp, w.1, w.2.2.2.2⟩

theorem Move_PawnOnE2_e4 : Move PawnOnE2 ⟨4, 6⟩ ⟨4, 4⟩ = (true, EnPassantReady) := by
  have hm : (Move PawnOnE2 ⟨4, 6⟩ ⟨4, 4⟩).1 = true := by
    rw [Move_fst_iff, GetTravelMap_fst _ _ _ (by decide)]
    decide!
  have e := Move_snd_of_success _ _ _ hm
  have e2 : ApplyMove PawnOnE2 ⟨4, 6⟩ ⟨4, 4⟩ = EnPassantReady := by
    rw [Game.ext_fields]
    decide!
  rw [e2] at e
  exact Prod.ext hm e

/-! ## What `UpdateCastlingInformation` leaves alone -/

theorem UpdateCastlingInformation_sq_Owner (g : Game) (p : Int) (c : XY) :
    ((UpdateCastlingInformation g p).sq c).Owner = (g.sq c).Owner :=
  (UpdateCastlingInformation_same g p).sq_Owner c

theorem UpdateCastlingInformation_sq_Piece (g : Game) (p : Int) (c : XY) :
    ((UpdateCastlingInformation g p).sq c).Piece = (g.sq c).Piece :=
  (UpdateCastlingInformation_same g p).sq_Piece c

theorem UpdateCastlingInformation_sq_Touched (g : Game) (p : Int) (c : XY) :
    ((UpdateCastlingInformation g p).sq c).Touched = (g.sq c).Touched :=
  (UpdateCastlingInformation_same g p).sq_Touched c

theorem UpdateCastlingInformation_sq_EnPassantTarget (g : Game) (p : Int) (c : XY) :
    ((UpdateCastlingInformation g p).sq c).EnPassantTarget = (g.sq c).EnPassantTarget :=
  (UpdateCastlingInformation_same g p).sq_EnPassantTarget c

theorem UpdateCastlingInformation_Turn (g : Game) (p : Int) :
    (UpdateCastlingInformation g p).Turn = g.Turn :=
  (UpdateCastlingInformation_same g p).2.2

theorem UpdateCastlingInformation_Promotion (g : Game) (p : Int) :
    (UpdateCastlingInformation g p).Promotion = g.Promotion :=
  (UpdateCastlingInformation_same g p).2.1

/-- A pawn that `Move` accepts, with Black or White to move, stands on the
destination square afterwards. -/
theorem Move_pawn_lands (g : Game) (s d : XY) (h : (Move g s d).1 = true)
    (hp : (g.sq s).Piece = PieceType.Pawn)
    (hturn : g.Turn = PlayerType.Black ∨ g.Turn = PlayerType.White) :
    GetOwner (Move g s d).2 d = (g.sq s).Owner ∧ GetPiece (Move g s d).2 d = PieceType.Pawn := by
  unfold GetOwner GetPiece
  rw [Move_snd_of_success g s d h, ApplyMove_sq_Owner, ApplyMove_sq_Piece]
  exact (relocated_pawn g s d h hp hturn).symm

/-- C19, evaluated on the state right after `Restart`.  It is White's turn and
a7 `(0,1)` holds a black pawn, yet `Move` accepts a7-a6 and the black pawn
stands on a6 `(0,2)` afterwards. -/
theorem Move_accepts_opponent_piece :
    GetTurn (Restart EmptyBoard) = PlayerType.White
    ∧ GetOwner (Restart EmptyBoard) ⟨0, 1⟩ = PlayerType.Black
    ∧ (Move (Restart EmptyBoard) ⟨0, 1⟩ ⟨0, 2⟩).1 = true
    ∧ GetOwner (Move (Restart EmptyBoard) ⟨0, 1⟩ ⟨0, 2⟩).2 ⟨0, 2⟩ = PlayerType.Black
    ∧ GetPiece (Move (Restart EmptyBoard) ⟨0, 1⟩ ⟨0, 2⟩).2 ⟨0, 2⟩ = PieceType.Pawn := by
  have hT : (Restart EmptyBoard).Turn = PlayerType.White := by
    unfold Restart
    simp only [UpdateCastlingInformation_Turn]
    decide!
  have hO : ((Restart EmptyBoard).sq ⟨0, 1⟩).Owner = PlayerType.Black := by
    unfold Restart
    simp only [UpdateCastlingInformation_sq_Owner]
    decide!
  have hP : ((Restart EmptyBoard).sq ⟨0, 1⟩).Piece = PieceType.Pawn := by
    unfold Restart
    simp only [UpdateCastlingInformation_sq_Piece]
    decide!
  have hm : (Move (Restart EmptyBoard) ⟨0, 1⟩ ⟨0, 2⟩).1 = true := by
    rw [Move_fst_iff, GetTravelMap_fst _ _ _ (by decide)]
    decide!
  have hl := Move_pawn_lands _ _ _ hm hP (Or.inr hT)
  rw [hO] at hl
  exact ⟨hT, hO, hm, hl⟩

/-- C11, evaluated on `RookRetakesA1`.  `Move` accepts the capture a4xa1; the
white rook stands on a1 afterwards and the square still has `Touched = false`.
`UpdateCastlingInformation(White)` then takes this rook for one that has not
moved and marks c1 `(2,7)` as a castling target. -/
theorem capture_leaves_destination_untouched :
    (Move RookRetakesA1 ⟨0, 3⟩ ⟨0, 7⟩).1 = true
    ∧ GetOwner (Move RookRetakesA1 ⟨0, 3⟩ ⟨0, 7⟩).2 ⟨0, 7⟩ = PlayerType.White
    ∧ GetPiece (Move RookRetakesA1 ⟨0, 3⟩ ⟨0, 7⟩).2 ⟨0, 7⟩ = PieceType.Rook
    ∧ ((Move RookRetakesA1 ⟨0, 3⟩ ⟨0, 7⟩).2.sq ⟨0, 7⟩).Touched = false
    ∧ ((UpdateCastlingInformation (Move RookRetakesA1 ⟨0, 3⟩ ⟨0, 7⟩).2 PlayerType.White).sq
        ⟨2, 7⟩).CastlingTarget = true := by
  have hm : (Move RookRetakesA1 ⟨0, 3⟩ ⟨0, 7⟩).1 = true := by
    rw [Move_fst_iff, GetTravelMap_fst _ _ _ (by decide)]
    decide!
  rw [Move_snd_of_success _ _ _ hm]
  exact ⟨hm, by decide!, by decide!, by decide!, by decide!⟩

/-! ## `ChangeTurn` -/

theorem sq_withTurn (g : Game) (t : Int) (c : XY) :
    ({ g with Turn := t } : Game).sq c = g.sq c := rfl

theorem setSq_withTurn (g : Game) (t : Int) (c : XY) (f : BoardPiece → BoardPiece) :
    ({ g with Turn := t } : Game).setSq c f = { g.setSq c f with Turn := t } := by
  unfold Game.setSq
  split <;> rfl

theorem CastlingStep_withTurn (Player Row : Int) (k : XY) (tm : Matrix8) (g : Game) (t x : Int) :
    CastlingStep Player Row k tm { g with Turn := t } x
      = { CastlingStep Player Row k tm g x with Turn := t } := by
  have e : ∀ a b c : Int, EmptyGround { g with Turn := t } tm a b c = EmptyGround g tm a b c :=
    fun _ _ _ => rfl
  unfold CastlingStep
  simp only [sq_withTurn, setSq_withTurn, e]
  split_ifs <;> rfl

/-- The value of `Turn` is not read by `UpdateCastlingInformation`. -/
theorem UpdateCastlingInformation_withTurn (g : Game) (t p : Int) :
    UpdateCastlingInformation { g with Turn := t } p
      = { UpdateCastlingInformation g p with Turn := t } := by
  have e0 : ClearCastlingTargets { g with Turn := t }
      = { ClearCastlingTargets g with Turn := t } := rfl
  have e1 : ∀ h : Game, KingInCheck { h with Turn := t } p = KingInCheck h p := fun _ => rfl
  have e2 : ∀ h : Game, FindKing { h with Turn := t } p = FindKing h p := fun _ => rfl
  have e3 : ∀ (h : Game) (q : Int) (a b : Bool),
      GetTravelMapGlobalGuarded { h with Turn := t } q a b = GetTravelMapGlobalGuarded h q a b :=
    fun _ _ _ _ => rfl
  unfold UpdateCastlingInformation
  simp only [e0, e1, e2, e3, sq_withTurn, List.foldl_cons, List.foldl_nil, CastlingStep_withTurn]
  split_ifs <;> rfl

theorem Opponent_Opponent (p : Int) (h : p = PlayerType.Black ∨ p = PlayerType.White) :
    Opponent (Opponent p) = p := by
  rcases h with rfl | rfl <;> decide

theorem ChangeTurn_Turn (g : Game) : (ChangeTurn g).Turn = Opponent g.Turn := by
  unfold ChangeTurn
  simp only [UpdateCastlingInformation_Turn]

/-- C21. `ChangeTurn` swaps the active player and recomputes castling.  For
every state with `Turn` Black or White: after `ChangeTurn` the `Turn` is the
other player; the state is the one `UpdateCastlingInformation` computes for the
new `Turn` on the current board, so the `CastlingTarget` flags are exactly
those it sets; `Owner`, `Piece`, `Touched` and `EnPassantTarget` of every
square and the pending promotion are unchanged; and two consecutive
`ChangeTurn` calls restore the original `Turn`. -/
theorem ChangeTurn_swaps_and_recomputes (g : Game)
    (hturn : GetTurn g = PlayerType.Black ∨ GetTurn g = PlayerType.White) :
    GetTurn (ChangeTurn g) = Opponent (GetTurn g)
    ∧ (GetTurn g = PlayerType.Black → GetTurn (ChangeTurn g) = PlayerType.White)
    ∧ (GetTurn g = PlayerType.White → GetTurn (ChangeTurn g) = PlayerType.Black)
    ∧ (∀ y x : Fin 8, ((ChangeTurn g).Board y x).CastlingTarget
        = ((UpdateCastlingInformation g (Opponent (GetTurn g))).Board y x).CastlingTarget)
    ∧ (∀ y x : Fin 8, ((ChangeTurn g).Board y x).Owner = (g.Board y x).Owner
        ∧ ((ChangeTurn g).Board y x).Piece = (g.Board y x).Piece
        ∧ ((ChangeTurn g).Board y x).Touched = (g.Board y x).Touched
        ∧ ((ChangeTurn g).Board y x).EnPassantTarget = (g.Board y x).EnPassantTarget)
    ∧ (ChangeTurn g).Promotion = g.Promotion
    ∧ GetTurn (ChangeTurn (ChangeTurn g)) = GetTurn g := by
  unfold GetTurn at *
  have hT := ChangeTurn_Turn g
  refine ⟨hT, ?_, ?_, ?_, ?_, ?_, ?_⟩
  · intro h
    rw [hT, h]
    rfl
  · intro h
    rw [hT, h]
    rfl
  · intro y x
    unfold ChangeTurn
    simp only [UpdateCastlingInformation_withTurn]
  · intro y x
    unfold ChangeTurn
    simp only [Board_eq_sq, UpdateCastlingInformation_sq_Owner,
      UpdateCastlingInformation_sq_Piece, UpdateCastlingInformation_sq_Touched,
      UpdateCastlingInformation_sq_EnPassantTarget, sq_withTurn, and_self]
  · unfold ChangeTurn
    simp only [UpdateCastlingInformation_Promotion]
  · rw [ChangeTurn_Turn, hT]
    exact Opponent_Opponent _ hturn

/-- C21 at a concrete input: in `CastlingReady` it is White's turn; after
`ChangeTurn` it is Black's, and after a second call White's again. -/
theorem ChangeTurn_swaps_and_recomputes_witness :
    GetTurn (ChangeTurn CastlingReady) = PlayerType.Black
    ∧ GetTurn (ChangeTurn (ChangeTurn CastlingReady)) = GetTurn CastlingReady :=
  ⟨(ChangeTurn_swaps_and_recomputes CastlingReady (Or.inr rfl)).2.2.1 rfl,
    (ChangeTurn_swaps_and_recomputes CastlingReady (Or.inr rfl)).2.2.2.2.2.2⟩

/-! ## The bytes of `Save` -/

theorem FileBuffer.foldl_set_other (f : Fin 8 × Fin 8 → Nat) (l : List (Fin 8 × Fin 8))
    (b : FileBuffer) (j : Nat) (h : ∀ s ∈ l, 4 + 1 + s.1.val * 8 + s.2.val ≠ j) :
    l.foldl (fun b s => FileBuffer.set b (4 + 1 + s.1.val * 8 + s.2.val) (f s)) b j = b j := by
  induction l generalizing b with
  | nil => rfl
  | cons s t ih =>
    rw [List.foldl_cons, ih _ (fun s' hs' => h s' (List.mem_cons_of_mem _ hs'))]
    unfold FileBuffer.set
    rw [if_neg (fun hc => h s (List.mem_cons_self _ _) hc.symm)]

theorem FileBuffer.foldl_set_mem (f : Fin 8 × Fin 8 → Nat) (l : List (Fin 8 × Fin 8))
    (b : FileBuffer) (s0 : Fin 8 × Fin 8) (h : s0 ∈ l) :
    l.foldl (fun b s => FileBuffer.set b (4 + 1 + s.1.val * 8 + s.2.val) (f s)) b
      (4 + 1 + s0.1.val * 8 + s0.2.val) = f s0 := by
  induction l generalizing b with
  | nil => cases h
  | cons s t ih =>
    rw [List.foldl_cons]
    by_cases ht : s0 ∈ t
    · exact ih _ ht
    · have hs : s0 = s := by
        rcases List.mem_cons.mp h with h1 | h1
        · exact h1
        · exact absurd h1 ht
      subst hs
      rw [FileBuffer.foldl_set_other]
      · unfold FileBuffer.set
        rw [if_pos rfl]
      · intro s' hs' hc
        apply ht
        have e : s' = s0 := by
          apply Prod.ext <;> apply Fin.ext <;> omega
        rw [← e]
        exact hs'

theorem SaveBuffer_square (g : Game) (y x : Fin 8) :
    SaveBuffer g (5 + 8 * y.val + x.val) = SquareByte (g.Board y x) := by
  have e : 5 + 8 * y.val + x.val = 4 + 1 + (y, x).1.val * 8 + (y, x).2.val := by
    simp only
    omega
  rw [e]
  unfold SaveBuffer
  exact FileBuffer.foldl_set_mem (fun s => SquareByte (g.Board s.1 s.2)) allSquares _ (y, x)
    (mem_allSquares y x)

theorem SaveBuffer_low (g : Game) (j : Nat) (hj : j < 5) :
    SaveBuffer g j =
      if j = 4 then toByte g.Turn else if j = 3 then '1'.toNat else if j = 2 then 'D'.toNat
      else if j = 1 then 'L'.toNat else 'A'.toNat := by
  unfold SaveBuffer
  dsimp only
  rw [FileBuffer.foldl_set_other (fun s => SquareByte (g.Board s.1 s.2))]
  · unfold FileBuffer.set
    split_ifs <;> first | rfl | omega
  · intro s _
    omega

theorem Save_length (g : Game) : (Save g).2.length = 69 := by
  simp [Save]

theorem Save_getD (g : Game) (i : Nat) (hi : i < 69) :
    (Save g).2.getD i 0 = SaveBuffer g i := by
  unfold Save
  simp only [FileBufferSize]
  rw [List.getD_eq_getElem?_getD, List.getElem?_map, List.getElem?_range hi]
  rfl

/-! ## One square, written and read back -/

theorem toByte_of_small (i : Int) (h0 : 0 ≤ i) (h1 : i < 256) : (toByte i : Int) = i := by
  unfold toByte
  omega

theorem SquareByte_valid (s : BoardPiece) (ho : 0 ≤ s.Owner ∧ s.Owner ≤ 2)
    (hp : 0 ≤ s.Piece ∧ s.Piece ≤ 6) :
    ((SquareByte s : Nat) : Int)
        = s.Owner + 4 * s.Piece + 32 * (if s.Touched then 1 else 0)
          + 64 * (if s.EnPassantTarget then 1 else 0)
    ∧ SquareByte s < 128
    ∧ (((SquareByte s &&& 0x03) >>> 0 : Nat) : Int) = s.Owner
    ∧ (((SquareByte s &&& 0x1C) >>> 2 : Nat) : Int) = s.Piece
    ∧ decide ((SquareByte s &&& 0x20) >>> 5 ≠ 0) = s.Touched
    ∧ decide ((SquareByte s &&& 0x40) >>> 6 ≠ 0) = s.EnPassantTarget := by
  have key : ∀ (o : Fin 3) (p : Fin 7) (t e c : Bool),
      ((SquareByte ⟨(o.val : Int), (p.val : Int), t, e, c⟩ : Nat) : Int)
          = (o.val : Int) + 4 * (p.val : Int) + 32 * (if t then 1 else 0)
            + 64 * (if e then 1 else 0)
      ∧ SquareByte ⟨(o.val : Int), (p.val : Int), t, e, c⟩ < 128
      ∧ (((SquareByte ⟨(o.val : Int), (p.val : Int), t, e, c⟩ &&& 0x03) >>> 0 : Nat) : Int)
          = (o.val : Int)
      ∧ (((SquareByte ⟨(o.val : Int), (p.val : Int), t, e, c⟩ &&& 0x1C) >>> 2 : Nat) : Int)
          = (p.val : Int)
      ∧ decide ((SquareByte ⟨(o.val : Int), (p.val : Int), t, e, c⟩ &&& 0x20) >>> 5 ≠ 0) = t
      ∧ decide ((SquareByte ⟨(o.val : Int), (p.val : Int), t, e, c⟩ &&& 0x40) >>> 6 ≠ 0) = e := by
    decide
  obtain ⟨o, p, t, e, c⟩ := s
  simp only at ho hp
  have h := key ⟨o.toNat, by omega⟩ ⟨p.toNat, by omega⟩ t e c
  have eo : ((o.toNat : Nat) : Int) = o := Int.toNat_of_nonneg ho.1
  have ep : ((p.toNat : Nat) : Int) = p := Int.toNat_of_nonneg hp.1
  simp only [eo, ep] at h
  exact h

/-! ## `Load` -/

theorem Load_eq (g : Game) (File : Option (List Nat)) :
    Load g File =
      if tellg File < 68 ∨ GoodHeader (ReadBuffer File) = false then (false, g)
      else (true, UpdateCastlingInformation (LoadedState g (ReadBuffer File))
        (LoadedState g (ReadBuffer File)).Turn) := by
  unfold Load
  have e : ((FileBufferSize : Nat) : Int) - 1 = 68 := by decide
  rw [e]
  by_cases h1 : tellg File < 68
  · rw [if_pos h1, if_pos (Or.inl h1)]
  · rw [if_neg h1]
    dsimp only
    cases h2 : GoodHeader (ReadBuffer File)
    · rw [if_pos (Or.inr rfl)]
      rfl
    · simp [h1]

theorem Load_fst_iff (g : Game) (File : Option (List Nat)) :
    (Load g File).1 = true ↔ 68 ≤ tellg File ∧ GoodHeader (ReadBuffer File) = true := by
  rw [Load_eq]
  split
  · rename_i h
    simp only [Bool.false_eq_true, false_iff, not_and, Bool.not_eq_true]
    intro h1
    rcases h with h | h
    · omega
    · exact h
  · rename_i h
    simp only [true_iff]
    push_neg at h
    exact ⟨h.1, by simpa using h.2⟩

/-- Whenever `Load` returns false the object is in the state it had before the
call. -/
theorem Load_failure_keeps_state (g : Game) (File : Option (List Nat))
    (h : (Load g File).1 = false) : (Load g File).2 = g := by
  rw [Load_eq] at h ⊢
  split
  · rfl
  · rename_i hc
    rw [if_neg hc] at h
    exact absurd h (by simp)

theorem ReadBuffer_some (f : List Nat) (i : Nat) (hi : i < 69) :
    ReadBuffer (some f) i = f.getD i 0 := by
  unfold ReadBuffer
  rw [if_pos hi]
  rfl

/-- The state after a successful `Load`, field by field, in terms of the bytes
of the file. -/
theorem Load_success_fields (g : Game) (f : List Nat) (h : (Load g (some f)).1 = true) :
    (Load g (some f)).2.Turn = ((f.getD 4 0 : Nat) : Int)
    ∧ (Load g (some f)).2.Promotion = ⟨false, ⟨0, 0⟩⟩
    ∧ ∀ y x : Fin 8,
        ((Load g (some f)).2.Board y x).Owner
            = (((f.getD (5 + 8 * y.val + x.val) 0 &&& 0x03) >>> 0 : Nat) : Int)
        ∧ ((Load g (some f)).2.Board y x).Piece
            = (((f.getD (5 + 8 * y.val + x.val) 0 &&& 0x1C) >>> 2 : Nat) : Int)
        ∧ ((Load g (some f)).2.Board y x).Touched
            = decide ((f.getD (5 + 8 * y.val + x.val) 0 &&& 0x20) >>> 5 ≠ 0)
        ∧ ((Load g (some f)).2.Board y x).EnPassantTarget
            = decide ((f.getD (5 + 8 * y.val + x.val) 0 &&& 0x40) >>> 6 ≠ 0) := by
  have h1 := (Load_fst_iff g (some f)).mp h
  rw [Load_eq, if_neg (by
    push_neg
    exact ⟨h1.1, by simp [h1.2]⟩)]
  have e : ∀ y x : Fin 8, 4 + 1 + y.val * 8 + x.val = 5 + 8 * y.val + x.val := by
    intro y x
    omega
  have hlt : ∀ y x : Fin 8, 5 + 8 * y.val + x.val < 69 := by
    intro y x
    omega
  refine ⟨?_, ?_, ?_⟩
  · rw [UpdateCastlingInformation_Turn]
    simp only [LoadedState, ReadBuffer_some f 4 (by decide)]
  · rw [UpdateCastlingInformation_Promotion]
    rfl
  · intro y x
    rw [Board_eq_sq (UpdateCastlingInformation _ _)]
    simp only [UpdateCastlingInformation_sq_Owner,
      UpdateCastlingInformation_sq_Piece, UpdateCastlingInformation_sq_Touched,
      UpdateCastlingInformation_sq_EnPassantTarget]
    rw [sq_ofIdx]
    simp only [LoadedState, e, ReadBuffer_some f _ (hlt y x), and_self]

theorem GoodHeader_iff_take (f : List Nat) (hl : 68 ≤ f.length) :
    GoodHeader (ReadBuffer (some f)) = true
      ↔ f.take 4 = ['A'.toNat, 'L'.toNat, 'D'.toNat, '1'.toNat] := by
  unfold GoodHeader
  rw [ReadBuffer_some f 0 (by decide), ReadBuffer_some f 1 (by decide),
    ReadBuffer_some f 2 (by decide), ReadBuffer_some f 3 (by decide)]
  match f, hl with
  | a :: b :: c :: d :: rest, _ =>
    have key : ∀ A L D O : Nat,
        (decide (a = A) && decide (b = L) && decide (c = D) && decide (d = O)) = true
          ↔ [a, b, c, d] = [A, L, D, O] := by
      intro A L D O
      simp only [Bool.and_eq_true, decide_eq_true_eq, List.cons.injEq, and_true, and_assoc]
    exact key _ _ _ _

/-- C23. `Save` writes exactly 69 bytes.  For every valid state: bytes 0..3
are ASCII `'A'`, `'L'`, `'D'`, `'1'`, byte 4 is the `Turn`, and for every square
`(x, y)` byte `5 + 8*y + x` equals `Owner + 4*Piece + 32*Touched +
64*EnPassantTarget` and is below 128, so bits 0-1 hold the owner, bits 2-4 the
piece type, bit 5 `Touched`, bit 6 the en-passant flag, and bit 7 is 0. -/
theorem Save_layout (g : Game) (hv : ValidState g) :
    (Save g).1 = true
    ∧ (Save g).2.length = 69
    ∧ (Save g).2.getD 0 0 = 'A'.toNat ∧ (Save g).2.getD 1 0 = 'L'.toNat
    ∧ (Save g).2.getD 2 0 = 'D'.toNat ∧ (Save g).2.getD 3 0 = '1'.toNat
    ∧ (((Save g).2.getD 4 0 : Nat) : Int) = GetTurn g
    ∧ ∀ y x : Fin 8,
        (((Save g).2.getD (5 + 8 * y.val + x.val) 0 : Nat) : Int)
            = (g.Board y x).Owner + 4 * (g.Board y x).Piece
              + 32 * (if (g.Board y x).Touched then 1 else 0)
              + 64 * (if (g.Board y x).EnPassantTarget then 1 else 0)
        ∧ (Save g).2.getD (5 + 8 * y.val + x.val) 0 < 128 := by
  obtain ⟨hT, hB⟩ := hv
  refine ⟨rfl, Save_length g, ?_, ?_, ?_, ?_, ?_, ?_⟩
  · rw [Save_getD g 0 (by decide), SaveBuffer_low g 0 (by decide)]
    rfl
  · rw [Save_getD g 1 (by decide), SaveBuffer_low g 1 (by decide)]
    rfl
  · rw [Save_getD g 2 (by decide), SaveBuffer_low g 2 (by decide)]
    rfl
  · rw [Save_getD g 3 (by decide), SaveBuffer_low g 3 (by decide)]
    rfl
  · rw [Save_getD g 4 (by decide), SaveBuffer_low g 4 (by decide), if_pos rfl]
    exact toByte_of_small _ hT.1 (by omega)
  · intro y x
    rw [Save_getD g _ (by omega), SaveBuffer_square]
    have h := SquareByte_valid (g.Board y x) (hB y x).1 (hB y x).2
    exact ⟨h.1, h.2.1⟩

/-- C23 at a concrete input: the bytes `Save` writes for `RookOnH1`; the last
one, for h1 `(7,7)`, is `2 + 4*4 = 18`: a White rook that has not moved. -/
theorem Save_layout_witness :
    (Save RookOnH1).2.length = 69
    ∧ (((Save RookOnH1).2.getD 4 0 : Nat) : Int) = PlayerType.White
    ∧ (Save RookOnH1).2.getD 68 0 = 18 := by
  have h := Save_layout RookOnH1 (by
    unfold ValidState
    decide!)
  refine ⟨h.2.1, ?_, ?_⟩
  · rw [h.2.2.2.2.2.2.1]
    rfl
  · have h7 := (h.2.2.2.2.2.2.2 7 7).1
    have e : ((Save RookOnH1).2.getD 68 0 : Int) = 18 := by
      rw [show (68 : Nat) = 5 + 8 * (7 : Fin 8).val + (7 : Fin 8).val from rfl, h7]
      decide!
    exact_mod_cast e

/-- C22. Serialization round trip.  For every state `g` whose `Turn` and every
square's `Owner` and `Piece` are valid enum values, loading the 69 bytes
produced by `Save` into any other state `h` succeeds and restores the same
`Turn` and, for every square, the same `Owner`, `Piece`, `Touched` and
`EnPassantTarget` as in `g`. -/
theorem Load_Save_round_trip (g h : Game) (hv : ValidState g) :
    (Load h (some (Save g).2)).1 = true
    ∧ GetTurn (Load h (some (Save g).2)).2 = GetTurn g
    ∧ ∀ y x : Fin 8,
        ((Load h (some (Save g).2)).2.Board y x).Owner = (g.Board y x).Owner
        ∧ ((Load h (some (Save g).2)).2.Board y x).Piece = (g.Board y x).Piece
        ∧ ((Load h (some (Save g).2)).2.Board y x).Touched = (g.Board y x).Touched
        ∧ ((Load h (some (Save g).2)).2.Board y x).EnPassantTarget
            = (g.Board y x).EnPassantTarget := by
  obtain ⟨hT, hB⟩ := hv
  have hs : (Load h (some (Save g).2)).1 = true := by
    rw [Load_fst_iff]
    constructor
    · show (68 : Int) ≤ ((Save g).2.length : Int)
      rw [Save_length]
      decide
    · unfold GoodHeader
      rw [ReadBuffer_some _ 0 (by decide), ReadBuffer_some _ 1 (by decide),
        ReadBuffer_some _ 2 (by decide), ReadBuffer_some _ 3 (by decide),
        Save_getD g 0 (by decide), Save_getD g 1 (by decide), Save_getD g 2 (by decide),
        Save_getD g 3 (by decide), SaveBuffer_low g 0 (by decide),
        SaveBuffer_low g 1 (by decide), SaveBuffer_low g 2 (by decide),
        SaveBuffer_low g 3 (by decide)]
      rfl
  obtain ⟨h1, _, h3⟩ := Load_success_fields h _ hs
  refine ⟨hs, ?_, ?_⟩
  · unfold GetTurn
    rw [h1, Save_getD g 4 (by decide), SaveBuffer_low g 4 (by decide), if_pos rfl]
    exact toByte_of_small _ hT.1 (by omega)
  · intro y x
    obtain ⟨a, b, c, d⟩ := h3 y x
    rw [a, b, c, d, Save_getD g _ (by omega), SaveBuffer_square]
    exact (SquareByte_valid (g.Board y x) (hB y x).1 (hB y x).2).2.2

/-- C22 at a concrete input: `RookOnH1` saved and loaded into the state right
after `Restart`. -/
theorem Load_Save_round_trip_witness :
    (Load (Restart EmptyBoard) (some (Save RookOnH1).2)).1 = true
    ∧ GetTurn (Load (Restart EmptyBoard) (some (Save RookOnH1).2)).2 = GetTurn RookOnH1
    ∧ ∀ y x : Fin 8,
        ((Load (Restart EmptyBoard) (some (Save RookOnH1).2)).2.Board y x).Owner
            = (RookOnH1.Board y x).Owner
        ∧ ((Load (Restart EmptyBoard) (some (Save RookOnH1).2)).2.Board y x).Piece
            = (RookOnH1.Board y x).Piece
        ∧ ((Load (Restart EmptyBoard) (some (Save RookOnH1).2)).2.Board y x).Touched
            = (RookOnH1.Board y x).Touched
        ∧ ((Load (Restart EmptyBoard) (some (Save RookOnH1).2)).2.Board y x).EnPassantTarget
            = (RookOnH1.Board y x).EnPassantTarget :=
  Load_Save_round_trip RookOnH1 (Restart EmptyBoard) (by
    unfold ValidState
    decide!)

/-- C24, evaluated on the first 68 bytes of the file `Save` writes for
`RookOnH1`.  The content is one byte short, yet `Load` returns true; the byte of
h1 `(7,7)` is missing, and the square, which held a White rook, is empty
afterwards. -/
theorem Load_accepts_68_bytes :
    ((Save RookOnH1).2.take 68).length = 68
    ∧ (Load EmptyBoard (some ((Save RookOnH1).2.take 68))).1 = true
    ∧ GetOwner RookOnH1 ⟨7, 7⟩ = PlayerType.White
    ∧ GetPiece RookOnH1 ⟨7, 7⟩ = PieceType.Rook
    ∧ GetOwner (Load EmptyBoard (some ((Save RookOnH1).2.take 68))).2 ⟨7, 7⟩ = PlayerType.Nobody
    ∧ GetPiece (Load EmptyBoard (some ((Save RookOnH1).2.take 68))).2 ⟨7, 7⟩
        = PieceType.NoPiece := by
  have hs : (Load EmptyBoard (some ((Save RookOnH1).2.take 68))).1 = true := by
    rw [Load_fst_iff]
    decide!
  obtain ⟨_, _, h3⟩ := Load_success_fields _ _ hs
  obtain ⟨a, b, _, _⟩ := h3 7 7
  have e : ((Save RookOnH1).2.take 68).getD 68 0 = 0 := by decide!
  have e7 : 5 + 8 * (7 : Fin 8).val + (7 : Fin 8).val = 68 := rfl
  rw [e7, e] at a b
  have hlen : ((Save RookOnH1).2.take 68).length = 68 := by
    rw [List.length_take, Save_length]
    rfl
  have ho : GetOwner RookOnH1 ⟨7, 7⟩ = PlayerType.White := by decide!
  have hp : GetPiece RookOnH1 ⟨7, 7⟩ = PieceType.Rook := by decide!
  have e2 : (⟨7, 7⟩ : XY) = XY.ofIdx 7 7 := rfl
  refine ⟨hlen, hs, ho, hp, ?_, ?_⟩
  · unfold GetOwner
    rw [e2, sq_ofIdx, a]
    rfl
  · unfold GetPiece
    rw [e2, sq_ofIdx, b]
    rfl

/-- C25. `Load` rejects a bad header without touching the game: for every file
content whose first four bytes are not exactly `'A'`, `'L'`, `'D'`, `'1'`, `Load`
returns false; and whenever `Load` returns false (also for a file that cannot be
opened) the board, the `Turn` and the pending-promotion state are what they were
before the call. -/
theorem Load_bad_header_rejected (g : Game) :
    (∀ f : List Nat, f.take 4 ≠ ['A'.toNat, 'L'.toNat, 'D'.toNat, '1'.toNat] →
      (Load g (some f)).1 = false)
    ∧ (∀ File : Option (List Nat), (Load g File).1 = false → (Load g File).2 = g) := by
  refine ⟨?_, fun File h => Load_failure_keeps_state g File h⟩
  intro f hf
  cases hl : (Load g (some f)).1
  · rfl
  · rw [Load_fst_iff] at hl
    have h68 : 68 ≤ f.length := by
      have h1 : (68 : Int) ≤ (f.length : Int) := hl.1
      omega
    exact absurd ((GoodHeader_iff_take f h68).mp hl.2) hf

/-- C25 at a concrete input: the file of `RookOnH1` with its first byte
replaced by `'B'` is rejected and the state is kept. -/
theorem Load_bad_header_rejected_witness :
    (Load RookOnH1 (some ('B'.toNat :: (Save RookOnH1).2.tail))).1 = false
    ∧ (Load RookOnH1 (some ('B'.toNat :: (Save RookOnH1).2.tail))).2 = RookOnH1 :=
  ⟨(Load_bad_header_rejected RookOnH1).1 _ (by decide!),
    (Load_bad_header_rejected RookOnH1).2 _
      ((Load_bad_header_rejected RookOnH1).1 _ (by decide!))⟩

/-! ## `Travel` walks a ray -/

theorem XY.steps_zero (L v : XY) : L.steps v 0 = L := by
  unfold XY.steps
  simp

theorem XY.steps_one (L v : XY) : L.steps v 1 = L.add v := by
  unfold XY.steps XY.add
  simp

theorem XY.steps_add_one (L v : XY) (j : Int) : (L.add v).steps v j = L.steps v (j + 1) := by
  unfold XY.steps XY.add
  simp only [XY.mk.injEq]
  constructor <;> ring

theorem Matrix8.set_one_pos_iff (m : Matrix8) (c : XY) (hc : c.InRange8 = true) (y x : Fin 8) :
    m.set c 1 y x > 0 ↔ (m y x > 0 ∨ XY.ofIdx x y = c) := by
  constructor
  · intro h
    rcases Matrix8.set_one_pos m c y x h with h1 | h1
    · exact Or.inl h1
    · exact Or.inr h1.2
  · intro h
    unfold Matrix8.set
    rw [if_pos hc]
    split
    · decide
    · rename_i hne
      rcases h with h | h
      · exact h
      · exfalso
        apply hne
        rw [← h, toFin8_ofIdx_y, toFin8_ofIdx_x]
        exact ⟨rfl, rfl⟩

/-- One turn of the loop of `Travel`, seen from the squares still to be marked. -/
theorem Reached_step (g : Game) (Player : Int) (L v : XY) (d : Int) (c : XY)
    (h1 : (g.sq L).Owner ≠ Opponent Player) (h2 : d = -1 ∨ d > 0)
    (h3 : (L.add v).InRange8 = true) (h4 : (g.sq (L.add v)).Owner ≠ Player) :
    Reached g Player L v d c
      ↔ (c = L.add v ∨ Reached g Player (L.add v) v (if d = -1 then d else d - 1) c) := by
  constructor
  · rintro ⟨k, hk, hd, hc, ha, hb⟩
    by_cases hk1 : k = 1
    · left
      rw [hc, hk1, XY.steps_one]
    · right
      refine ⟨k - 1, by omega, ?_, ?_, ?_, ?_⟩
      · split
        · left; assumption
        · right; omega
      · rw [hc, XY.steps_add_one]
        congr 1
        omega
      · intro j hj1 hj2
        rw [XY.steps_add_one]
        exact ha (j + 1) (by omega) (by omega)
      · intro j hj1 hj2
        rw [XY.steps_add_one]
        exact hb (j + 1) (by omega) (by omega)
  · rintro (hc | ⟨k, hk, hd, hc, ha, hb⟩)
    · refine ⟨1, le_refl _, ?_, ?_, ?_, ?_⟩
      · rcases h2 with h2 | h2
        · exact Or.inl h2
        · right; omega
      · rw [hc, XY.steps_one]
      · intro j hj1 hj2
        have : j = 1 := by omega
        subst this
        rw [XY.steps_one]
        exact ⟨h3, h4⟩
      · intro j hj1 hj2
        have : j = 0 := by omega
        subst this
        rw [XY.steps_zero]
        exact h1
    · refine ⟨k + 1, by omega, ?_, ?_, ?_, ?_⟩
      · split at hd
        · left; assumption
        · right; omega
      · rw [hc, XY.steps_add_one]
      · intro j hj1 hj2
        by_cases hj : j = 1
        · subst hj
          rw [XY.steps_one]
          exact ⟨h3, h4⟩
        · have := ha (j - 1) (by omega) (by omega)
          rw [XY.steps_add_one] at this
          have e : j - 1 + 1 = j := by omega
          rw [e] at this
          exact this
      · intro j hj1 hj2
        by_cases hj : j = 0
        · subst hj
          rw [XY.steps_zero]
          exact h1
        · have := hb (j - 1) (by omega) (by omega)
          rw [XY.steps_add_one] at this
          have e : j - 1 + 1 = j := by omega
          rw [e] at this
          exact this

/-- When the loop of `Travel` breaks, nothing is left to mark. -/
theorem Reached_stop (g : Game) (Player : Int) (L v : XY) (d : Int) (c : XY)
    (h : ¬ ((g.sq L).Owner ≠ Opponent Player ∧ (d = -1 ∨ d > 0)
      ∧ (L.add v).InRange8 = true ∧ (g.sq (L.add v)).Owner ≠ Player)) :
    ¬ Reached g Player L v d c := by
  rintro ⟨k, hk, hd, _, ha, hb⟩
  apply h
  have h0 := hb 0 (le_refl _) (by omega)
  rw [XY.steps_zero] at h0
  have h1 := ha 1 (le_refl _) hk
  rw [XY.steps_one] at h1
  refine ⟨h0, ?_, h1.1, h1.2⟩
  rcases hd with hd | hd
  · exact Or.inl hd
  · right; omega

/-- The loop of `Travel`: the entries marked at its `break` are those marked
before and the squares still reached from the current location. -/
theorem TravelLoop_marks (fuel : Nat) (g : Game) (Player : Int) (L v : XY) (d : Int)
    (tm r : Matrix8) (hr : TravelLoop fuel g Player L v d tm = some r) (y x : Fin 8) :
    r y x > 0 ↔ (tm y x > 0 ∨ Reached g Player L v d (XY.ofIdx x y)) := by
  induction fuel generalizing L d tm with
  | zero => simp [TravelLoop] at hr
  | succ n ih =>
    unfold TravelLoop at hr
    dsimp only at hr
    split at hr
    · rename_i hc
      simp only [Bool.and_eq_true, Bool.or_eq_true, decide_eq_true_eq, ne_eq] at hc
      obtain ⟨⟨⟨h1, h2⟩, h3⟩, h4⟩ := hc
      rw [ih _ _ _ hr, Matrix8.set_one_pos_iff _ _ h3, Reached_step g Player L v d _ h1 h2 h3 h4]
      tauto
    · rename_i hc
      cases hr
      have hn := Reached_stop g Player L v d (XY.ofIdx x y) (by
        intro hcc
        apply hc
        simp only [Bool.and_eq_true, Bool.or_eq_true, decide_eq_true_eq, ne_eq]
        exact ⟨⟨⟨hcc.1, hcc.2.1⟩, hcc.2.2.1⟩, hcc.2.2.2⟩)
      tauto

theorem TravelLoop_le_one (fuel : Nat) (g : Game) (Player : Int) (L v : XY) (d : Int)
    (tm r : Matrix8) (h : ∀ y x, tm y x ≤ 1)
    (hr : TravelLoop fuel g Player L v d tm = some r) (y x : Fin 8) : r y x ≤ 1 := by
  induction fuel generalizing L d tm with
  | zero => simp [TravelLoop] at hr
  | succ n ih =>
    unfold TravelLoop at hr
    dsimp only at hr
    split at hr
    · refine ih _ _ _ ?_ hr
      intro y' x'
      unfold Matrix8.set
      split
      · dsimp only
        split
        · exact le_refl _
        · exact h y' x'
      · exact h y' x'
    · cases hr
      exact h y x

/-- The map of `Travel` from a square of the board along a non-zero vector:
an entry is positive exactly for the squares reached, and then it is 1. -/
theorem Travel_marks (g : Game) (Player : Int) (L v : XY) (d : Int)
    (hL : L.InRange8 = true) (hv : v.x ≠ 0 ∨ v.y ≠ 0) (y x : Fin 8) :
    (Travel g Player L v d y x > 0 ↔ Reached g Player L v d (XY.ofIdx x y))
    ∧ (Travel g Player L v d y x = 0 ∨ Travel g Player L v d y x = 1) := by
  have hs := TravelLoop_isSome g Player L v d EmptyMatrix8x8 hL hv
  have hn := Travel_nonneg g Player L v d y x
  unfold Travel at hn ⊢
  cases hr : TravelLoop 8 g Player L v d EmptyMatrix8x8 with
  | none => rw [hr] at hs; cases hs
  | some r =>
    rw [hr] at hn
    dsimp only at hn ⊢
    have h1 := TravelLoop_marks 8 g Player L v d _ r hr y x
    have h2 := TravelLoop_le_one 8 g Player L v d _ r (fun _ _ => show (0 : Int) ≤ 1 by decide) hr y x
    constructor
    · rw [h1]
      constructor
      · rintro (h | h)
        · exact absurd h (lt_irrefl _)
        · exact h
      · exact Or.inr
    · omega

theorem Opponent_ne (p : Int) (hp : p = PlayerType.Black ∨ p = PlayerType.White) :
    Opponent p ≠ p ∧ Opponent p ≠ PlayerType.Nobody
      ∧ (Opponent p = PlayerType.Black ∨ Opponent p = PlayerType.White) := by
  rcases hp with rfl | rfl <;> decide

theorem ValidOwners_sq {g : Game} (H : ValidOwners g) (c : XY) :
    (g.sq c).Owner = PlayerType.Nobody
      ∨ (g.sq c).Owner = PlayerType.Black ∨ (g.sq c).Owner = PlayerType.White := by
  unfold Game.sq
  split
  · exact H _ _
  · exact Or.inl rfl

/-- On a board with valid owners, for a piece of Black or White standing on
`L`, the squares reached by the loop are the ray of the specification. -/
theorem Reached_iff_OnRay (g : Game) (Player : Int) (L v : XY) (d : Int) (c : XY)
    (hp : Player = PlayerType.Black ∨ Player = PlayerType.White)
    (hown : (g.sq L).Owner = Player) (hval : ValidOwners g) :
    Reached g Player L v d c ↔ OnRay g Player L v d c := by
  obtain ⟨ho1, ho2, ho3⟩ := Opponent_ne Player hp
  constructor
  · rintro ⟨k, hk, hd, hc, ha, hb⟩
    refine ⟨k, hk, hd, hc, ha, ?_⟩
    intro j hj1 hj2
    have h1 := (ha j hj1 (by omega)).2
    have h2 := hb j (by omega) hj2
    rcases ValidOwners_sq hval (L.steps v j) with h | h | h
    · exact h
    · rcases hp with rfl | rfl
      · exact absurd h h1
      · exact absurd h h2
    · rcases hp with rfl | rfl
      · exact absurd h h2
      · exact absurd h h1
  · rintro ⟨k, hk, hd, hc, ha, hb⟩
    refine ⟨k, hk, hd, hc, ha, ?_⟩
    intro j hj1 hj2
    by_cases hj : j = 0
    · subst hj
      rw [XY.steps_zero, hown]
      exact ho1.symm
    · rw [hb j (by omega) hj2]
      exact ho2.symm

/-- C28. `Travel` walks a ray.  On a board with valid owners, for a start square
`L` of the board owned by `Player` (Black or White) and a non-zero speed vector
`v`, `Travel(Player, L, v, Distance)` marks, with the value 1, exactly the
squares `L + k*v`, `k ≥ 1`, such that every `L + j*v` with `1 ≤ j ≤ k` is on the
board and not owned by `Player` and every `L + j*v` with `1 ≤ j < k` is empty,
restricted to `k ≤ Distance` unless `Distance = -1`; every other entry is 0. -/
theorem Travel_walks_ray (g : Game) (Player : Int) (L v : XY) (Distance : Int)
    (hp : Player = PlayerType.Black ∨ Player = PlayerType.White)
    (hL : L.InRange8 = true) (hown : GetOwner g L = Player)
    (hv : v.x ≠ 0 ∨ v.y ≠ 0) (hval : ValidOwners g) (y x : Fin 8) :
    (Travel g Player L v Distance y x = 1 ↔ OnRay g Player L v Distance (XY.ofIdx x y))
    ∧ (Travel g Player L v Distance y x = 0
        ↔ ¬ OnRay g Player L v Distance (XY.ofIdx x y)) := by
  obtain ⟨h1, h2⟩ := Travel_marks g Player L v Distance hL hv y x
  rw [Reached_iff_OnRay g Player L v Distance _ hp hown hval] at h1
  constructor
  · rw [← h1]
    omega
  · rw [← h1]
    omega

/-! ## The map of a piece other than the king, check filter off -/

theorem foldl_add_pos_iff (f : XY → Matrix8) (hf : ∀ sv y x, 0 ≤ f sv y x)
    (l : List XY) (y x : Fin 8) :
    l.foldl (fun tm sv => Matrix8.add tm (f sv)) EmptyMatrix8x8 y x > 0
      ↔ ∃ sv ∈ l, f sv y x > 0 := by
  constructor
  · intro h
    rcases foldl_add_pos f l _ y x h with h1 | h1
    · exact absurd h1 (lt_irrefl _)
    · exact h1
  · rintro ⟨sv, hsv, h⟩
    obtain ⟨l1, l2, rfl⟩ := List.append_of_mem hsv
    rw [List.foldl_append, List.foldl_cons]
    refine lt_of_lt_of_le ?_ (foldl_add_ge f hf l2 _ y x)
    have h0 := foldl_add_ge f hf l1 EmptyMatrix8x8 y x
    have h0' : (0 : Int) ≤ List.foldl (fun tm sv => Matrix8.add tm (f sv)) EmptyMatrix8x8 l1 y x :=
      h0
    show 0 < List.foldl (fun tm sv => Matrix8.add tm (f sv)) EmptyMatrix8x8 l1 y x + f sv y x
    omega

theorem Normalize_eq_one (m : Matrix8) (y x : Fin 8) :
    NormalizeMatrix8x8 m y x = 1 ↔ m y x > 0 := by
  have h1 := Normalize_pos m y x
  have h2 := Normalize_le_one m y x
  omega

/-- With `PreventRecursiveKingInCheck` set, the map of a piece other than a king
marks the squares that `Travel` marks along one of its speed vectors. -/
theorem GetTravelMap_not_king (g : Game) (p : Int) (s : XY) (hs : s.InRange8 = true)
    (hown : (g.sq s).Owner = p) (hk : (g.sq s).Piece ≠ PieceType.King)
    (sub spec ik diag : Bool) (y x : Fin 8) :
    (GetTravelMap g p s sub spec true ik diag).1 y x = 1
      ↔ ∃ sv ∈ SpeedVectorsOf g p s spec ik diag,
          Travel g p s sv (DistanceOf g s ik) y x > 0 := by
  have hcs : CanSelect g p s = true := by simp [CanSelect, hown]
  rw [GetTravelMap_fst g p s hs, if_pos hcs, Normalize_eq_one, EscapeFiltered_pos]
  have e1 : KingSubtracted g p s sub spec ik diag = TravelCandidates g p s spec ik diag := by
    unfold KingSubtracted
    rw [if_neg (fun hc => hk hc.1)]
  rw [e1]
  unfold TravelCandidates
  rw [Normalize_pos, CastlingMarks_notKing g s _ _ hk, hown,
    foldl_add_pos_iff _ (fun sv y x => Travel_nonneg g p s sv _ y x)]
  simp

theorem Reached_one (g : Game) (p : Int) (s v c : XY) :
    Reached g p s v 1 c
      ↔ (c = s.add v ∧ (s.add v).InRange8 = true ∧ (g.sq (s.add v)).Owner ≠ p
          ∧ (g.sq s).Owner ≠ Opponent p) := by
  constructor
  · rintro ⟨k, hk, hd, hc, ha, hb⟩
    have hk1 : k = 1 := by
      rcases hd with hd | hd
      · exact absurd hd (by decide)
      · omega
    subst hk1
    have h1 := ha 1 (le_refl _) (le_refl _)
    have h0 := hb 0 (le_refl _) (by decide)
    rw [XY.steps_one] at h1 hc
    rw [XY.steps_zero] at h0
    exact ⟨hc, h1.1, h1.2, h0⟩
  · rintro ⟨hc, h1, h2, h3⟩
    refine ⟨1, le_refl _, Or.inr (le_refl _), by rw [hc, XY.steps_one], ?_, ?_⟩
    · intro j hj1 hj2
      have : j = 1 := by omega
      subst this
      rw [XY.steps_one]
      exact ⟨h1, h2⟩
    · intro j hj1 hj2
      have : j = 0 := by omega
      subst this
      rw [XY.steps_zero]
      exact h3

/-! ## Pawn candidates -/

theorem mem_push_two (v a b : XY) (c1 c2 : Bool) :
    v ∈ (if c1 = true then a :: (if c2 = true then [b] else []) else [])
      ↔ (v = a ∧ c1 = true) ∨ (v = b ∧ c1 = true ∧ c2 = true) := by
  cases c1 <;> cases c2 <;> simp

theorem mem_push_sides (v : XY) (dy : Int) (c : Int → Bool) :
    v ∈ ([-1, 1] : List Int).flatMap (fun dx => if c dx = true then [(⟨dx, dy⟩ : XY)] else [])
      ↔ (v = ⟨-1, dy⟩ ∧ c (-1) = true) ∨ (v = ⟨1, dy⟩ ∧ c 1 = true) := by
  simp only [List.flatMap_cons, List.flatMap_nil, List.append_nil, List.mem_append]
  cases h1 : c (-1) <;> cases h2 : c 1 <;> simp

theorem PawnSpeedVectors_plain (g : Game) (p : Int) (s : XY) (dy : Int)
    (hdy : dy = if p = PlayerType.Black then 1 else -1) (v : XY) :
    v ∈ PawnSpeedVectors g p s false false ↔
      (v = ⟨0, dy⟩ ∧ (XY.mk s.x (s.y + dy)).InRange8 = true
          ∧ (g.sq ⟨s.x, s.y + dy⟩).Owner = PlayerType.Nobody)
      ∨ (v = ⟨0, 2 * dy⟩ ∧ (XY.mk s.x (s.y + dy)).InRange8 = true
          ∧ (g.sq ⟨s.x, s.y + dy⟩).Owner = PlayerType.Nobody
          ∧ (XY.mk s.x (s.y + dy + dy)).InRange8 = true
          ∧ (g.sq ⟨s.x, s.y + dy + dy⟩).Owner = PlayerType.Nobody
          ∧ (g.sq s).Touched = false)
      ∨ (v = ⟨-1, dy⟩ ∧ (XY.mk (s.x + -1) (s.y + dy)).InRange8 = true
          ∧ (g.sq ⟨s.x + -1, s.y + dy⟩).Owner = Opponent p)
      ∨ (v = ⟨1, dy⟩ ∧ (XY.mk (s.x + 1) (s.y + dy)).InRange8 = true
          ∧ (g.sq ⟨s.x + 1, s.y + dy⟩).Owner = Opponent p) := by
  unfold PawnSpeedVectors
  dsimp only
  rw [← hdy]
  simp only [Bool.false_eq_true, if_false, List.append_nil, List.mem_append]
  rw [mem_push_two, mem_push_sides v dy (fun dx =>
    (XY.mk (s.x + dx) (s.y + dy)).InRange8
      && decide ((g.sq ⟨s.x + dx, s.y + dy⟩).Owner = Opponent p) || false)]
  simp only [Bool.or_false, Bool.and_eq_true, decide_eq_true_eq, Bool.not_eq_true']
  simp only [and_assoc, or_assoc]

/-- C29. Pawn candidates.  For a pawn of player `p` (Black or White) on a square
`s` of the board, with forward direction `dy = +1` for Black and `-1` for White,
`GetTravelMap(p, s, false, false, true, true, false)` marks exactly: the square
one step forward when it is empty; the square two steps forward when both
forward squares are empty and `s` has `Touched = false`; and each of the two
diagonal-forward squares that is owned by `Opponent(p)`, all of them on the
board.  No other square is marked. -/
theorem pawn_candidates (g : Game) (p : Int) (s : XY) (dy : Int)
    (hp : p = PlayerType.Black ∨ p = PlayerType.White)
    (hdy : dy = if p = PlayerType.Black then 1 else -1)
    (hs : s.InRange8 = true) (hown : GetOwner g s = p)
    (hpawn : GetPiece g s = PieceType.Pawn) (y x : Fin 8) :
    (GetTravelMap g p s false false true true false).1 y x = 1 ↔
      ((XY.ofIdx x y = ⟨s.x, s.y + dy⟩ ∧ GetOwner g ⟨s.x, s.y + dy⟩ = PlayerType.Nobody)
      ∨ (XY.ofIdx x y = ⟨s.x, s.y + 2 * dy⟩
          ∧ GetOwner g ⟨s.x, s.y + dy⟩ = PlayerType.Nobody
          ∧ GetOwner g ⟨s.x, s.y + 2 * dy⟩ = PlayerType.Nobody
          ∧ (g.sq s).Touched = false)
      ∨ ((XY.ofIdx x y = ⟨s.x - 1, s.y + dy⟩ ∨ XY.ofIdx x y = ⟨s.x + 1, s.y + dy⟩)
          ∧ GetOwner g (XY.ofIdx x y) = Opponent p)) := by
  unfold GetOwner GetPiece at *
  obtain ⟨ho1, ho2, _⟩ := Opponent_ne p hp
  have hk : (g.sq s).Piece ≠ PieceType.King := by rw [hpawn]; decide
  have hin : (XY.ofIdx x y).InRange8 = true := InRange8_ofIdx x y
  have hdy' : dy = 1 ∨ dy = -1 := by
    rw [hdy]
    split
    · exact Or.inl rfl
    · exact Or.inr rfl
  have hs' := (InRange8_iff s).mp hs
  have hdist : DistanceOf g s true = 1 := by
    unfold DistanceOf
    simp [hpawn]
  have hsv : SpeedVectorsOf g p s false true false = PawnSpeedVectors g p s false false := by
    unfold SpeedVectorsOf
    simp [hpawn]
  have hself : (g.sq s).Owner ≠ Opponent p := by rw [hown]; exact ho1.symm
  rw [GetTravelMap_not_king g p s hs hown hk, hdist, hsv]
  constructor
  · rintro ⟨sv, hmem, ht⟩
    have hnz := PawnSpeedVectors_nonzero g p s false false sv hmem
    rw [(Travel_marks g p s sv 1 hs hnz y x).1, Reached_one] at ht
    obtain ⟨hc, _, _, _⟩ := ht
    rw [PawnSpeedVectors_plain g p s dy hdy] at hmem
    rcases hmem with ⟨rfl, _, h2⟩ | ⟨rfl, _, h2, _, h4, h5⟩ | ⟨rfl, _, h2⟩ | ⟨rfl, _, h2⟩
    · left
      refine ⟨?_, h2⟩
      rw [hc]
      simp [XY.add]
    · right; left
      have e : s.y + dy + dy = s.y + 2 * dy := by ring
      rw [e] at h4
      refine ⟨?_, h2, h4, h5⟩
      rw [hc]
      simp [XY.add]
    · right; right
      have e : s.add ⟨-1, dy⟩ = ⟨s.x - 1, s.y + dy⟩ := by
        unfold XY.add
        congr 1
      rw [hc, e]
      exact ⟨Or.inl rfl, by rw [← h2]; rfl⟩
    · right; right
      have e : s.add ⟨1, dy⟩ = ⟨s.x + 1, s.y + dy⟩ := rfl
      rw [hc, e]
      exact ⟨Or.inr rfl, h2⟩
  · have key : ∀ sv : XY, sv ∈ PawnSpeedVectors g p s false false →
        XY.ofIdx x y = s.add sv → (g.sq (s.add sv)).Owner ≠ p →
        ∃ sv ∈ PawnSpeedVectors g p s false false, Travel g p s sv 1 y x > 0 := by
      intro sv hmem hc hne
      refine ⟨sv, hmem, ?_⟩
      have hnz := PawnSpeedVectors_nonzero g p s false false sv hmem
      rw [(Travel_marks g p s sv 1 hs hnz y x).1, Reached_one]
      exact ⟨hc, by rw [← hc]; exact hin, hne, hself⟩
    have hnp : PlayerType.Nobody ≠ p := by
      rcases hp with rfl | rfl <;> decide
    rintro (⟨hc, h2⟩ | ⟨hc, h2, h4, h5⟩ | ⟨hc, h2⟩)
    · have hr : (XY.mk s.x (s.y + dy)).InRange8 = true := by rw [← hc]; exact hin
      have e : s.add ⟨0, dy⟩ = ⟨s.x, s.y + dy⟩ := by simp [XY.add]
      apply key ⟨0, dy⟩
      · rw [PawnSpeedVectors_plain g p s dy hdy]
        exact Or.inl ⟨rfl, hr, h2⟩
      · rw [e, hc]
      · rw [e, h2]
        exact hnp
    · have hr2 : (XY.mk s.x (s.y + 2 * dy)).InRange8 = true := by rw [← hc]; exact hin
      have hr : (XY.mk s.x (s.y + dy)).InRange8 = true := by
        rw [InRange8_iff] at hr2 ⊢
        simp only at hr2 ⊢
        omega
      have e2 : s.y + dy + dy = s.y + 2 * dy := by ring
      have e : s.add ⟨0, 2 * dy⟩ = ⟨s.x, s.y + 2 * dy⟩ := by simp [XY.add]
      apply key ⟨0, 2 * dy⟩
      · rw [PawnSpeedVectors_plain g p s dy hdy, e2]
        exact Or.inr (Or.inl ⟨rfl, hr, h2, hr2, h4, h5⟩)
      · rw [e, hc]
      · rw [e, h4]
        exact hnp
    · rcases hc with hc | hc
      · have hr : (XY.mk (s.x + -1) (s.y + dy)).InRange8 = true := by
          have : (XY.mk (s.x + -1) (s.y + dy)) = XY.ofIdx x y := by rw [hc]; congr 1
          rw [this]
          exact hin
        have e : s.add ⟨-1, dy⟩ = XY.ofIdx x y := by rw [hc]; unfold XY.add; congr 1
        apply key ⟨-1, dy⟩
        · rw [PawnSpeedVectors_plain g p s dy hdy]
          refine Or.inr (Or.inr (Or.inl ⟨rfl, hr, ?_⟩))
          have : (XY.mk (s.x + -1) (s.y + dy)) = XY.ofIdx x y := by rw [hc]; congr 1
          rw [this]
          exact h2
        · exact e.symm
        · rw [e, h2]
          exact ho1
      · have hr : (XY.mk (s.x + 1) (s.y + dy)).InRange8 = true := by
          rw [← hc]
          exact hin
        have e : s.add ⟨1, dy⟩ = XY.ofIdx x y := by rw [hc]; rfl
        apply key ⟨1, dy⟩
        · rw [PawnSpeedVectors_plain g p s dy hdy]
          refine Or.inr (Or.inr (Or.inr ⟨rfl, hr, ?_⟩))
          rw [← hc]
          exact h2
        · exact e.symm
        · rw [e, h2]
          exact ho1

/-- C29 at a concrete input: in `PawnOnE2` the white pawn on e2 `(4,6)` may go to
e3 `(4,5)`. -/
theorem pawn_candidates_witness :
    (GetTravelMap PawnOnE2 PlayerType.White ⟨4, 6⟩ false false true true false).1 5 4 = 1 :=
  (pawn_candidates PawnOnE2 PlayerType.White ⟨4, 6⟩ (-1) (Or.inr rfl) (by decide) (by decide)
    (by decide!) (by decide!) 5 4).mpr (Or.inl ⟨by decide, by decide!⟩)

/-! ## Sliding pieces -/

theorem RookSpeedVectors_eq :
    LoopSpeedVectors [-1, 0, 1]
      (fun x y => decide (x ≠ y) && (decide (x = 0) || decide (y = 0))) = RookDirections := by
  decide

theorem BishopSpeedVectors_eq :
    LoopSpeedVectors [-1, 0, 1] (fun x y => decide (x ≠ 0) && decide (y ≠ 0))
      = BishopDirections := by
  decide

theorem DameSpeedVectors_mem (v : XY) :
    v ∈ LoopSpeedVectors [-1, 0, 1] (fun x y => !(decide (x = 0) && decide (y = 0)))
      ↔ v ∈ RookDirections ∨ v ∈ BishopDirections := by
  have e : LoopSpeedVectors [-1, 0, 1] (fun x y => !(decide (x = 0) && decide (y = 0)))
      = [⟨-1, -1⟩, ⟨0, -1⟩, ⟨1, -1⟩, ⟨-1, 0⟩, ⟨1, 0⟩, ⟨-1, 1⟩, ⟨0, 1⟩, ⟨1, 1⟩] := by
    decide
  rw [e]
  unfold RookDirections BishopDirections
  simp only [List.mem_cons, List.mem_singleton, List.not_mem_nil, or_false]
  tauto

theorem Directions_nonzero (v : XY) (h : v ∈ RookDirections ∨ v ∈ BishopDirections) :
    v.x ≠ 0 ∨ v.y ≠ 0 := by
  unfold RookDirections BishopDirections at h
  simp only [List.mem_cons, List.mem_singleton, List.not_mem_nil, or_false] at h
  rcases h with (h | h | h | h) | (h | h | h | h) <;> subst h <;> decide

/-- The map of a piece that slides along the directions `dirs`. -/
theorem sliding_map (g : Game) (p : Int) (s : XY) (dirs : List XY)
    (hp : p = PlayerType.Black ∨ p = PlayerType.White)
    (hs : s.InRange8 = true) (hown : (g.sq s).Owner = p) (hval : ValidOwners g)
    (hk : (g.sq s).Piece ≠ PieceType.King)
    (sub spec ik diag : Bool)
    (hdist : DistanceOf g s ik = -1)
    (hdirs : ∀ v, v ∈ SpeedVectorsOf g p s spec ik diag ↔ v ∈ dirs)
    (hnz : ∀ v ∈ dirs, v.x ≠ 0 ∨ v.y ≠ 0) (y x : Fin 8) :
    (GetTravelMap g p s sub spec true ik diag).1 y x = 1
      ↔ ∃ v ∈ dirs, OnRay g p s v (-1) (XY.ofIdx x y) := by
  rw [GetTravelMap_not_king g p s hs hown hk, hdist]
  constructor
  · rintro ⟨sv, hmem, ht⟩
    have hm := (hdirs sv).mp hmem
    rw [(Travel_marks g p s sv (-1) hs (hnz sv hm) y x).1,
      Reached_iff_OnRay g p s sv (-1) _ hp hown hval] at ht
    exact ⟨sv, hm, ht⟩
  · rintro ⟨sv, hm, ht⟩
    refine ⟨sv, (hdirs sv).mpr hm, ?_⟩
    rw [(Travel_marks g p s sv (-1) hs (hnz sv hm) y x).1,
      Reached_iff_OnRay g p s sv (-1) _ hp hown hval]
    exact ht

theorem sq_setPiece (g : Game) (s : XY) (P : Int) (c : XY) :
    ((g.setSq s (fun q => { q with Piece := P })).sq c).Owner = (g.sq c).Owner := by
  rw [sq_setSq_eq]
  split <;> rfl

theorem OnRay_setPiece (g : Game) (s : XY) (P : Int) (p : Int) (L v : XY) (d : Int) (c : XY) :
    OnRay (g.setSq s (fun q => { q with Piece := P })) p L v d c ↔ OnRay g p L v d c := by
  unfold OnRay
  simp only [sq_setPiece]

theorem ValidOwners_setPiece (g : Game) (s : XY) (P : Int) (h : ValidOwners g) :
    ValidOwners (g.setSq s (fun q => { q with Piece := P })) := by
  intro y x
  have := h y x
  rw [Board_eq_sq] at this ⊢
  rw [sq_setPiece]
  exact this

/-- C30. Sliding pieces.  On a board with valid owners, with the check filter
disabled (`PreventRecursiveKingInCheck = true`) and for every value of the other
flags, the map of a piece of `p` (Black or White) on a square `s` of the board
marks the square `d`: for a Rook, exactly when `d = s + k*v`, `k ≥ 1`, for one of
the four directions `v` along the row or the column of `s`, every square
`s + j*v` with `1 ≤ j < k` is empty and `d` is on the board and not owned by `p`;
for a Bishop, the same with the four diagonal directions; for a Dame, exactly
when one of the two holds, that is, exactly when the map of a Rook or the map of
a Bishop standing on `s` in its place marks `d`. -/
theorem sliding_pieces (g : Game) (p : Int) (s : XY)
    (hp : p = PlayerType.Black ∨ p = PlayerType.White)
    (hs : s.InRange8 = true) (hown : GetOwner g s = p) (hval : ValidOwners g)
    (sub spec ik diag : Bool) (y x : Fin 8) :
    (GetPiece g s = PieceType.Rook →
      ((GetTravelMap g p s sub spec true ik diag).1 y x = 1
        ↔ ∃ v ∈ RookDirections, OnRay g p s v (-1) (XY.ofIdx x y)))
    ∧ (GetPiece g s = PieceType.Bishop →
      ((GetTravelMap g p s sub spec true ik diag).1 y x = 1
        ↔ ∃ v ∈ BishopDirections, OnRay g p s v (-1) (XY.ofIdx x y)))
    ∧ (GetPiece g s = PieceType.Dame →
      ((GetTravelMap g p s sub spec true ik diag).1 y x = 1
        ↔ ((∃ v ∈ RookDirections, OnRay g p s v (-1) (XY.ofIdx x y))
          ∨ (∃ v ∈ BishopDirections, OnRay g p s v (-1) (XY.ofIdx x y)))))
    ∧ (GetPiece g s = PieceType.Dame →
      ((GetTravelMap g p s sub spec true ik diag).1 y x = 1
        ↔ ((GetTravelMap (g.setSq s (fun q => { q with Piece := PieceType.Rook })) p s
              sub spec true ik diag).1 y x = 1
          ∨ (GetTravelMap (g.setSq s (fun q => { q with Piece := PieceType.Bishop })) p s
              sub spec true ik diag).1 y x = 1))) := by
  unfold GetOwner GetPiece at *
  have rook : ∀ h : Game, (h.sq s).Owner = p → ValidOwners h →
      (h.sq s).Piece = PieceType.Rook →
      ((GetTravelMap h p s sub spec true ik diag).1 y x = 1
        ↔ ∃ v ∈ RookDirections, OnRay h p s v (-1) (XY.ofIdx x y)) := by
    intro h ho hv hpc
    apply sliding_map h p s RookDirections hp hs ho hv (by rw [hpc]; decide)
    · unfold DistanceOf
      simp [hpc]
    · intro v
      unfold SpeedVectorsOf
      simp only [hpc]
      rw [← RookSpeedVectors_eq]
      simp
    · exact fun v hv => Directions_nonzero v (Or.inl hv)
  have bishop : ∀ h : Game, (h.sq s).Owner = p → ValidOwners h →
      (h.sq s).Piece = PieceType.Bishop →
      ((GetTravelMap h p s sub spec true ik diag).1 y x = 1
        ↔ ∃ v ∈ BishopDirections, OnRay h p s v (-1) (XY.ofIdx x y)) := by
    intro h ho hv hpc
    apply sliding_map h p s BishopDirections hp hs ho hv (by rw [hpc]; decide)
    · unfold DistanceOf
      simp [hpc]
    · intro v
      unfold SpeedVectorsOf
      simp only [hpc]
      rw [← BishopSpeedVectors_eq]
      simp
    · exact fun v hv => Directions_nonzero v (Or.inr hv)
  have dame : (g.sq s).Piece = PieceType.Dame →
      ((GetTravelMap g p s sub spec true ik diag).1 y x = 1
        ↔ ((∃ v ∈ RookDirections, OnRay g p s v (-1) (XY.ofIdx x y))
          ∨ (∃ v ∈ BishopDirections, OnRay g p s v (-1) (XY.ofIdx x y)))) := by
    intro hpc
    rw [sliding_map g p s (RookDirections ++ BishopDirections) hp hs hown hval
      (by rw [hpc]; decide) sub spec ik diag]
    · simp only [List.mem_append]
      constructor
      · rintro ⟨v, hv | hv, h⟩
        · exact Or.inl ⟨v, hv, h⟩
        · exact Or.inr ⟨v, hv, h⟩
      · rintro (⟨v, hv, h⟩ | ⟨v, hv, h⟩)
        · exact ⟨v, Or.inl hv, h⟩
        · exact ⟨v, Or.inr hv, h⟩
    · unfold DistanceOf
      simp [hpc]
    · intro v
      unfold SpeedVectorsOf
      simp only [hpc]
      rw [List.mem_append, ← DameSpeedVectors_mem]
      simp
    · intro v hv
      exact Directions_nonzero v (List.mem_append.mp hv)
  refine ⟨rook g hown hval, bishop g hown hval, dame, ?_⟩
  intro hpc
  have hr := rook (g.setSq s (fun q => { q with Piece := PieceType.Rook }))
    (by rw [sq_setPiece]; exact hown) (ValidOwners_setPiece g s _ hval)
    (by rw [sq_setSq_eq, if_pos ⟨hs, rfl⟩])
  have hb := bishop (g.setSq s (fun q => { q with Piece := PieceType.Bishop }))
    (by rw [sq_setPiece]; exact hown) (ValidOwners_setPiece g s _ hval)
    (by rw [sq_setSq_eq, if_pos ⟨hs, rfl⟩])
  simp only [OnRay_setPiece] at hr hb
  rw [dame hpc, hr, hb]

/-- C30 at a concrete input: in `RookRetakesA1` the map of the white rook on a4
`(0,3)` marks a1 `(0,7)`, the square of the black knight at the end of the file. -/
theorem sliding_pieces_witness :
    (GetTravelMap RookRetakesA1 PlayerType.White ⟨0, 3⟩ false false true true false).1 7 0 = 1
    ∧ ∃ v ∈ RookDirections,
        OnRay RookRetakesA1 PlayerType.White ⟨0, 3⟩ v (-1) (XY.ofIdx 0 7) :=
  ⟨by rw [GetTravelMap_fst _ _ _ (by decide)]
      decide!,
    ((sliding_pieces RookRetakesA1 PlayerType.White ⟨0, 3⟩ (Or.inr rfl) (by decide)
      (by decide!) (by unfold ValidOwners
                       decide!) false false true false 7 0).1 (by decide!)).mp
      (by rw [GetTravelMap_fst _ _ _ (by decide)]
          decide!)⟩

/-- C28 at a concrete input: in `RookRetakesA1`, `Travel` from the white rook on
a4 `(0,3)` down the file marks a1 `(0,7)`, the first square held by Black. -/
theorem Travel_walks_ray_witness :
    Travel RookRetakesA1 PlayerType.White ⟨0, 3⟩ ⟨0, 1⟩ (-1) 7 0 = 1
    ∧ OnRay RookRetakesA1 PlayerType.White ⟨0, 3⟩ ⟨0, 1⟩ (-1) (XY.ofIdx 0 7) :=
  ⟨by decide!,
    ((Travel_walks_ray RookRetakesA1 PlayerType.White ⟨0, 3⟩ ⟨0, 1⟩ (-1) (Or.inr rfl)
      (by decide) (by decide!) (Or.inr (by decide)) (by unfold ValidOwners
                                                        decide!) 7 0).1).mp (by decide!)⟩

/-! ## `UpdateCastlingInformation` with pieces next to the rooks -/

theorem CastlingStep_blocked (Player Row : Int) (k : XY) (tm : Matrix8) (g : Game) (x e : Int)
    (he : (if x < k.x then x else k.x) < e ∧ e < (if x < k.x then k.x else x))
    (hb : (g.sq ⟨e, Row⟩).Owner ≠ PlayerType.Nobody) :
    CastlingStep Player Row k tm g x = g := by
  have hE : EmptyGround g tm Row (if x < k.x then x else k.x) (if x < k.x then k.x else x)
      = false := by
    cases h : EmptyGround g tm Row (if x < k.x then x else k.x) (if x < k.x then k.x else x)
    · rfl
    · rw [EmptyGround_iff] at h
      exact absurd (h e he.1 he.2).1 hb
  unfold CastlingStep
  dsimp only
  rw [hE]
  simp

/-- When the king of `p` stands on column 4 and the squares `(1, Row)` and
`(6, Row)` of its home row are occupied, `UpdateCastlingInformation(p)` leaves no
castling flag. -/
theorem UpdateCastlingInformation_blocked (g : Game) (p : Int)
    (hk : (FindKing g p).x = 4)
    (h1 : (g.sq ⟨1, HomeRow p⟩).Owner ≠ PlayerType.Nobody)
    (h6 : (g.sq ⟨6, HomeRow p⟩).Owner ≠ PlayerType.Nobody) :
    UpdateCastlingInformation g p = ClearCastlingTargets g := by
  have S0 := SameButCastling_clear g
  have hk0 : (FindKing (ClearCastlingTargets g) p).x = 4 := by
    rw [FindKing_congr S0]; exact hk
  unfold UpdateCastlingInformation
  dsimp only
  split
  · rfl
  split
  · rfl
  split
  · rfl
  split
  · rfl
  simp only [List.foldl_cons, List.foldl_nil]
  rw [CastlingStep_blocked p (HomeRow p) _ _ (ClearCastlingTargets g) 0 1 (by
    rw [hk0]; decide) (by rw [S0.sq_Owner]; exact h1)]
  rw [CastlingStep_blocked p (HomeRow p) _ _ (ClearCastlingTargets g) 7 6 (by
    rw [hk0]; decide) (by rw [S0.sq_Owner]; exact h6)]

theorem UpdateCastlingInformation_no_king (g : Game) (p : Int)
    (hk : (FindKing g p).InRange8 = false) :
    UpdateCastlingInformation g p = ClearCastlingTargets g := by
  have S0 := SameButCastling_clear g
  have hk0 : (FindKing (ClearCastlingTargets g) p).InRange8 = false := by
    rw [FindKing_congr S0]; exact hk
  unfold UpdateCastlingInformation
  dsimp only
  split
  · rfl
  split
  · rfl
  rw [hk0]
  rfl

/-- `Restart` leaves the initial position, whatever the state before. -/
theorem Restart_eq_StartPosition (g : Game) : Restart g = StartPosition := by
  unfold Restart
  dsimp only
  rw [UpdateCastlingInformation_blocked _ _ (by decide!) (by decide!) (by decide!),
    Game.ext_fields]
  decide!

/-- A ply: a `Move` that succeeds in a position where the home rows are blocked
next to the rooks and both kings stand on column 4 afterwards, followed by
`ChangeTurn`. -/
theorem ply_eq (g r : Game) (s d : XY) (hm : (Move g s d).1 = true)
    (hk : (FindKing (ApplyMove g s d) (Opponent g.Turn)).x = 4)
    (h1 : ((ApplyMove g s d).sq ⟨1, HomeRow (Opponent g.Turn)⟩).Owner ≠ PlayerType.Nobody)
    (h6 : ((ApplyMove g s d).sq ⟨6, HomeRow (Opponent g.Turn)⟩).Owner ≠ PlayerType.Nobody)
    (hr : ClearCastlingTargets { ApplyMove g s d with Turn := Opponent g.Turn } = r) :
    ChangeTurn (Move g s d).2 = r := by
  rw [Move_snd_of_success g s d hm]
  unfold ChangeTurn
  dsimp only
  rw [ApplyMove_Turn]
  exact (UpdateCastlingInformation_blocked
    { ApplyMove g s d with Turn := Opponent g.Turn } (Opponent g.Turn) hk h1 h6).trans hr

theorem play_a3 : (Move StartPosition ⟨0, 6⟩ ⟨0, 5⟩).1 = true
    ∧ ChangeTurn (Move StartPosition ⟨0, 6⟩ ⟨0, 5⟩).2 = AfterA3 := by
  have hm : (Move StartPosition ⟨0, 6⟩ ⟨0, 5⟩).1 = true := by
    rw [Move_fst_iff, GetTravelMap_fst _ _ _ (by decide)]
    decide!
  refine ⟨hm, ply_eq _ _ _ _ hm (by decide!) (by decide!) (by decide!) ?_⟩
  rw [Game.ext_fields]
  decide!

theorem play_e5 : (Move AfterA3 ⟨4, 1⟩ ⟨4, 3⟩).1 = true
    ∧ ChangeTurn (Move AfterA3 ⟨4, 1⟩ ⟨4, 3⟩).2 = AfterE5 := by
  have hm : (Move AfterA3 ⟨4, 1⟩ ⟨4, 3⟩).1 = true := by
    rw [Move_fst_iff, GetTravelMap_fst _ _ _ (by decide)]
    decide!
  refine ⟨hm, ply_eq _ _ _ _ hm (by decide!) (by decide!) (by decide!) ?_⟩
  rw [Game.ext_fields]
  decide!

theorem play_a4 : (Move AfterE5 ⟨0, 5⟩ ⟨0, 4⟩).1 = true
    ∧ ChangeTurn (Move AfterE5 ⟨0, 5⟩ ⟨0, 4⟩).2 = AfterA4 := by
  have hm : (Move AfterE5 ⟨0, 5⟩ ⟨0, 4⟩).1 = true := by
    rw [Move_fst_iff, GetTravelMap_fst _ _ _ (by decide)]
    decide!
  refine ⟨hm, ply_eq _ _ _ _ hm (by decide!) (by decide!) (by decide!) ?_⟩
  rw [Game.ext_fields]
  decide!

theorem play_Qh4 : (Move AfterA4 ⟨3, 0⟩ ⟨7, 4⟩).1 = true
    ∧ ChangeTurn (Move AfterA4 ⟨3, 0⟩ ⟨7, 4⟩).2 = AfterQh4 := by
  have hm : (Move AfterA4 ⟨3, 0⟩ ⟨7, 4⟩).1 = true := by
    rw [Move_fst_iff, GetTravelMap_fst _ _ _ (by decide)]
    decide!
  refine ⟨hm, ply_eq _ _ _ _ hm (by decide!) (by decide!) (by decide!) ?_⟩
  rw [Game.ext_fields]
  decide!

theorem play_f3 : (Move AfterQh4 ⟨5, 6⟩ ⟨5, 5⟩).1 = true
    ∧ ChangeTurn (Move AfterQh4 ⟨5, 6⟩ ⟨5, 5⟩).2 = AfterF3 := by
  have hm : (Move AfterQh4 ⟨5, 6⟩ ⟨5, 5⟩).1 = true := by
    rw [Move_fst_iff, GetTravelMap_fst _ _ _ (by decide)]
    decide!
  refine ⟨hm, ply_eq _ _ _ _ hm (by decide!) (by decide!) (by decide!) ?_⟩
  rw [Game.ext_fields]
  decide!

theorem play_Qxe1 : (Move AfterF3 ⟨7, 4⟩ ⟨4, 7⟩).1 = true := by
  rw [Move_fst_iff, GetTravelMap_fst _ _ _ (by decide)]
  decide!

/-- C26, evaluated on a game from `Restart`: 1. a3 e5 2. a4 Qh4 3. f3 Qxe1.
Every ply is a successful `Move` of a piece of the player to move, no promotion
becomes pending, and `ChangeTurn` follows.  Before 3. f3 White is not in check,
so the pawn of f2, which shields the king from the dame on h4, is free to move;
Black then takes the king on e1 `(4,7)`, and the board holds no White king. -/
theorem king_captured_in_play :
    Restart EmptyBoard = StartPosition
    ∧ (GetOwner StartPosition ⟨0, 6⟩ = GetTurn StartPosition
        ∧ (Move StartPosition ⟨0, 6⟩ ⟨0, 5⟩).1 = true
        ∧ PromotionRequested (Move StartPosition ⟨0, 6⟩ ⟨0, 5⟩).2 = false
        ∧ ChangeTurn (Move StartPosition ⟨0, 6⟩ ⟨0, 5⟩).2 = AfterA3)
    ∧ (GetOwner AfterA3 ⟨4, 1⟩ = GetTurn AfterA3
        ∧ (Move AfterA3 ⟨4, 1⟩ ⟨4, 3⟩).1 = true
        ∧ PromotionRequested (Move AfterA3 ⟨4, 1⟩ ⟨4, 3⟩).2 = false
        ∧ ChangeTurn (Move AfterA3 ⟨4, 1⟩ ⟨4, 3⟩).2 = AfterE5)
    ∧ (GetOwner AfterE5 ⟨0, 5⟩ = GetTurn AfterE5
        ∧ (Move AfterE5 ⟨0, 5⟩ ⟨0, 4⟩).1 = true
        ∧ PromotionRequested (Move AfterE5 ⟨0, 5⟩ ⟨0, 4⟩).2 = false
        ∧ ChangeTurn (Move AfterE5 ⟨0, 5⟩ ⟨0, 4⟩).2 = AfterA4)
    ∧ (GetOwner AfterA4 ⟨3, 0⟩ = GetTurn AfterA4
        ∧ (Move AfterA4 ⟨3, 0⟩ ⟨7, 4⟩).1 = true
        ∧ PromotionRequested (Move AfterA4 ⟨3, 0⟩ ⟨7, 4⟩).2 = false
        ∧ ChangeTurn (Move AfterA4 ⟨3, 0⟩ ⟨7, 4⟩).2 = AfterQh4)
    ∧ (KingInCheck AfterQh4 PlayerType.White = false
        ∧ GetOwner AfterQh4 ⟨5, 6⟩ = GetTurn AfterQh4
        ∧ (Move AfterQh4 ⟨5, 6⟩ ⟨5, 5⟩).1 = true
        ∧ PromotionRequested (Move AfterQh4 ⟨5, 6⟩ ⟨5, 5⟩).2 = false
        ∧ ChangeTurn (Move AfterQh4 ⟨5, 6⟩ ⟨5, 5⟩).2 = AfterF3)
    ∧ (GetOwner AfterF3 ⟨7, 4⟩ = GetTurn AfterF3
        ∧ GetPiece AfterF3 ⟨4, 7⟩ = PieceType.King
        ∧ (Move AfterF3 ⟨7, 4⟩ ⟨4, 7⟩).1 = true
        ∧ PromotionRequested (Move AfterF3 ⟨7, 4⟩ ⟨4, 7⟩).2 = false)
    ∧ ∀ y x : Fin 8,
        ¬ (((ChangeTurn (Move AfterF3 ⟨7, 4⟩ ⟨4, 7⟩).2).Board y x).Owner = PlayerType.White
          ∧ ((ChangeTurn (Move AfterF3 ⟨7, 4⟩ ⟨4, 7⟩).2).Board y x).Piece = PieceType.King) := by
  have p1 := play_a3
  have p2 := play_e5
  have p3 := play_a4
  have p4 := play_Qh4
  have p5 := play_f3
  have p6 := play_Qxe1
  refine ⟨Restart_eq_StartPosition _, ⟨by decide!, p1.1, ?_, p1.2⟩, ⟨by decide!, p2.1, ?_, p2.2⟩,
    ⟨by decide!, p3.1, ?_, p3.2⟩, ⟨by decide!, p4.1, ?_, p4.2⟩,
    ⟨by decide!, by decide!, p5.1, ?_, p5.2⟩, ⟨by decide!, by decide!, p6, ?_⟩, ?_⟩
  · rw [Move_snd_of_success _ _ _ p1.1]
    decide!
  · rw [Move_snd_of_success _ _ _ p2.1]
    decide!
  · rw [Move_snd_of_success _ _ _ p3.1]
    decide!
  · rw [Move_snd_of_success _ _ _ p4.1]
    decide!
  · rw [Move_snd_of_success _ _ _ p5.1]
    decide!
  · rw [Move_snd_of_success _ _ _ p6]
    decide!
  · rw [Move_snd_of_success _ _ _ p6]
    have key : ∀ y x : Fin 8,
        ¬ (((ApplyMove AfterF3 ⟨7, 4⟩ ⟨4, 7⟩).sq (XY.ofIdx x y)).Owner = PlayerType.White
          ∧ ((ApplyMove AfterF3 ⟨7, 4⟩ ⟨4, 7⟩).sq (XY.ofIdx x y)).Piece = PieceType.King) := by
      decide!
    intro y x
    rw [Board_eq_sq]
    unfold ChangeTurn
    rw [UpdateCastlingInformation_sq_Owner, UpdateCastlingInformation_sq_Piece]
    exact key y x

/-! ## The nested calls return -/

theorem foldlM_some {α β : Type} (f : α → β → Option α) (f' : α → β → α)
    (h : ∀ s x, f s x = some (f' s x)) (l : List β) (init : α) :
    l.foldlM f init = some (l.foldl f' init) := by
  induction l generalizing init with
  | nil => rfl
  | cons a l ih =>
    rw [List.foldlM_cons, h]
    exact ih _

/-- Depth 1 suffices for `GetTravelMap` with `SubstractKingIllegal` off and
`PreventRecursiveKingInCheck` on: it makes no nested call. -/
theorem CallsWithin_travelMap_guarded (n : Nat) (g : Game) (Player : Int) (a : XY)
    (spec ik diag : Bool) :
    (CallsWithin (n + 1)).travelMap g Player a false spec true ik diag
      = some (GetTravelMap g Player a false spec true ik diag) := by
  rw [GetTravelMap_guarded]
  show GetTravelMapBody _ g Player a false spec true ik diag = _
  unfold GetTravelMapBody GetTravelMapGuarded
  split
  · rfl
  · simp

/-- Depth 2 suffices for `GetTravelMapGlobal` with the recursion guard on. -/
theorem CallsWithin_global_guarded (n : Nat) (g : Game) (Player : Int) (ik diag : Bool) :
    (CallsWithin (n + 2)).global g Player true ik diag
      = some (GetTravelMapGlobal g Player true ik diag) := by
  show GetTravelMapGlobalBody (CallsWithin (n + 1)) g Player true ik diag = _
  unfold GetTravelMapGlobalBody GetTravelMapGlobal
  rw [foldlM_some _ (GlobalStep Player true ik diag)]
  intro s sq
  unfold GlobalStep
  split
  · rw [CallsWithin_travelMap_guarded]
  · rfl

/-- Depth 3 suffices for `KingInCheck`, and the call leaves the state as it
found it. -/
theorem CallsWithin_kingInCheck (n : Nat) (g : Game) (Player : Int) :
    (CallsWithin (n + 3)).kingInCheck g Player = some (KingInCheck g Player, g) := by
  show KingInCheckBody (CallsWithin (n + 2)) g Player = _
  unfold KingInCheckBody KingInCheck
  dsimp only
  split
  · rfl
  · rw [CallsWithin_global_guarded, GetTravelMapGlobal_guarded]

/-- Depth 4 suffices for `GetTravelMap`, whatever the flags. -/
theorem CallsWithin_travelMap (n : Nat) (g : Game) (Player : Int) (a : XY)
    (sub spec prevent ik diag : Bool) :
    (CallsWithin (n + 4)).travelMap g Player a sub spec prevent ik diag
      = some (GetTravelMap g Player a sub spec prevent ik diag) := by
  show GetTravelMapBody (CallsWithin (n + 3)) g Player a sub spec prevent ik diag = _
  have hstep : ∀ s sq, CheckEscapeStepRec (CallsWithin (n + 3)) Player a s sq
      = some (CheckEscapeStep Player a s sq) := by
    intro s sq
    unfold CheckEscapeStepRec CheckEscapeStep
    split
    · dsimp only
      rw [CallsWithin_kingInCheck]
    · rfl
  unfold GetTravelMapBody GetTravelMap KingSubtracted
  split
  · rfl
  · dsimp only
    by_cases hk : (g.sq a).Piece = PieceType.King ∧ sub = true
    · rw [if_pos hk, if_pos hk, CallsWithin_global_guarded (n + 1), GetTravelMapGlobal_guarded]
      dsimp only
      cases prevent
      · simp only [Bool.not_false, if_true]
        rw [CallsWithin_kingInCheck]
        dsimp only
        cases hc : KingInCheck g Player
        · simp
        · simp only [if_true]
          rw [foldlM_some _ _ hstep]
      · simp
    · rw [if_neg hk, if_neg hk]
      dsimp only
      cases prevent
      · simp only [Bool.not_false, if_true]
        rw [CallsWithin_kingInCheck]
        dsimp only
        cases hc : KingInCheck g Player
        · simp
        · simp only [if_true]
          rw [foldlM_some _ _ hstep]
      · simp

/-- Depth 5 suffices for `GetTravelMapGlobal`, whatever the flags. -/
theorem CallsWithin_global (n : Nat) (g : Game) (Player : Int) (prevent ik diag : Bool) :
    (CallsWithin (n + 5)).global g Player prevent ik diag
      = some (GetTravelMapGlobal g Player prevent ik diag) := by
  show GetTravelMapGlobalBody (CallsWithin (n + 4)) g Player prevent ik diag = _
  unfold GetTravelMapGlobalBody GetTravelMapGlobal
  rw [foldlM_some _ (GlobalStep Player prevent ik diag)]
  intro s sq
  unfold GlobalStep
  split
  · rw [CallsWithin_travelMap]
  · rfl

/-- C27. All operations terminate.  For every board, every player, every square
`a` of the board and every combination of the five flags: the loop of `Travel`
started on `a` reaches its `break` within eight iterations for every non-zero
speed vector, and the speed vectors `GetTravelMap` hands to `Travel` are
non-zero; the calls `GetTravelMap` -> `GetTravelMapGlobal` / `KingInCheck` ->
`GetTravelMap` never nest deeper than 4 below `GetTravelMap`, 5 below
`GetTravelMapGlobal` and 3 below `KingInCheck`: with that many levels allowed,
the functions written with all their nested calls return, and return the values
of `GetTravelMap`, `GetTravelMapGlobal` and `KingInCheck`.  `PlayerCanMove`,
`Checkmate`, `Stalemate`, `UpdateCastlingInformation` and `Move` call these and
contain no other loop than scans of the board. -/
theorem operations_terminate (g : Game) (Player : Int) (a : XY) (ha : a.InRange8 = true)
    (sub spec prevent ik diag : Bool) :
    (∀ (p : Int) (v : XY) (d : Int), (v.x ≠ 0 ∨ v.y ≠ 0) →
      ∃ tm, TravelLoop 8 g p a v d EmptyMatrix8x8 = some tm)
    ∧ (∀ v ∈ SpeedVectorsOf g Player a spec ik diag, v.x ≠ 0 ∨ v.y ≠ 0)
    ∧ (∀ depth : Nat, 4 ≤ depth →
        (CallsWithin depth).travelMap g Player a sub spec prevent ik diag
          = some (GetTravelMap g Player a sub spec prevent ik diag))
    ∧ (∀ depth : Nat, 5 ≤ depth →
        (CallsWithin depth).global g Player prevent ik diag
          = some (GetTravelMapGlobal g Player prevent ik diag))
    ∧ (∀ depth : Nat, 3 ≤ depth →
        (CallsWithin depth).kingInCheck g Player = some (KingInCheck g Player, g)) := by
  refine ⟨?_, ?_, ?_, ?_, ?_⟩
  · intro p v d hv
    exact Option.isSome_iff_exists.mp (TravelLoop_isSome g p a v d _ ha hv)
  · exact fun v hv => SpeedVectorsOf_nonzero g Player a spec ik diag v hv
  · intro depth hd
    obtain ⟨n, rfl⟩ := Nat.exists_eq_add_of_le' hd
    exact CallsWithin_travelMap n g Player a sub spec prevent ik diag
  · intro depth hd
    obtain ⟨n, rfl⟩ := Nat.exists_eq_add_of_le' hd
    exact CallsWithin_global n g Player prevent ik diag
  · intro depth hd
    obtain ⟨n, rfl⟩ := Nat.exists_eq_add_of_le' hd
    exact CallsWithin_kingInCheck n g Player

/-- C27 at a concrete input: the knight on e5 `(4,3)` in `PinnedKnightInCheck`,
where White is in check and the check-escape loop runs. -/
theorem operations_terminate_witness :
    (CallsWithin 4).travelMap PinnedKnightInCheck PlayerType.White ⟨4, 3⟩ true true false true
        false
      = some (GetTravelMap PinnedKnightInCheck PlayerType.White ⟨4, 3⟩ true true false true
          false) :=
  (operations_terminate PinnedKnightInCheck PlayerType.White ⟨4, 3⟩ (by decide)
    true true false true false).2.2.1 4 (le_refl 4)

/-! ## The knight -/

theorem KnightSpeedVectors_eq :
    LoopSpeedVectors [-2, -1, 0, 1, 2]
      (fun x y => decide (x ≠ 0) && decide (y ≠ 0) && decide (x.natAbs ≠ y.natAbs))
      = KnightJumps := by
  decide

theorem KnightJumps_mem (v : XY) :
    v ∈ KnightJumps
      ↔ (v.x.natAbs = 1 ∧ v.y.natAbs = 2) ∨ (v.x.natAbs = 2 ∧ v.y.natAbs = 1) := by
  obtain ⟨x, y⟩ := v
  unfold KnightJumps
  simp only [List.mem_cons, List.mem_singleton, List.not_mem_nil, or_false, XY.mk.injEq]
  omega

theorem SpeedVectorsOf_knight (g : Game) (p : Int) (s : XY) (spec ik diag : Bool)
    (h : (g.sq s).Piece = PieceType.Knight) :
    SpeedVectorsOf g p s spec ik diag = KnightJumps
    ∧ DistanceOf g s ik = 1 := by
  unfold SpeedVectorsOf DistanceOf
  simp only [h]
  rw [← KnightSpeedVectors_eq]
  simp

theorem allSquares_nodup : allSquares.Nodup := by
  decide

/-- The squares that a knight's map marks, one by one. -/
theorem knight_marks (g : Game) (p : Int) (s : XY)
    (hp : p = PlayerType.Black ∨ p = PlayerType.White)
    (hs : s.InRange8 = true) (hown : (g.sq s).Owner = p)
    (hpiece : (g.sq s).Piece = PieceType.Knight)
    (sub spec ik diag : Bool) (y x : Fin 8) :
    (GetTravelMap g p s sub spec true ik diag).1 y x = 1
      ↔ ∃ v ∈ KnightJumps, XY.ofIdx x y = s.add v ∧ (g.sq (XY.ofIdx x y)).Owner ≠ p := by
  have hk : (g.sq s).Piece ≠ PieceType.King := by rw [hpiece]; decide
  obtain ⟨e1, e2⟩ := SpeedVectorsOf_knight g p s spec ik diag hpiece
  rw [GetTravelMap_not_king g p s hs hown hk, e1, e2]
  have hnz : ∀ v ∈ KnightJumps, v.x ≠ 0 ∨ v.y ≠ 0 := by
    intro v hv
    rw [KnightJumps_mem] at hv
    omega
  have hno : (g.sq s).Owner ≠ Opponent p := by
    rw [hown]
    exact fun hc => (Opponent_ne p hp).1 hc.symm
  constructor
  · rintro ⟨v, hv, ht⟩
    rw [(Travel_marks g p s v 1 hs (hnz v hv) y x).1, Reached_one] at ht
    refine ⟨v, hv, ht.1, ?_⟩
    rw [ht.1]
    exact ht.2.2.1
  · rintro ⟨v, hv, hc, ho⟩
    refine ⟨v, hv, ?_⟩
    rw [(Travel_marks g p s v 1 hs (hnz v hv) y x).1, Reached_one]
    refine ⟨hc, ?_, ?_, hno⟩
    · rw [← hc]
      exact InRange8_ofIdx x y
    · rw [← hc]
      exact ho

/-- C31. Knight.  With the check filter disabled
(`PreventRecursiveKingInCheck = true`) and for every value of the other flags,
the map of a Knight of `p` (Black or White) on a square `s` of the board marks
the square `(x, y)` exactly when `(x, y) = s + (dx, dy)` with `{|dx|, |dy|} =
{1, 2}` and the square is not owned by `p`, whatever stands on the other squares;
every entry of the map is 0 or 1 and at most eight squares are marked. -/
theorem knight_map (g : Game) (p : Int) (s : XY)
    (hp : p = PlayerType.Black ∨ p = PlayerType.White)
    (hs : s.InRange8 = true) (hown : GetOwner g s = p)
    (hpiece : GetPiece g s = PieceType.Knight)
    (sub spec ik diag : Bool) :
    (∀ y x : Fin 8, (GetTravelMap g p s sub spec true ik diag).1 y x = 1
      ↔ ∃ dx dy : Int, ((dx.natAbs = 1 ∧ dy.natAbs = 2) ∨ (dx.natAbs = 2 ∧ dy.natAbs = 1))
          ∧ XY.ofIdx x y = ⟨s.x + dx, s.y + dy⟩ ∧ GetOwner g (XY.ofIdx x y) ≠ p)
    ∧ (∀ y x : Fin 8, (GetTravelMap g p s sub spec true ik diag).1 y x = 0
        ∨ (GetTravelMap g p s sub spec true ik diag).1 y x = 1)
    ∧ (allSquares.filter fun c =>
        decide ((GetTravelMap g p s sub spec true ik diag).1 c.1 c.2 = 1)).length ≤ 8 := by
  unfold GetOwner GetPiece at *
  have marks := knight_marks g p s hp hs hown hpiece sub spec ik diag
  refine ⟨?_, ?_, ?_⟩
  · intro y x
    rw [marks]
    constructor
    · rintro ⟨v, hv, hc, ho⟩
      exact ⟨v.x, v.y, (KnightJumps_mem v).mp hv, hc, ho⟩
    · rintro ⟨dx, dy, hd, hc, ho⟩
      exact ⟨⟨dx, dy⟩, (KnightJumps_mem ⟨dx, dy⟩).mpr hd, hc, ho⟩
  · intro y x
    have h1 := GetTravelMap_fst_nonneg g p s sub spec true ik diag y x
    have h2 : (GetTravelMap g p s sub spec true ik diag).1 y x ≤ 1 := by
      rw [GetTravelMap_fst g p s hs]
      split
      · exact Normalize_le_one _ _ _
      · exact show (0 : Int) ≤ 1 by decide
    omega
  · have hsub : ((allSquares.filter fun c =>
          decide ((GetTravelMap g p s sub spec true ik diag).1 c.1 c.2 = 1)).map
            fun c => XY.ofIdx c.2 c.1) ⊆ KnightJumps.map fun v => s.add v := by
      intro c hc
      rw [List.mem_map] at hc
      obtain ⟨a, ha, rfl⟩ := hc
      rw [List.mem_filter, decide_eq_true_eq, marks] at ha
      obtain ⟨v, hv, e, _⟩ := ha.2
      rw [List.mem_map]
      exact ⟨v, hv, e.symm⟩
    have hnd : ((allSquares.filter fun c =>
          decide ((GetTravelMap g p s sub spec true ik diag).1 c.1 c.2 = 1)).map
            fun c => XY.ofIdx c.2 c.1).Nodup := by
      apply List.Nodup.map_on
      · intro a _ b _ hab
        have hx := congrArg (fun c : XY => toFin8 c.x) hab
        have hy := congrArg (fun c : XY => toFin8 c.y) hab
        simp only [toFin8_ofIdx_x, toFin8_ofIdx_y] at hx hy
        exact Prod.ext hy hx
      · exact allSquares_nodup.filter _
    have hle := (List.subperm_of_subset hnd hsub).length_le
    rw [List.length_map, List.length_map] at hle
    exact hle


/-- C31 at a concrete input: in `PinnedKnight` the white knight on e2 `(4,6)`
reaches c3 `(2,5)`. -/
theorem knight_map_witness :
    (∀ y x : Fin 8, (GetTravelMap PinnedKnight PlayerType.White ⟨4, 6⟩
        false false true false false).1 y x = 1
      ↔ ∃ dx dy : Int, ((dx.natAbs = 1 ∧ dy.natAbs = 2) ∨ (dx.natAbs = 2 ∧ dy.natAbs = 1))
          ∧ XY.ofIdx x y = ⟨4 + dx, 6 + dy⟩
          ∧ GetOwner PinnedKnight (XY.ofIdx x y) ≠ PlayerType.White)
    ∧ (∀ y x : Fin 8, (GetTravelMap PinnedKnight PlayerType.White ⟨4, 6⟩
        false false true false false).1 y x = 0
        ∨ (GetTravelMap PinnedKnight PlayerType.White ⟨4, 6⟩
            false false true false false).1 y x = 1)
    ∧ (allSquares.filter fun c =>
        decide ((GetTravelMap PinnedKnight PlayerType.White ⟨4, 6⟩
          false false true false false).1 c.1 c.2 = 1)).length ≤ 8 :=
  knight_map PinnedKnight PlayerType.White ⟨4, 6⟩ (Or.inr rfl) (by decide) (by decide!)
    (by decide!) false false false false

/-! ## The frame of an ordinary move -/

theorem MovePiece_sq_other (g : Game) (s d c : XY) (hs : c ≠ s) (hd : c ≠ d) :
    (MovePiece g s d).sq c = g.sq c := by
  unfold MovePiece
  rw [sq_setSq_eq, sq_setSq_eq, if_neg (fun h => hs h.2), if_neg (fun h => hd h.2)]

/-- When the piece taken from `s` is not a king bound for a castling target nor
a pawn bound for an en-passant target, the castling and en-passant blocks of
`Move` do nothing. -/
theorem ordinary_blocks_skip (g : Game) (s d : XY) (hd : d.InRange8 = true)
    (hc : ¬ ((g.sq s).Piece = PieceType.King ∧ (g.sq d).CastlingTarget = true))
    (he : ¬ ((g.sq s).Piece = PieceType.Pawn ∧ (g.sq d).EnPassantTarget = true)) :
    CaptureEnPassant (CastleRook (MovePiece g s d) s d) d = MovePiece g s d := by
  have hpiece : ∀ q : Int, q ≠ PieceType.NoPiece → ((MovePiece g s d).sq d).Piece = q →
      (g.sq s).Piece = q := by
    intro q hq h
    rw [MovePiece_sq_dst g s d hd] at h
    split at h
    · exact absurd h.symm hq
    · exact h
  have h1 : CastleRook (MovePiece g s d) s d = MovePiece g s d := by
    unfold CastleRook
    rw [if_neg]
    rintro ⟨a, b⟩
    rw [MovePiece_sq_CastlingTarget] at b
    exact hc ⟨hpiece _ (by decide) a, b⟩
  rw [h1, CaptureEnPassant_eq, if_neg]
  rintro ⟨a, b⟩
  rw [MovePiece_sq_EnPassantTarget] at b
  exact he ⟨hpiece _ (by decide) a, b⟩

/-- C37. An ordinary move touches two squares only.  Whenever `Move(src, dst)`
succeeds and it is neither a king landing on a square with `CastlingTarget` set
nor a pawn landing on a square with `EnPassantTarget` set, every square other
than `src` and `dst` has the same `Owner`, `Piece` and `Touched` after the move
as before, and every square has the same `CastlingTarget` flag. -/
theorem ordinary_move_touches_two_squares (g : Game) (src dst : XY)
    (h : (Move g src dst).1 = true)
    (hc : ¬ (GetPiece g src = PieceType.King ∧ (g.sq dst).CastlingTarget = true))
    (he : ¬ (GetPiece g src = PieceType.Pawn ∧ (g.sq dst).EnPassantTarget = true)) :
    (∀ c : XY, c ≠ src → c ≠ dst →
      GetOwner (Move g src dst).2 c = GetOwner g c
      ∧ GetPiece (Move g src dst).2 c = GetPiece g c
      ∧ ((Move g src dst).2.sq c).Touched = (g.sq c).Touched)
    ∧ (∀ c : XY, ((Move g src dst).2.sq c).CastlingTarget = (g.sq c).CastlingTarget) := by
  unfold GetPiece at hc he
  obtain ⟨_, hd⟩ := Move_success_inRange g src dst h
  refine ⟨fun c hs hd2 => ?_, fun c => Move_sq_CastlingTarget g src dst c⟩
  unfold GetOwner GetPiece
  rw [Move_snd_of_success g src dst h, ApplyMove_sq_Owner, ApplyMove_sq_Piece,
    ApplyMove_sq_Touched, ordinary_blocks_skip g src dst hd hc he,
    MovePiece_sq_other g src dst c hs hd2]
  exact ⟨rfl, rfl, rfl⟩

/-- C37 at a concrete input: the pawn move e2-e4 in `PawnOnE2`. -/
theorem ordinary_move_touches_two_squares_witness :
    (∀ c : XY, c ≠ ⟨4, 6⟩ → c ≠ ⟨4, 4⟩ →
      GetOwner (Move PawnOnE2 ⟨4, 6⟩ ⟨4, 4⟩).2 c = GetOwner PawnOnE2 c
      ∧ GetPiece (Move PawnOnE2 ⟨4, 6⟩ ⟨4, 4⟩).2 c = GetPiece PawnOnE2 c
      ∧ ((Move PawnOnE2 ⟨4, 6⟩ ⟨4, 4⟩).2.sq c).Touched = (PawnOnE2.sq c).Touched)
    ∧ (∀ c : XY, ((Move PawnOnE2 ⟨4, 6⟩ ⟨4, 4⟩).2.sq c).CastlingTarget
        = (PawnOnE2.sq c).CastlingTarget) :=
  ordinary_move_touches_two_squares PawnOnE2 ⟨4, 6⟩ ⟨4, 4⟩
    (by rw [Move_fst_iff, GetTravelMap_fst _ _ _ (by decide)]
        decide!)
    (by decide!) (by decide!)

/-! ## The queries leave the state alone -/

theorem PlayerCanMove_snd (g : Game) (p : Int) : (PlayerCanMove g p).2 = g := by
  simp only [PlayerCanMove, GetTravelMapGlobal_snd, GetTravelMap_snd]

theorem Checkmate_snd (g : Game) (p : Int) : (Checkmate g p).2 = g := by
  unfold Checkmate
  by_cases hk : KingInCheck g p = true
  · rw [if_pos hk]
    dsimp only
    rw [PlayerCanMove_snd]
  · rw [if_neg hk]

theorem Stalemate_snd (g : Game) (p : Int) : (Stalemate g p).2 = g := by
  unfold Stalemate
  by_cases hk : (!KingInCheck g p) = true
  · rw [if_pos hk]
    dsimp only
    rw [PlayerCanMove_snd]
  · rw [if_neg hk]

/-- C34. The queries are pure.  For every state, player, square and flags, the
state of the object after `GetTravelMap` (the check-escape simulation that swaps
pieces included), `GetTravelMapGlobal`, `KingInCheck` (the call chain run to any
depth of three or more), `PlayerCanMove`, `Checkmate` and `Stalemate` is the
state before the call: board with all five fields of every square, turn and
pending promotion; and `SwapPieces(a, b)` applied twice to two squares of the
board is the identity. -/
theorem queries_are_pure (g : Game) (p : Int) (s : XY) (sub spec prevent ik diag : Bool)
    (n : Nat) (ax ay bx bY : Fin 8) :
    (GetTravelMap g p s sub spec prevent ik diag).2 = g
    ∧ (GetTravelMapGlobal g p prevent ik diag).2 = g
    ∧ (CallsWithin (n + 3)).kingInCheck g p = some (KingInCheck g p, g)
    ∧ (PlayerCanMove g p).2 = g
    ∧ (Checkmate g p).2 = g
    ∧ (Stalemate g p).2 = g
    ∧ SwapPieces (SwapPieces g (XY.ofIdx ax ay) (XY.ofIdx bx bY)) (XY.ofIdx ax ay)
        (XY.ofIdx bx bY) = g :=
  ⟨GetTravelMap_snd g p s sub spec prevent ik diag,
    GetTravelMapGlobal_snd g p prevent ik diag,
    CallsWithin_kingInCheck n g p,
    PlayerCanMove_snd g p, Checkmate_snd g p, Stalemate_snd g p,
    SwapPieces_twice g _ _ (InRange8_ofIdx ax ay) (InRange8_ofIdx bx bY)⟩

/-! ## Castling eligibility is recomputed from `Owner`, `Piece` and `Touched` -/

theorem SamePieces_sq_Owner {g h : Game} (H : SamePieces g h) (c : XY) :
    (g.sq c).Owner = (h.sq c).Owner := by
  unfold Game.sq; split
  · exact (H _ _).1
  · rfl

theorem SamePieces_sq_Piece {g h : Game} (H : SamePieces g h) (c : XY) :
    (g.sq c).Piece = (h.sq c).Piece := by
  unfold Game.sq; split
  · exact (H _ _).2.1
  · rfl

theorem SamePieces_sq_Touched {g h : Game} (H : SamePieces g h) (c : XY) :
    (g.sq c).Touched = (h.sq c).Touched := by
  unfold Game.sq; split
  · exact (H _ _).2.2
  · rfl

theorem SameButCastling_samePieces {g h : Game} (H : SameButCastling g h) : SamePieces g h :=
  fun y x => ⟨(H.1 y x).1, (H.1 y x).2.1, (H.1 y x).2.2.1⟩

theorem SamePieces_trans {g h k : Game} (h1 : SamePieces g h) (h2 : SamePieces h k) :
    SamePieces g k :=
  fun y x => ⟨(h1 y x).1.trans (h2 y x).1, (h1 y x).2.1.trans (h2 y x).2.1,
    (h1 y x).2.2.trans (h2 y x).2.2⟩

theorem SamePieces_symm {g h : Game} (h1 : SamePieces g h) : SamePieces h g :=
  fun y x => ⟨(h1 y x).1.symm, (h1 y x).2.1.symm, (h1 y x).2.2.symm⟩

theorem PawnSpeedVectors_samePieces {g h : Game} (H : SamePieces g h)
    (Player : Int) (a : XY) (diag : Bool) :
    PawnSpeedVectors g Player a false diag = PawnSpeedVectors h Player a false diag := by
  unfold PawnSpeedVectors
  simp only [SamePieces_sq_Owner H, SamePieces_sq_Touched H, Bool.false_eq_true, if_false]

theorem SpeedVectorsOf_samePieces {g h : Game} (H : SamePieces g h)
    (Player : Int) (a : XY) (ik diag : Bool) :
    SpeedVectorsOf g Player a false ik diag = SpeedVectorsOf h Player a false ik diag := by
  unfold SpeedVectorsOf
  simp only [SamePieces_sq_Piece H, PawnSpeedVectors_samePieces H]

theorem DistanceOf_samePieces {g h : Game} (H : SamePieces g h) (a : XY) (ik : Bool) :
    DistanceOf g a ik = DistanceOf h a ik := by
  unfold DistanceOf
  simp only [SamePieces_sq_Piece H]

theorem TravelCandidates_samePieces {g h : Game} (H : SamePieces g h)
    (Player : Int) (a : XY) (ik diag : Bool) :
    TravelCandidates g Player a false ik diag = TravelCandidates h Player a false ik diag := by
  unfold TravelCandidates
  simp only [SpeedVectorsOf_samePieces H, DistanceOf_samePieces H, CastlingMarks_noSpecial,
    Travel_congr (SamePieces_sq_Owner H), SamePieces_sq_Owner H]

theorem GetTravelMapGuarded_samePieces {g h : Game} (H : SamePieces g h)
    (Player : Int) (a : XY) (ik diag : Bool) :
    GetTravelMapGuarded g Player a false ik diag = GetTravelMapGuarded h Player a false ik diag := by
  unfold GetTravelMapGuarded CanSelect
  simp only [TravelCandidates_samePieces H, SamePieces_sq_Owner H]

theorem GetTravelMapGlobalGuarded_samePieces {g h : Game} (H : SamePieces g h)
    (Player : Int) (ik diag : Bool) :
    GetTravelMapGlobalGuarded g Player ik diag = GetTravelMapGlobalGuarded h Player ik diag := by
  unfold GetTravelMapGlobalGuarded
  simp only [GetTravelMapGuarded_samePieces H, (H _ _).1]

theorem FindKing_samePieces {g h : Game} (H : SamePieces g h) (Player : Int) :
    FindKing g Player = FindKing h Player := by
  unfold FindKing
  simp only [(H _ _).1, (H _ _).2.1]

theorem KingInCheck_samePieces {g h : Game} (H : SamePieces g h) (Player : Int) :
    KingInCheck g Player = KingInCheck h Player := by
  unfold KingInCheck
  simp only [FindKing_samePieces H, GetTravelMapGlobalGuarded_samePieces H]

theorem EmptyGround_samePieces {g h : Game} (H : SamePieces g h) (tm : Matrix8)
    (Row StartX EndX : Int) :
    EmptyGround g tm Row StartX EndX = EmptyGround h tm Row StartX EndX := by
  unfold EmptyGround
  simp only [SamePieces_sq_Owner H]

theorem setSq_flag_Board (g : Game) (c : XY) (y x : Fin 8) :
    ((g.setSq c (fun s => { s with CastlingTarget := true })).Board y x).CastlingTarget
      = (decide (c.InRange8 = true ∧ XY.ofIdx x y = c) || (g.Board y x).CastlingTarget) := by
  rw [Board_eq_sq, sq_setSq_eq, Board_eq_sq]
  by_cases hc : XY.ofIdx x y = c
  · subst hc
    simp
  · simp [hc]

/-- One step of the rook loop acts alike on two states that agree on `Owner`,
`Piece`, `Touched` and the castling flags. -/
theorem CastlingStep_samePieces {g h : Game} (H : SamePieces g h)
    (Hc : ∀ y x, (g.Board y x).CastlingTarget = (h.Board y x).CastlingTarget)
    (Player Row : Int) (k : XY) (tm : Matrix8) (rx : Int) :
    SamePieces (CastlingStep Player Row k tm g rx) (CastlingStep Player Row k tm h rx)
    ∧ ∀ y x, ((CastlingStep Player Row k tm g rx).Board y x).CastlingTarget
        = ((CastlingStep Player Row k tm h rx).Board y x).CastlingTarget := by
  refine ⟨SamePieces_trans
    (SamePieces_trans (SameButCastling_samePieces (CastlingStep_same Player Row k tm g rx)) H)
    (SamePieces_symm (SameButCastling_samePieces (CastlingStep_same Player Row k tm h rx))),
    fun y x => ?_⟩
  unfold CastlingStep
  dsimp only
  rw [SamePieces_sq_Owner H, SamePieces_sq_Piece H, SamePieces_sq_Touched H,
    EmptyGround_samePieces H]
  split_ifs <;> simp only [setSq_flag_Board, Hc]

/-- The castling flags after `UpdateCastlingInformation` on two states that
agree on `Owner`, `Piece` and `Touched`. -/
theorem UpdateCastlingInformation_samePieces {g h : Game} (H : SamePieces g h) (p : Int)
    (y x : Fin 8) :
    ((UpdateCastlingInformation g p).Board y x).CastlingTarget
      = ((UpdateCastlingInformation h p).Board y x).CastlingTarget := by
  have H0 : SamePieces (ClearCastlingTargets g) (ClearCastlingTargets h) :=
    SamePieces_trans (SamePieces_trans (SameButCastling_samePieces (SameButCastling_clear g)) H)
      (SamePieces_symm (SameButCastling_samePieces (SameButCastling_clear h)))
  have Hc0 : ∀ y x, ((ClearCastlingTargets g).Board y x).CastlingTarget
      = ((ClearCastlingTargets h).Board y x).CastlingTarget := fun _ _ => rfl
  unfold UpdateCastlingInformation
  dsimp only
  rw [KingInCheck_samePieces H0, FindKing_samePieces H0, SamePieces_sq_Touched H0,
    GetTravelMapGlobalGuarded_samePieces H0]
  simp only [List.foldl_cons, List.foldl_nil]
  have h1 := CastlingStep_samePieces H0 Hc0 p (HomeRow p) (FindKing (ClearCastlingTargets h) p)
    (GetTravelMapGlobalGuarded (ClearCastlingTargets h) (Opponent p) true true) 0
  have h2 := CastlingStep_samePieces h1.1 h1.2 p (HomeRow p)
    (FindKing (ClearCastlingTargets h) p)
    (GetTravelMapGlobalGuarded (ClearCastlingTargets h) (Opponent p) true true) 7
  split_ifs
  · rfl
  · rfl
  · rfl
  · rfl
  · exact h2.2 y x

theorem ClearCastlingTargets_congr {g h : Game} (H : SameButCastling g h) :
    ClearCastlingTargets g = ClearCastlingTargets h := by
  rw [Game.ext_fields]
  refine ⟨fun y x => ?_, H.2.1, H.2.2⟩
  obtain ⟨a, b, c, d⟩ := H.1 y x
  show ({ g.Board y x with CastlingTarget := false } : BoardPiece)
    = { h.Board y x with CastlingTarget := false }
  dsimp only
  rw [a, b, c, d]

theorem UpdateCastlingInformation_congr {g h : Game} (H : SameButCastling g h) (p : Int) :
    UpdateCastlingInformation g p = UpdateCastlingInformation h p := by
  unfold UpdateCastlingInformation
  rw [ClearCastlingTargets_congr H]

/-- C33. Castling eligibility is recomputed from scratch.  For two states that
agree on the `Owner`, `Piece` and `Touched` of every square, the `CastlingTarget`
flags after `UpdateCastlingInformation(p)` are the same, whatever the
`CastlingTarget` flags (and the en-passant flags, turn and pending promotion)
were before the call; if the states differ in their `CastlingTarget` flags only,
the whole resulting states are equal; and calling `UpdateCastlingInformation(p)`
twice gives the same state as calling it once. -/
theorem UpdateCastlingInformation_from_scratch (g h : Game) (p : Int)
    (H : SamePieces g h) :
    (∀ y x : Fin 8, ((UpdateCastlingInformation g p).Board y x).CastlingTarget
        = ((UpdateCastlingInformation h p).Board y x).CastlingTarget)
    ∧ (SameButCastling g h → UpdateCastlingInformation g p = UpdateCastlingInformation h p)
    ∧ UpdateCastlingInformation (UpdateCastlingInformation g p) p
        = UpdateCastlingInformation g p :=
  ⟨fun y x => UpdateCastlingInformation_samePieces H p y x,
    fun H2 => UpdateCastlingInformation_congr H2 p,
    UpdateCastlingInformation_congr (UpdateCastlingInformation_same g p) p⟩

/-- C33 at a concrete input: `KingOnD1` and the same position with c1 flagged
as castling target. -/
theorem UpdateCastlingInformation_from_scratch_witness :
    (∀ y x : Fin 8,
      ((UpdateCastlingInformation KingOnD1Flagged PlayerType.White).Board y x).CastlingTarget
        = ((UpdateCastlingInformation KingOnD1 PlayerType.White).Board y x).CastlingTarget)
    ∧ (SameButCastling KingOnD1Flagged KingOnD1 →
        UpdateCastlingInformation KingOnD1Flagged PlayerType.White
          = UpdateCastlingInformation KingOnD1 PlayerType.White)
    ∧ UpdateCastlingInformation (UpdateCastlingInformation KingOnD1Flagged PlayerType.White)
          PlayerType.White
        = UpdateCastlingInformation KingOnD1Flagged PlayerType.White :=
  UpdateCastlingInformation_from_scratch KingOnD1Flagged KingOnD1 PlayerType.White
    (SameButCastling_samePieces (UpdateCastlingInformation_same KingOnD1 PlayerType.White))

/-! ## The king's map and the opponent's combined map -/

theorem King_inRange (g : Game) (k : XY) (hk : (g.sq k).Piece = PieceType.King) :
    k.InRange8 = true := by
  cases hc : k.InRange8
  · rw [sq_of_not_inRange g k hc] at hk
    exact absurd hk (by decide)
  · rfl

theorem GetTravelMap_le_one (g : Game) (p : Int) (a : XY)
    (sub spec prevent ik diag : Bool) (y x : Fin 8) :
    (GetTravelMap g p a sub spec prevent ik diag).1 y x ≤ 1 := by
  cases ha : a.InRange8
  · rw [GetTravelMap_fst_offBoard g p a ha]
    decide
  · rw [GetTravelMap_fst g p a ha]
    split
    · exact Normalize_le_one _ _ _
    · exact show (0 : Int) ≤ 1 by decide

theorem GetTravelMapGlobalGuarded_nonneg (g : Game) (p : Int) (ik diag : Bool) (y x : Fin 8) :
    0 ≤ GetTravelMapGlobalGuarded g p ik diag y x := by
  unfold GetTravelMapGlobalGuarded
  exact Normalize_nonneg _ _ _

/-- A square marked in the map of a king, computed with `SubstractKingIllegal`,
is a candidate square that the opponent's combined map does not mark. -/
theorem GetTravelMap_king_avoids (g : Game) (p : Int) (k : XY)
    (hk : (g.sq k).Piece = PieceType.King) (spec prevent ik diag : Bool) (y x : Fin 8)
    (h : (GetTravelMap g p k true spec prevent ik diag).1 y x > 0) :
    GetTravelMapGlobalGuarded g (Opponent p) true true y x = 0 := by
  rw [GetTravelMap_fst g p k (King_inRange g k hk)] at h
  split at h
  · rw [Normalize_pos, EscapeFiltered_pos] at h
    have h1 := h.1
    unfold KingSubtracted at h1
    rw [if_pos ⟨hk, rfl⟩] at h1
    have h2 : TravelCandidates g p k spec ik diag y x ≤ 1 := by
      unfold TravelCandidates
      exact Normalize_le_one _ _ _
    have h3 := GetTravelMapGlobalGuarded_nonneg g (Opponent p) true true y x
    omega
  · exact absurd h (lt_irrefl _)

/-- C32. For every board, player `p` and square `k` holding a king, and for
every value of the other flags, every entry of
`GetTravelMap(p, k, SubstractKingIllegal = true, ...)` is 0 or 1, and a square
marked in it is not marked in `GetTravelMapGlobal(Opponent(p), true, true, true)`
computed on the same board; in particular a square with `CastlingTarget` set
that the opponent's map marks is not marked for the king. -/
theorem king_map_avoids_opponent_map (g : Game) (p : Int) (k : XY)
    (hk : GetPiece g k = PieceType.King) (spec prevent ik diag : Bool) (y x : Fin 8) :
    ((GetTravelMap g p k true spec prevent ik diag).1 y x = 0
      ∨ (GetTravelMap g p k true spec prevent ik diag).1 y x = 1)
    ∧ ((GetTravelMap g p k true spec prevent ik diag).1 y x = 1 →
        (GetTravelMapGlobal g (Opponent p) true true true).1 y x = 0)
    ∧ ((g.Board y x).CastlingTarget = true →
        (GetTravelMapGlobal g (Opponent p) true true true).1 y x > 0 →
        (GetTravelMap g p k true spec prevent ik diag).1 y x = 0) := by
  unfold GetPiece at hk
  have h0 := GetTravelMap_fst_nonneg g p k true spec prevent ik diag y x
  have h1 := GetTravelMap_le_one g p k true spec prevent ik diag y x
  have h2 := GetTravelMap_king_avoids g p k hk spec prevent ik diag y x
  rw [GetTravelMapGlobal_guarded]
  refine ⟨by omega, fun h => h2 (by omega), fun _ h => ?_⟩
  by_contra hne
  have := h2 (by omega)
  dsimp only at h
  omega

/-- C32 at a concrete input: the white king on d1 in `KingOnD1Flagged` and the
castling target c1 `(2,7)`. -/
theorem king_map_avoids_opponent_map_witness :
    ((GetTravelMap KingOnD1Flagged PlayerType.White ⟨3, 7⟩ true true false true false).1 7 2 = 0
      ∨ (GetTravelMap KingOnD1Flagged PlayerType.White ⟨3, 7⟩
          true true false true false).1 7 2 = 1)
    ∧ ((GetTravelMap KingOnD1Flagged PlayerType.White ⟨3, 7⟩
          true true false true false).1 7 2 = 1 →
        (GetTravelMapGlobal KingOnD1Flagged (Opponent PlayerType.White) true true true).1 7 2 = 0)
    ∧ ((KingOnD1Flagged.Board 7 2).CastlingTarget = true →
        (GetTravelMapGlobal KingOnD1Flagged (Opponent PlayerType.White) true true true).1 7 2 > 0 →
        (GetTravelMap KingOnD1Flagged PlayerType.White ⟨3, 7⟩
          true true false true false).1 7 2 = 0) :=
  king_map_avoids_opponent_map KingOnD1Flagged PlayerType.White ⟨3, 7⟩ (by decide!)
    true false true false 7 2

/-! ## Pawn pushes in the combined map -/

theorem foldl_cond_add (P : Fin 8 × Fin 8 → Prop) [DecidablePred P]
    (f : Fin 8 × Fin 8 → Matrix8) (hf : ∀ a y x, 0 ≤ f a y x)
    (l : List (Fin 8 × Fin 8)) (init : Matrix8) (y x : Fin 8) :
    init y x ≤ (l.foldl (fun tm s => if P s then Matrix8.add tm (f s) else tm) init) y x
    ∧ (∀ a ∈ l, P a → f a y x > 0 → 0 ≤ init y x →
        (l.foldl (fun tm s => if P s then Matrix8.add tm (f s) else tm) init) y x > 0) := by
  induction l generalizing init with
  | nil => exact ⟨le_refl _, fun a ha => absurd ha (List.not_mem_nil a)⟩
  | cons b l ih =>
    rw [List.foldl_cons]
    have hstep : init y x ≤ (if P b then Matrix8.add init (f b) else init) y x := by
      split
      · have := hf b y x
        show init y x ≤ init y x + f b y x
        omega
      · exact le_refl _
    refine ⟨le_trans hstep (ih _).1, ?_⟩
    intro a ha hP hpos h0
    rcases List.mem_cons.mp ha with rfl | ha
    · refine lt_of_lt_of_le ?_ (ih _).1
      rw [if_pos hP]
      show 0 < init y x + f a y x
      omega
    · exact (ih _).2 a ha hP hpos (le_trans h0 hstep)

theorem GetTravelMapGuarded_nonneg (g : Game) (p : Int) (a : XY) (spec ik diag : Bool)
    (y x : Fin 8) : 0 ≤ GetTravelMapGuarded g p a spec ik diag y x := by
  unfold GetTravelMapGuarded
  split
  · exact le_refl _
  · exact Normalize_nonneg _ _ _

/-- A square marked for one piece of the player is marked in the combined map. -/
theorem GetTravelMapGlobalGuarded_marks (g : Game) (p : Int) (ik diag : Bool)
    (sy sx y x : Fin 8) (ho : (g.Board sy sx).Owner = p)
    (hm : GetTravelMapGuarded g p (XY.ofIdx sx sy) false ik diag y x > 0) :
    GetTravelMapGlobalGuarded g p ik diag y x = 1 := by
  unfold GetTravelMapGlobalGuarded
  rw [Normalize_eq_one]
  exact (foldl_cond_add (fun s => (g.Board s.1 s.2).Owner = p)
    (fun s => GetTravelMapGuarded g p (XY.ofIdx s.2 s.1) false ik diag)
    (fun a y x => GetTravelMapGuarded_nonneg g p _ _ _ _ y x) allSquares EmptyMatrix8x8 y x).2
    (sy, sx) (mem_allSquares sy sx) ho hm (le_refl _)

/-- The square ahead of a pawn, when it is on the board and empty, is marked in
the pawn's map, whatever the flags. -/
theorem pawn_push_marked (g : Game) (q : Int) (s : XY) (dy : Int)
    (hq : q = PlayerType.Black ∨ q = PlayerType.White)
    (hdy : dy = if q = PlayerType.Black then 1 else -1)
    (hs : s.InRange8 = true) (hown : (g.sq s).Owner = q)
    (hpawn : (g.sq s).Piece = PieceType.Pawn)
    (ht : (XY.mk s.x (s.y + dy)).InRange8 = true)
    (hempty : (g.sq ⟨s.x, s.y + dy⟩).Owner = PlayerType.Nobody)
    (spec ik diag : Bool) :
    GetTravelMapGuarded g q s spec ik diag (toFin8 (s.y + dy)) (toFin8 s.x) > 0 := by
  have hk : (g.sq s).Piece ≠ PieceType.King := by rw [hpawn]; decide
  have e := congrArg Prod.fst (GetTravelMap_guarded g q s spec ik diag)
  dsimp only at e
  rw [← e]
  have hdy0 : dy ≠ 0 := by
    rw [hdy]
    split <;> decide
  have hidx : XY.ofIdx (toFin8 s.x) (toFin8 (s.y + dy)) = s.add ⟨0, dy⟩ := by
    have := ofIdx_toFin8 ⟨s.x, s.y + dy⟩ ht
    dsimp only at this
    rw [this]
    unfold XY.add
    simp
  have hadd : s.add ⟨0, dy⟩ = ⟨s.x, s.y + dy⟩ := by
    unfold XY.add
    simp
  have h1 : (GetTravelMap g q s false spec true ik diag).1 (toFin8 (s.y + dy)) (toFin8 s.x) = 1 := by
    rw [GetTravelMap_not_king g q s hs hown hk]
    refine ⟨⟨0, dy⟩, ?_, ?_⟩
    · unfold SpeedVectorsOf
      simp only [hpawn, if_true]
      unfold PawnSpeedVectors
      dsimp only
      rw [← hdy, List.mem_append, List.mem_append]
      left; left
      rw [if_pos (by simp [ht, hempty])]
      exact List.mem_cons_self _ _
    · have hd : DistanceOf g s ik = 1 := by
        unfold DistanceOf
        simp [hpawn]
      rw [hd, (Travel_marks g q s ⟨0, dy⟩ 1 hs (Or.inr hdy0) _ _).1, Reached_one, hidx]
      refine ⟨rfl, ?_, ?_, ?_⟩
      · rw [hadd]; exact ht
      · rw [hadd, hempty]
        rcases hq with rfl | rfl <;> decide
      · rw [hown]
        exact fun hc => (Opponent_ne q hq).1 hc.symm
  omega

/-- C38. Pawn pushes count as attacks in the danger map.  For every board and
player `q` (Black or White), the square directly ahead of a pawn of `q` (one row
down for Black, one row up for White), when it is on the board and empty, is
marked in `GetTravelMapGlobal(q, true, true, true)`; consequently it is not
marked in the map of any king of the opposing side computed with
`SubstractKingIllegal = true`, whatever the other flags and whether or not a
piece of `q` could capture on it. -/
theorem pawn_push_in_danger_map (g : Game) (q : Int) (s : XY) (dy : Int)
    (hq : q = PlayerType.Black ∨ q = PlayerType.White)
    (hdy : dy = if q = PlayerType.Black then 1 else -1)
    (hs : s.InRange8 = true) (hown : GetOwner g s = q)
    (hpawn : GetPiece g s = PieceType.Pawn)
    (ht : (XY.mk s.x (s.y + dy)).InRange8 = true)
    (hempty : GetOwner g ⟨s.x, s.y + dy⟩ = PlayerType.Nobody) :
    (GetTravelMapGlobal g q true true true).1.at ⟨s.x, s.y + dy⟩ = 1
    ∧ ∀ (k : XY) (spec prevent ik diag : Bool), GetPiece g k = PieceType.King →
        (GetTravelMap g (Opponent q) k true spec prevent ik diag).1.at ⟨s.x, s.y + dy⟩ = 0 := by
  unfold GetOwner at hown hempty
  unfold GetPiece at hpawn
  have hm := pawn_push_marked g q s dy hq hdy hs hown hpawn ht hempty false true true
  have hm2 : GetTravelMapGuarded g q (XY.ofIdx (toFin8 s.x) (toFin8 s.y)) false true true
      (toFin8 (s.y + dy)) (toFin8 s.x) > 0 := by
    rw [ofIdx_toFin8 s hs]
    exact hm
  have ho : (g.Board (toFin8 s.y) (toFin8 s.x)).Owner = q := by
    rw [← sq_of_inRange g s hs]
    exact hown
  have hmark := GetTravelMapGlobalGuarded_marks g q true true _ _ _ _ ho hm2
  have hat : ∀ m : Matrix8, m.at ⟨s.x, s.y + dy⟩ = m (toFin8 (s.y + dy)) (toFin8 s.x) := by
    intro m
    unfold Matrix8.at
    rw [if_pos ht]
  refine ⟨?_, ?_⟩
  · rw [GetTravelMapGlobal_guarded, hat]
    exact hmark
  · intro k spec prevent ik diag hk
    unfold GetPiece at hk
    rw [hat]
    have h0 := GetTravelMap_fst_nonneg g (Opponent q) k true spec prevent ik diag
      (toFin8 (s.y + dy)) (toFin8 s.x)
    by_contra hne
    have h2 := GetTravelMap_king_avoids g (Opponent q) k hk spec prevent ik diag
      (toFin8 (s.y + dy)) (toFin8 s.x) (by omega)
    rw [Opponent_Opponent q hq, hmark] at h2
    exact absurd h2 (by decide)

/-- C38 at a concrete input: in `PawnOnE2` the square e3 `(4,5)` ahead of the
white pawn on e2 `(4,6)` is marked in White's combined map and in no map of a
black king. -/
theorem pawn_push_in_danger_map_witness :
    (GetTravelMapGlobal PawnOnE2 PlayerType.White true true true).1.at ⟨4, 6 + -1⟩ = 1
    ∧ ∀ (k : XY) (spec prevent ik diag : Bool), GetPiece PawnOnE2 k = PieceType.King →
        (GetTravelMap PawnOnE2 (Opponent PlayerType.White) k true spec prevent ik diag).1.at
          ⟨4, 6 + -1⟩ = 0 :=
  pawn_push_in_danger_map PawnOnE2 PlayerType.White ⟨4, 6⟩ (-1) (Or.inr rfl) (by decide)
    (by decide) (by decide!) (by decide!) (by decide) (by decide!)

/-- C35, evaluated on `EnPassantOnly`.  White has exactly one king, on a1, and
is not in check; `PlayerCanMove(White)` answers false and `Stalemate(White)`
true, yet `Move` accepts the en-passant capture e5xd6 by the white pawn: the
pawn lands on d6 `(3,2)` and the black pawn on d5 `(3,3)` is removed. -/
theorem en_passant_missed_by_game_end_detection :
    (∀ y x : Fin 8, (GetOwner EnPassantOnly (XY.ofIdx x y) = PlayerType.White
        ∧ GetPiece EnPassantOnly (XY.ofIdx x y) = PieceType.King) ↔ (y = 7 ∧ x = 0))
    ∧ GetTurn EnPassantOnly = PlayerType.White
    ∧ KingInCheck EnPassantOnly PlayerType.White = false
    ∧ (PlayerCanMove EnPassantOnly PlayerType.White).1 = false
    ∧ (Stalemate EnPassantOnly PlayerType.White).1 = true
    ∧ (Checkmate EnPassantOnly PlayerType.White).1 = false
    ∧ GetOwner EnPassantOnly ⟨4, 3⟩ = PlayerType.White
    ∧ GetPiece EnPassantOnly ⟨4, 3⟩ = PieceType.Pawn
    ∧ (Move EnPassantOnly ⟨4, 3⟩ ⟨3, 2⟩).1 = true
    ∧ GetOwner (Move EnPassantOnly ⟨4, 3⟩ ⟨3, 2⟩).2 ⟨3, 2⟩ = PlayerType.White
    ∧ GetPiece (Move EnPassantOnly ⟨4, 3⟩ ⟨3, 2⟩).2 ⟨3, 2⟩ = PieceType.Pawn
    ∧ GetOwner (Move EnPassantOnly ⟨4, 3⟩ ⟨3, 2⟩).2 ⟨3, 3⟩ = PlayerType.Nobody := by
  have hm : (Move EnPassantOnly ⟨4, 3⟩ ⟨3, 2⟩).1 = true := by
    rw [Move_fst_iff, GetTravelMap_fst _ _ _ (by decide)]
    decide!
  rw [Move_snd_of_success _ _ _ hm]
  refine ⟨by decide!, by decide!, by decide!, by decide!, by decide!, by decide!, by decide!,
    by decide!, hm, by decide!, by decide!, by decide!⟩

/-- C36, evaluated on `KingOnG1Flagged`, the state that
`UpdateCastlingInformation(White)` leaves from `KingOnG1`.  The white king stands
on g1 `(6,7)` and its own square is marked in
`GetTravelMap(White, g1, true, true, false, true, false)`; `Move(g1, g1)` succeeds,
after which White owns one square instead of two and has no king. -/
theorem king_square_marked_for_king :
    KingOnG1Flagged = UpdateCastlingInformation KingOnG1 PlayerType.White
    ∧ GetOwner KingOnG1Flagged ⟨6, 7⟩ = PlayerType.White
    ∧ GetPiece KingOnG1Flagged ⟨6, 7⟩ = PieceType.King
    ∧ (KingOnG1Flagged.sq ⟨6, 7⟩).Touched = true
    ∧ (KingOnG1Flagged.sq ⟨6, 7⟩).CastlingTarget = true
    ∧ (GetTravelMap KingOnG1Flagged PlayerType.White ⟨6, 7⟩
        true true false true false).1.at ⟨6, 7⟩ = 1
    ∧ (Move KingOnG1Flagged ⟨6, 7⟩ ⟨6, 7⟩).1 = true
    ∧ OwnedSquares KingOnG1Flagged PlayerType.White = 2
    ∧ OwnedSquares (Move KingOnG1Flagged ⟨6, 7⟩ ⟨6, 7⟩).2 PlayerType.White = 1
    ∧ GetOwner (Move KingOnG1Flagged ⟨6, 7⟩ ⟨6, 7⟩).2 ⟨6, 7⟩ = PlayerType.Nobody
    ∧ FindKing (Move KingOnG1Flagged ⟨6, 7⟩ ⟨6, 7⟩).2 PlayerType.White = ⟨-1, -1⟩ := by
  have hmap : (GetTravelMap KingOnG1Flagged PlayerType.White ⟨6, 7⟩
      true true false true false).1.at ⟨6, 7⟩ = 1 := by
    rw [GetTravelMap_fst _ _ _ (by decide)]
    decide!
  have hm : (Move KingOnG1Flagged ⟨6, 7⟩ ⟨6, 7⟩).1 = true := by
    rw [Move_fst_iff, GetTravelMap_fst _ _ _ (by decide)]
    decide!
  rw [Move_snd_of_success _ _ _ hm]
  refine ⟨rfl, by decide!, by decide!, by decide!, by decide!, hmap, hm, by decide!, by decide!,
    by decide!, by decide!⟩

/-! ## The en-passant capture by the player to move -/

/-- The board after a pawn of the player to move has landed on an en-passant
target: the state after `// Move the piece` with the square picked by the
en-passant block emptied. -/
theorem en_passant_blocks (g : Game) (s d : XY) (h : (Move g s d).1 = true)
    (hp : (g.sq s).Piece = PieceType.Pawn) (he : (g.sq d).EnPassantTarget = true) :
    CaptureEnPassant (CastleRook (MovePiece g s d) s d) d
      = (MovePiece g s d).setSq (CaptureSquare g d)
          (fun q => { q with Owner := PlayerType.Nobody, Piece := PieceType.NoPiece }) := by
  obtain ⟨_, hd⟩ := Move_success_inRange g s d h
  have hk : (g.sq s).Piece ≠ PieceType.King := by rw [hp]; decide
  have hne : d ≠ s := by
    intro hc
    have := Move_success_not_own g s d h hk
    rw [hc] at this
    exact this rfl
  have hdst : ((MovePiece g s d).sq d).Piece = PieceType.Pawn := by
    rw [MovePiece_sq_dst g s d hd, if_neg hne]
    exact hp
  rw [CastleRook_of_not_king _ s d (by rw [hdst]; decide), CaptureEnPassant_eq,
    if_pos ⟨hdst, by rw [MovePiece_sq_EnPassantTarget]; exact he⟩]
  have hc : CaptureSquare (MovePiece g s d) d = CaptureSquare g d := by
    unfold CaptureSquare
    rw [MovePiece_Turn]
  rw [hc]

end AlderChess
